import Mathlib

/-!
# go-data-checksum: a shallow embedding of the chunked range-checksum engine

The definitions below follow `pkg/checksum/checksum.go`, `pkg/checksum/differ.go`,
`pkg/types/types.go`, `pkg/tracking/tracker.go`, `pkg/resume/resume.go` and
`pkg/timerange/checksum_time_range.go`.  Database answers are explicit inputs: a
query is described by what the builder, `db.Query`, every `rows.Scan` and
`rows.Err` gave back.  Durations and logging are left out.
-/

namespace GoDataChecksum

/-! ## Values and slices -/

/-- A Go `error` value, identified by its message. -/
abbrev Error := String

/-- A dynamically typed scan value (`interface{}`): `null` is the nil interface,
`bytes` a `[]uint8`, `other` any other dynamic type together with the text that
`fmt.Sprintf("%+v", val)` renders for it. -/
inductive Value where
  | null
  | bytes (s : String)
  | other (rendered : String)
  deriving DecidableEq, Repr

/-- The `abstractValues` of a `types.ColumnValues`; the scan pointers alias them. -/
abbrev ColumnValues := List Value

/-- `types.NewColumnValues(length)`: `length` nil values. -/
def NewColumnValues (length : Nat) : ColumnValues :=
  List.replicate length Value.null

/-- The text `fmt` renders for a `[]uint8` under `%v` / `%+v`: the decimal bytes
between brackets, as in `[49 50]`. -/
def sprintfBytes (s : String) : String :=
  "[" ++ " ".intercalate (s.toUTF8.toList.map (fun b => toString b.toNat)) ++ "]"

/-- `fmt.Sprintf("%v", val)` (and `"%+v"`) for a scan value. -/
def sprintfV : Value → String
  | Value.null => "<nil>"
  | Value.bytes s => sprintfBytes s
  | Value.other rendered => rendered

/-- The body of `ColumnValues.StringColumn` for the value found at the index: a
`[]uint8` is converted to a string, anything else is rendered with `%+v`. -/
def Value.asString : Value → String
  | Value.bytes s => s
  | v => sprintfV v

/-- `ColumnValues.StringColumn(index)`; Go panics when the index is out of range
(`none`). -/
def StringColumn (cv : ColumnValues) (index : Nat) : Option String :=
  (cv.get? index).map Value.asString

/-- A Go `[]string`: `none` is the nil slice, `some xs` a non-nil slice with
elements `xs`. -/
abbrev GoStrings := Option (List String)

/-- The elements of a `[]string` (a nil slice has none). -/
def GoStrings.elems : GoStrings → List String
  | none => []
  | some xs => xs

/-- Go `append(ret, s)`: the result is never nil. -/
def GoStrings.append (ret : GoStrings) (s : String) : GoStrings :=
  some (ret.elems ++ [s])

/-- `reflect.DeepEqual` on two `[]string`: both nil, or both non-nil with the same
length and equal elements. -/
def deepEqual : GoStrings → GoStrings → Bool
  | none, none => true
  | some xs, some ys => decide (xs = ys)
  | _, _ => false

/-- A `[]string` as `QueryChecksumFunc` can send it: nil, or non-nil and non-empty. -/
def GoStrings.fetched : GoStrings → Prop
  | none => True
  | some xs => xs ≠ []

/-! ## Query answers -/

/-- What one `rows.Next()` / `rows.Scan(...)` round gave: the scanned row (of type
`α`: a key tuple, a single column, ...), or the error returned by `Scan`. -/
inductive RowScan (α : Type) where
  | ok (vals : α)
  | fail (e : Error)
  deriving DecidableEq, Repr

/-- Everything the outside world answers to one built-and-run query: the
builder's error, the error of `db.Query`, the rows delivered by `rows.Next()`
(each with the outcome of its `Scan`) and the final `rows.Err()`. -/
structure QueryOutcome (α : Type) where
  buildErr : Option Error
  queryErr : Option Error
  rows : List (RowScan α)
  rowsErr : Option Error
  deriving DecidableEq, Repr

/-- A query that built, ran and delivered the given rows without any error. -/
def QueryOutcome.success {α : Type} (rows : List α) : QueryOutcome α :=
  { buildErr := none, queryErr := none, rows := rows.map RowScan.ok, rowsErr := none }

/-! ## `IterationQueryChecksum` (checksum.go) -/

/-- The `crc32ResultStruct` sent over a result queue. -/
structure crc32ResultStruct where
  result : GoStrings
  err : Option Error
  deriving DecidableEq, Repr

/-- The `for rows.Next()` loop of `QueryChecksumFunc`: every row is scanned into a
fresh one-column `ColumnValues` (the scanned column is `val`) and its
`StringColumn(0)` appended to `ret`; a scan error sends `(ret, err)` at once. -/
def scanChecksumRows : List (RowScan Value) → GoStrings → Option Error → crc32ResultStruct
  | [], ret, rowsErr =>
      match rowsErr with
      | some e => { result := ret, err := some e }
      | none => { result := ret, err := none }
  | RowScan.fail e :: _, ret, _ => { result := ret, err := some e }
  | RowScan.ok val :: rest, ret, rowsErr =>
      scanChecksumRows rest (ret.append val.asString) rowsErr

/-- `QueryChecksumFunc`: the value it sends on its channel, given the answers to
its query.  `ret` starts as the nil slice.  The chunk bounds it reads have been
set by a successful `CalculateNextIterationRangeEndValues`. -/
def QueryChecksumFunc (q : QueryOutcome Value) : crc32ResultStruct :=
  match q.buildErr with
  | some e => { result := none, err := some e }
  | none =>
    match q.queryErr with
    | some e => { result := none, err := some e }
    | none => scanChecksumRows q.rows none q.rowsErr

/-- The inner `for j := startIndex; j < len(superset); j++` loop of
`subsetCheckFunc`, run over the part of `superset` that starts at index `j`:
the new `startIndex` when `x` is found, `none` when `founded` stays false. -/
def subsetInner (x : String) : List String → Nat → Option Nat
  | [], _ => none
  | y :: rest, j => if x = y then some (j + 1) else subsetInner x rest (j + 1)

/-- The outer `for i := 0; i < len(subset); i++` loop of `subsetCheckFunc`, over
the elements of `subset` from index `i` on, carrying `startIndex`. -/
def subsetOuter (superset : List String) : List String → Nat → Bool
  | [], _ => true
  | x :: rest, startIndex =>
      match subsetInner x (superset.drop startIndex) startIndex with
      | none => false
      | some next => subsetOuter superset rest next

/-- The closure `subsetCheckFunc` of `IterationQueryChecksum`. -/
def subsetCheckFunc (subset superset : List String) : Bool :=
  subsetOuter superset subset 0

/-- `checkLevel` as set at the top of `IterationQueryChecksum`. -/
def checkLevel (isSuperSetAsEqual : Bool) : Int :=
  if isSuperSetAsEqual then 2 else 1

/-- `IterationQueryChecksum` from the point where both results have been
received: the pair `(isChunkChecksumEqual, err)`. -/
def IterationQueryChecksum (isSuperSetAsEqual : Bool)
    (sourceResultStruct targetResultStruct : crc32ResultStruct) : Bool × Option Error :=
  match sourceResultStruct.err with
  | some e => (false, some e)
  | none =>
    match targetResultStruct.err with
    | some e => (false, some e)
    | none =>
      let sourceResult := sourceResultStruct.result
      let targetResult := targetResultStruct.result
      if deepEqual sourceResult targetResult then (true, none)
      else if checkLevel isSuperSetAsEqual = 2 then
        if !subsetCheckFunc sourceResult.elems targetResult.elems then (false, none)
        else (true, none)
      else (false, none)

/-! ## `DataChecksumByCount` (checksum.go) -/

/-- `DataChecksumByCount`: `sourceCount` and `targetCount` are what the two
`count(*)` queries scanned (`none` when the query or its scan failed).  Returns
`(isTableCountEqual, isMoreCheckNeeded, err)`; the error texts stand for the
source's messages, which also carry the table names. -/
def DataChecksumByCount (isSuperSetAsEqual : Bool) (sourceCount targetCount : Option Int) :
    Bool × Bool × Option Error :=
  match sourceCount with
  | none => (false, false, some "critical: query sourceRowCount failed")
  | some sourceRowCount =>
    match targetCount with
    | none => (false, false, some "critical: query TargetRowCount failed")
    | some targetRowCount =>
      if sourceRowCount = targetRowCount then (true, true, none)
      else if isSuperSetAsEqual && decide (sourceRowCount < targetRowCount) then (false, true, none)
      else if isSuperSetAsEqual && decide (sourceRowCount > targetRowCount) then (false, false, none)
      else if !isSuperSetAsEqual then (false, false, none)
      else (false, false, none)

/-! ## `SetChunkSize` (types.go) -/

/-- The part of `types.BaseContext` the engine reads. -/
structure BaseContext where
  ChunkSize : Int
  IsSuperSetAsEqual : Bool
  RequestedColumnNames : String := ""
  deriving DecidableEq, Repr

/-- `NewBaseContext`: chunk size 1000, superset tolerance off. -/
def NewBaseContext : BaseContext :=
  { ChunkSize := 1000, IsSuperSetAsEqual := false }

/-- `BaseContext.SetChunkSize`. -/
def BaseContext.SetChunkSize (ctx : BaseContext) (chunkSize : Int) : BaseContext :=
  let chunkSize := if chunkSize < 10 then 10 else chunkSize
  let chunkSize := if chunkSize > 100000 then 100000 else chunkSize
  { ctx with ChunkSize := chunkSize }


/-! ## `CalculateNextIterationRangeEndValues` (checksum.go) -/

/-- The part of `ChecksumContext` the range iterator and the differ work on.  The
four `*types.ColumnValues` pointers are `none` when nil.  `UniqueKey` holds the
column names of the key resolved by `GetUniqueKeys` (the pointer is non-nil) and
`Iteration` is `PerTableContext.Iteration`. -/
structure ChecksumContext where
  UniqueKey : List String
  UniqueKeyRangeMinValues : Option ColumnValues
  UniqueKeyRangeMaxValues : Option ColumnValues
  ChecksumIterationRangeMinValues : Option ColumnValues
  ChecksumIterationRangeMaxValues : Option ColumnValues
  Context : BaseContext
  Iteration : Int
  deriving DecidableEq, Repr

/-- `NewChecksumContext` for a resolved unique key: no bounds yet, iteration 0. -/
def NewChecksumContext (context : BaseContext) (uniqueKey : List String) : ChecksumContext :=
  { UniqueKey := uniqueKey
    UniqueKeyRangeMinValues := none
    UniqueKeyRangeMaxValues := none
    ChecksumIterationRangeMinValues := none
    ChecksumIterationRangeMaxValues := none
    Context := context
    Iteration := 0 }

/-- The value an `int64` holds after an arithmetic result `n`: `n` reduced modulo
`2^64` into the range from `-2^63` to `2^63 - 1` (two's complement wrap-around). -/
def wrapInt64 (n : Int) : Int :=
  (n + 9223372036854775808) % 18446744073709551616 - 9223372036854775808

/-- `AddIteration`: `atomic.AddInt64(&Iteration, 1)`, which wraps around at the
`int64` maximum. -/
def ChecksumContext.AddIteration (ctx : ChecksumContext) : ChecksumContext :=
  { ctx with Iteration := wrapInt64 (ctx.Iteration + 1) }

/-- The two statements `CalculateNextIterationRangeEndValues` tries, in loop
order: `i = 0` is `BuildUniqueKeyRangeEndPreparedQueryViaOffset`, `i = 1` is
`BuildUniqueKeyRangeEndPreparedQueryViaTemptable`. -/
inductive Strategy where
  | offset
  | temptable
  deriving DecidableEq, Repr

/-- The `for rows.Next()` loop of one pass: each scanned row overwrites
`iterationRangeMaxValues` and sets `hasFurtherRange`; a scan error stops the
loop.  Returns the buffer, `hasFurtherRange` and the scan error. -/
def scanRangeEndRows :
    List (RowScan ColumnValues) → ColumnValues → Bool → ColumnValues × Bool × Option Error
  | [], iterationRangeMaxValues, hasFurtherRange => (iterationRangeMaxValues, hasFurtherRange, none)
  | RowScan.fail e :: _, iterationRangeMaxValues, hasFurtherRange =>
      (iterationRangeMaxValues, hasFurtherRange, some e)
  | RowScan.ok vals :: rest, _, _ => scanRangeEndRows rest vals true

/-- How one pass of the `for i := 0; i < 2; i++` loop ends: with a `return`, or by
falling through to the next `i`. -/
inductive PassResult where
  | returned (ctx : ChecksumContext) (hasFurtherRange : Bool) (err : Option Error)
  | fallThrough (hasFurtherRange : Bool)
  deriving DecidableEq, Repr

/-- The body of the loop for one strategy, given the answers to its statement. -/
def rangeEndPass (ctx : ChecksumContext) (q : QueryOutcome ColumnValues)
    (hasFurtherRange : Bool) : PassResult :=
  match q.buildErr with
  | some e => PassResult.returned ctx hasFurtherRange (some e)
  | none =>
    match q.queryErr with
    | some e => PassResult.returned ctx hasFurtherRange (some e)
    | none =>
      match scanRangeEndRows q.rows (NewColumnValues ctx.UniqueKey.length) hasFurtherRange with
      | (_, hasFurtherRange, some e) => PassResult.returned ctx hasFurtherRange (some e)
      | (iterationRangeMaxValues, hasFurtherRange, none) =>
        match q.rowsErr with
        | some e => PassResult.returned ctx hasFurtherRange (some e)
        | none =>
          if hasFurtherRange then
            PassResult.returned
              { ctx with ChecksumIterationRangeMaxValues := some iterationRangeMaxValues }
              hasFurtherRange none
          else PassResult.fallThrough hasFurtherRange

/-- What a call of `CalculateNextIterationRangeEndValues` leaves behind: the
context, the returned `(hasFurtherRange, err)` (`none` when the call panicked on a
nil `*ColumnValues`), and the strategies whose pass was run, in order. -/
structure RangeEndResult where
  ctx : ChecksumContext
  ret : Option (Bool × Option Error)
  consulted : List Strategy
  deriving DecidableEq, Repr

/-- The `for i := 0; i < 2; i++` loop over the strategies still to try.  The
arguments of `buildFunc` call `AbstractValues()` on the chunk's lower bound and on
the global maximum, which panics on a nil pointer before the builder runs. -/
def rangeEndLoop (ctx : ChecksumContext) (answers : Strategy → QueryOutcome ColumnValues) :
    List Strategy → Bool → List Strategy → RangeEndResult
  | [], hasFurtherRange, consulted =>
      { ctx := ctx, ret := some (hasFurtherRange, none), consulted := consulted }
  | s :: rest, hasFurtherRange, consulted =>
      match ctx.ChecksumIterationRangeMinValues, ctx.UniqueKeyRangeMaxValues with
      | some _, some _ =>
        match rangeEndPass ctx (answers s) hasFurtherRange with
        | PassResult.returned ctx1 hasFurtherRange1 err =>
            { ctx := ctx1, ret := some (hasFurtherRange1, err), consulted := consulted ++ [s] }
        | PassResult.fallThrough hasFurtherRange1 =>
            rangeEndLoop ctx answers rest hasFurtherRange1 (consulted ++ [s])
      | _, _ => { ctx := ctx, ret := none, consulted := consulted }

/-- The first statements of `CalculateNextIterationRangeEndValues`: the lower
bound is set to the committed upper bound and, when that is nil, to the global
minimum. -/
def setIterationRangeMin (ctx : ChecksumContext) : ChecksumContext :=
  let ctx1 := { ctx with ChecksumIterationRangeMinValues := ctx.ChecksumIterationRangeMaxValues }
  if ctx1.ChecksumIterationRangeMinValues = none then
    { ctx1 with ChecksumIterationRangeMinValues := ctx1.UniqueKeyRangeMinValues }
  else ctx1

/-- `CalculateNextIterationRangeEndValues`: `answers s` is what the outside world
answers to the statement of strategy `s` in this call. -/
def CalculateNextIterationRangeEndValues (ctx : ChecksumContext)
    (answers : Strategy → QueryOutcome ColumnValues) : RangeEndResult :=
  rangeEndLoop (setIterationRangeMin ctx) answers [Strategy.offset, Strategy.temptable] false []

/-- The offset/temp-table statement went through without error and delivered no
row. -/
def QueryOutcome.succeededEmpty {α : Type} (q : QueryOutcome α) : Prop :=
  q.buildErr = none ∧ q.queryErr = none ∧ q.rows = [] ∧ q.rowsErr = none

/-! ## `ReadUniqueKeyRangeMinValues` / `ReadUniqueKeyRangeMaxValues` (checksum.go) -/

/-- The `for rows.Next()` loop of the two readers: each row is scanned into the
buffer; a scan error stops the loop. -/
def scanKeyRows : List (RowScan ColumnValues) → ColumnValues → ColumnValues × Option Error
  | [], buffer => (buffer, none)
  | RowScan.fail e :: _, buffer => (buffer, some e)
  | RowScan.ok vals :: rest, _ => scanKeyRows rest vals

/-- `ReadUniqueKeyRangeMinValues`: the context and the returned error. -/
def ReadUniqueKeyRangeMinValues (ctx : ChecksumContext) (q : QueryOutcome ColumnValues) :
    ChecksumContext × Option Error :=
  match q.buildErr with
  | some e => (ctx, some e)
  | none =>
    match q.queryErr with
    | some e => (ctx, some e)
    | none =>
      match scanKeyRows q.rows (NewColumnValues ctx.UniqueKey.length) with
      | (buffer, some e) => ({ ctx with UniqueKeyRangeMinValues := some buffer }, some e)
      | (buffer, none) => ({ ctx with UniqueKeyRangeMinValues := some buffer }, q.rowsErr)

/-- `ReadUniqueKeyRangeMaxValues`: the context and the returned error. -/
def ReadUniqueKeyRangeMaxValues (ctx : ChecksumContext) (q : QueryOutcome ColumnValues) :
    ChecksumContext × Option Error :=
  match q.buildErr with
  | some e => (ctx, some e)
  | none =>
    match q.queryErr with
    | some e => (ctx, some e)
    | none =>
      match scanKeyRows q.rows (NewColumnValues ctx.UniqueKey.length) with
      | (buffer, some e) => ({ ctx with UniqueKeyRangeMaxValues := some buffer }, some e)
      | (buffer, none) => ({ ctx with UniqueKeyRangeMaxValues := some buffer }, q.rowsErr)

/-! ## The differential analyzer (differ.go) -/

/-- `RecordData`: the key columns by name and the row checksum. -/
structure RecordData where
  PrimaryKeyValues : List (String × Value)
  Checksum : String
  deriving DecidableEq, Repr

/-- A `map[string]RecordData`: its entries in the order in which a `range` over
the map visits them (Go leaves that order unspecified), keys pairwise distinct. -/
abbrev RecordMap := List (String × RecordData)

/-- The keys of a map, in iteration order. -/
def RecordMap.keys (m : RecordMap) : List String :=
  m.map Prod.fst

/-- The map index expression `m[k]` with its `exists` flag. -/
def RecordMap.get (m : RecordMap) (k : String) : Option RecordData :=
  List.lookup k m

/-- The map assignment `m[k] = v`: an existing entry is replaced, a new one added. -/
def RecordMap.set : RecordMap → String → RecordData → RecordMap
  | [], k, v => [(k, v)]
  | (k1, v1) :: rest, k, v =>
      if k1 = k then (k, v) :: rest else (k1, v1) :: RecordMap.set rest k v

/-- `RecordDifference`. -/
structure RecordDifference where
  PrimaryKeyValues : List (String × Value)
  DifferenceType : String
  SourceChecksum : String
  TargetChecksum : String
  deriving DecidableEq, Repr

/-- `DifferenceReport`.  The four `int64` counters count map entries and stay far
below `2^63`; they are natural numbers here. -/
structure DifferenceReport where
  SourceOnlyRecords : Nat
  TargetOnlyRecords : Nat
  ModifiedRecords : Nat
  IdenticalRecords : Nat
  SampleDifferences : List RecordDifference
  deriving DecidableEq, Repr

/-- The report both `compareRecordSets` and `AnalyzeAndReportDifferences` start
from: zero counts, `make([]RecordDifference, 0)`. -/
def emptyReport : DifferenceReport :=
  { SourceOnlyRecords := 0, TargetOnlyRecords := 0, ModifiedRecords := 0,
    IdenticalRecords := 0, SampleDifferences := [] }

/-- The guarded `append` of `compareRecordSets`: a sample is kept while fewer than
10 are held. -/
def addSample (report : DifferenceReport) (d : RecordDifference) : DifferenceReport :=
  if report.SampleDifferences.length < 10 then
    { report with SampleDifferences := report.SampleDifferences ++ [d] }
  else report

/-- The body of the first loop of `compareRecordSets`, for one source entry. -/
def compareSourceEntry (targetRecords : RecordMap) (report : DifferenceReport)
    (entry : String × RecordData) : DifferenceReport :=
  let pkKey := entry.1
  let sourceRecord := entry.2
  match targetRecords.get pkKey with
  | none =>
      addSample { report with SourceOnlyRecords := report.SourceOnlyRecords + 1 }
        { PrimaryKeyValues := sourceRecord.PrimaryKeyValues
          DifferenceType := "source_only"
          SourceChecksum := sourceRecord.Checksum
          TargetChecksum := "" }
  | some targetRecord =>
      if sourceRecord.Checksum ≠ targetRecord.Checksum then
        addSample { report with ModifiedRecords := report.ModifiedRecords + 1 }
          { PrimaryKeyValues := sourceRecord.PrimaryKeyValues
            DifferenceType := "modified"
            SourceChecksum := sourceRecord.Checksum
            TargetChecksum := targetRecord.Checksum }
      else { report with IdenticalRecords := report.IdenticalRecords + 1 }

/-- The body of the second loop of `compareRecordSets`, for one target entry. -/
def compareTargetEntry (sourceRecords : RecordMap) (report : DifferenceReport)
    (entry : String × RecordData) : DifferenceReport :=
  let pkKey := entry.1
  let targetRecord := entry.2
  match sourceRecords.get pkKey with
  | none =>
      addSample { report with TargetOnlyRecords := report.TargetOnlyRecords + 1 }
        { PrimaryKeyValues := targetRecord.PrimaryKeyValues
          DifferenceType := "target_only"
          SourceChecksum := ""
          TargetChecksum := targetRecord.Checksum }
  | some _ => report

/-- `compareRecordSets`: the loop over the source map, then the loop over the
target map. -/
def compareRecordSets (sourceRecords targetRecords : RecordMap) : DifferenceReport :=
  let report := sourceRecords.foldl (compareSourceEntry targetRecords) emptyReport
  targetRecords.foldl (compareTargetEntry sourceRecords) report

/-- The key set of a map. -/
def RecordMap.keySet (m : RecordMap) : Finset String :=
  m.keys.toFinset

/-- The checksum stored under a key, if the key is present. -/
def RecordMap.checksumAt (m : RecordMap) (k : String) : Option String :=
  (m.get k).map RecordData.Checksum

/-- The `for rows.Next()` loop of `getChunkRecords`.  A scanned row is its key
columns and its checksum column; the map key is the `%v` rendering of the key
columns joined with `|`. -/
def scanRecordRows (uniqueKey : List String) :
    List (RowScan (ColumnValues × Value)) → RecordMap → Except Error RecordMap
  | [], records => Except.ok records
  | RowScan.fail e :: _, _ => Except.error e
  | RowScan.ok (pk, checksumValue) :: rest, records =>
      let pkValues := pk.map sprintfV
      let pkMap := uniqueKey.zip pk
      let pkKey := "|".intercalate pkValues
      let checksum := sprintfV checksumValue
      scanRecordRows uniqueKey rest
        (records.set pkKey { PrimaryKeyValues := pkMap, Checksum := checksum })

/-- `getChunkRecords`, called with the chunk bounds set: the map, or the error. -/
def getChunkRecords (ctx : ChecksumContext) (q : QueryOutcome (ColumnValues × Value)) :
    Except Error RecordMap :=
  match q.buildErr with
  | some e => Except.error e
  | none =>
    match q.queryErr with
    | some e => Except.error e
    | none =>
      match scanRecordRows ctx.UniqueKey q.rows [] with
      | Except.error e => Except.error e
      | Except.ok records =>
        match q.rowsErr with
        | some e => Except.error e
        | none => Except.ok records

/-- `analyzeChunkDifferences`: both sides are fetched, then compared. -/
def analyzeChunkDifferences (ctx : ChecksumContext)
    (source target : QueryOutcome (ColumnValues × Value)) : Except Error DifferenceReport :=
  match getChunkRecords ctx source with
  | Except.error e => Except.error ("failed to get source records: " ++ e)
  | Except.ok sourceRecords =>
    match getChunkRecords ctx target with
    | Except.error e => Except.error ("failed to get target records: " ++ e)
    | Except.ok targetRecords => Except.ok (compareRecordSets sourceRecords targetRecords)

/-- The "Aggregate results" block of `AnalyzeAndReportDifferences`: the counts
are added, and the chunk's samples are appended when fewer than 100 are held. -/
def aggregate (report chunkReport : DifferenceReport) : DifferenceReport :=
  { SourceOnlyRecords := report.SourceOnlyRecords + chunkReport.SourceOnlyRecords
    TargetOnlyRecords := report.TargetOnlyRecords + chunkReport.TargetOnlyRecords
    ModifiedRecords := report.ModifiedRecords + chunkReport.ModifiedRecords
    IdenticalRecords := report.IdenticalRecords + chunkReport.IdenticalRecords
    SampleDifferences :=
      if report.SampleDifferences.length < 100 then
        report.SampleDifferences ++ chunkReport.SampleDifferences
      else report.SampleDifferences }

/-- What the outside world answers during one round of the analysis loop: to the
range-end statements, and to the per-row statements on both sides. -/
structure ChunkAnswers where
  rangeEnd : Strategy → QueryOutcome ColumnValues
  sourceRecords : QueryOutcome (ColumnValues × Value)
  targetRecords : QueryOutcome (ColumnValues × Value)

/-- How a run of `AnalyzeAndReportDifferences` ends: it returns (with its error),
it panics on a nil pointer, or the scripted answers end before the loop does. -/
inductive AnalysisOutcome where
  | returned (err : Option Error)
  | panicked
  | unanswered
  deriving DecidableEq, Repr

/-- The context and the aggregate report at the end of a run. -/
structure AnalysisResult where
  ctx : ChecksumContext
  report : DifferenceReport
  outcome : AnalysisOutcome
  deriving DecidableEq, Repr

/-- The `for hasFurtherRange` loop of `AnalyzeAndReportDifferences`; each round
takes the next answers of the script. -/
def analyzeLoop : List ChunkAnswers → ChecksumContext → DifferenceReport → AnalysisResult
  | [], ctx, report => { ctx := ctx, report := report, outcome := AnalysisOutcome.unanswered }
  | a :: rest, ctx, report =>
      let r := CalculateNextIterationRangeEndValues ctx a.rangeEnd
      match r.ret with
      | none => { ctx := r.ctx, report := report, outcome := AnalysisOutcome.panicked }
      | some (_, some e) =>
          { ctx := r.ctx, report := report, outcome := AnalysisOutcome.returned (some e) }
      | some (false, none) =>
          { ctx := r.ctx, report := report, outcome := AnalysisOutcome.returned none }
      | some (true, none) =>
          match analyzeChunkDifferences r.ctx a.sourceRecords a.targetRecords with
          | Except.error e =>
              { ctx := r.ctx, report := report, outcome := AnalysisOutcome.returned (some e) }
          | Except.ok chunkReport =>
              analyzeLoop rest r.ctx.AddIteration (aggregate report chunkReport)

/-- `AnalyzeAndReportDifferences`, called after `GetUniqueKeys` and
`GetCheckColumns`: the global minimum and maximum are read, then the chunks are
walked. -/
def AnalyzeAndReportDifferences (ctx : ChecksumContext)
    (minAnswer maxAnswer : QueryOutcome ColumnValues) (chunks : List ChunkAnswers) :
    AnalysisResult :=
  match ReadUniqueKeyRangeMinValues ctx minAnswer with
  | (ctx1, some e) =>
      { ctx := ctx1, report := emptyReport, outcome := AnalysisOutcome.returned (some e) }
  | (ctx1, none) =>
    match ReadUniqueKeyRangeMaxValues ctx1 maxAnswer with
    | (ctx2, some e) =>
        { ctx := ctx2, report := emptyReport, outcome := AnalysisOutcome.returned (some e) }
    | (ctx2, none) => analyzeLoop chunks ctx2 emptyReport

/-! ## Example inputs -/

/-- A context after both global bounds were read: key column `id`, minimum 1,
maximum 9, no chunk committed yet. -/
def exampleContext : ChecksumContext :=
  { UniqueKey := ["id"]
    UniqueKeyRangeMinValues := some [Value.other "1"]
    UniqueKeyRangeMaxValues := some [Value.other "9"]
    ChecksumIterationRangeMinValues := none
    ChecksumIterationRangeMaxValues := none
    Context := NewBaseContext
    Iteration := 0 }

/-- Answers of a call whose offset statement delivers the key 7. -/
def exampleAnswers : Strategy → QueryOutcome ColumnValues
  | Strategy.offset => QueryOutcome.success [[Value.other "7"]]
  | Strategy.temptable => QueryOutcome.success []

/-- Answers of the call for the last chunk: the offset statement delivers
nothing, the temp-table statement delivers the key 9. -/
def exampleTailAnswers : Strategy → QueryOutcome ColumnValues
  | Strategy.offset => QueryOutcome.success []
  | Strategy.temptable => QueryOutcome.success [[Value.other "9"]]

/-- The context of an empty table with key column `id`: both readers ran and
found no row. -/
def emptyTableContext : ChecksumContext :=
  (ReadUniqueKeyRangeMaxValues
    (ReadUniqueKeyRangeMinValues (NewChecksumContext NewBaseContext ["id"])
      (QueryOutcome.success [])).1
    (QueryOutcome.success [])).1

/-- Answers of a call in which no statement delivers a row. -/
def emptyAnswers : Strategy → QueryOutcome ColumnValues :=
  fun _ => QueryOutcome.success []

/-- A source chunk with the keys K1, K3 and K4. -/
def exampleSourceRecords : RecordMap :=
  [("K1", { PrimaryKeyValues := [("id", Value.other "K1")], Checksum := "a1" }),
   ("K3", { PrimaryKeyValues := [("id", Value.other "K3")], Checksum := "c3" }),
   ("K4", { PrimaryKeyValues := [("id", Value.other "K4")], Checksum := "d4" })]

/-- A target chunk with the keys K2, K3 and K4; K3 has another checksum than on
the source. -/
def exampleTargetRecords : RecordMap :=
  [("K2", { PrimaryKeyValues := [("id", Value.other "K2")], Checksum := "b2" }),
   ("K3", { PrimaryKeyValues := [("id", Value.other "K3")], Checksum := "c3x" }),
   ("K4", { PrimaryKeyValues := [("id", Value.other "K4")], Checksum := "d4" })]

/-- The per-row answer of the source for the row with the given id. -/
def exampleSourceRow (id : Nat) : ColumnValues × Value :=
  ([Value.other (toString id)], Value.other "5d41")

/-- The per-row answer of the target: the rows whose id is a multiple of 10 (120
apart) carry the source's checksum, every other row a different one. -/
def exampleTargetRow (id : Nat) : ColumnValues × Value :=
  ([Value.other (toString id)],
    Value.other (if id % 10 = 0 ∧ id ≠ 120 then "5d41" else "7a08"))

/-- The ids fetched for chunk `j` of a table with ids 1..120 at chunk size 10: the
rows from the chunk's lower bound to its upper bound, both included. -/
def exampleChunkIds (j : Nat) : List Nat :=
  List.range' (if j = 0 then 1 else 10 * j) (if j = 0 then 10 else 11)

/-- The answers of round `j`: the offset statement delivers the key `10 j + 10`,
and both sides deliver the rows of the chunk. -/
def exampleChunk (j : Nat) : ChunkAnswers :=
  { rangeEnd := fun s =>
      match s with
      | Strategy.offset => QueryOutcome.success [[Value.other (toString (10 * j + 10))]]
      | Strategy.temptable => QueryOutcome.success []
    sourceRecords := QueryOutcome.success ((exampleChunkIds j).map exampleSourceRow)
    targetRecords := QueryOutcome.success ((exampleChunkIds j).map exampleTargetRow) }

/-- The answers of the last round: no statement delivers a row. -/
def exampleFinalRound : ChunkAnswers :=
  { rangeEnd := fun _ => QueryOutcome.success []
    sourceRecords := QueryOutcome.success []
    targetRecords := QueryOutcome.success [] }

/-- Twelve chunks, then the exhausted round. -/
def exampleScript : List ChunkAnswers :=
  (List.range 12).map exampleChunk ++ [exampleFinalRound]

/-- The run of `AnalyzeAndReportDifferences` on the table with ids 1..120 at chunk
size 10. -/
def exampleAnalysis : AnalysisResult :=
  AnalyzeAndReportDifferences
    (NewChecksumContext (NewBaseContext.SetChunkSize 10) ["id"])
    (QueryOutcome.success [[Value.other "1"]])
    (QueryOutcome.success [[Value.other "120"]])
    exampleScript

/-! ## Classification of samples -/

/-- The sample kept for a source entry whose key the target lacks. -/
def sourceOnlySample (entry : String × RecordData) : RecordDifference :=
  { PrimaryKeyValues := entry.2.PrimaryKeyValues
    DifferenceType := "source_only"
    SourceChecksum := entry.2.Checksum
    TargetChecksum := "" }

/-- The sample kept for a source entry whose key the target holds with another
checksum. -/
def modifiedSample (entry : String × RecordData) (targetRecord : RecordData) :
    RecordDifference :=
  { PrimaryKeyValues := entry.2.PrimaryKeyValues
    DifferenceType := "modified"
    SourceChecksum := entry.2.Checksum
    TargetChecksum := targetRecord.Checksum }

/-- The sample kept for a target entry whose key the source lacks. -/
def targetOnlySample (entry : String × RecordData) : RecordDifference :=
  { PrimaryKeyValues := entry.2.PrimaryKeyValues
    DifferenceType := "target_only"
    SourceChecksum := ""
    TargetChecksum := entry.2.Checksum }

/-- The sample `d` is the one of an entry of `S` or `T`, tagged as the
classification of that entry's key demands: `source_only` for a key of `S` that
`T` lacks, `modified` for a key of both with differing checksums, `target_only`
for a key of `T` that `S` lacks. -/
def sampleAgrees (S T : RecordMap) (d : RecordDifference) : Prop :=
  (∃ entry ∈ S, entry.1 ∉ T.keySet ∧ d = sourceOnlySample entry) ∨
  (∃ entry ∈ S, ∃ targetRecord, T.get entry.1 = some targetRecord ∧
    entry.2.Checksum ≠ targetRecord.Checksum ∧ d = modifiedSample entry targetRecord) ∨
  (∃ entry ∈ T, entry.1 ∉ S.keySet ∧ d = targetOnlySample entry)

/-- What `compareRecordSets` keeps up between its counters and its samples: the
number of samples is the number of differences counted so far, capped at 10, and
every sample agrees with the classification of its key. -/
def samplesInvariant (S T : RecordMap) (report : DifferenceReport) : Prop :=
  report.SampleDifferences.length =
      min 10 (report.SourceOnlyRecords + report.ModifiedRecords + report.TargetOnlyRecords) ∧
    ∀ d ∈ report.SampleDifferences, sampleAgrees S T d

/-! ## The analysis loop with its range calls recorded -/

/-- The loop of `analyzeLoop`, which also records what every call of
`CalculateNextIterationRangeEndValues` returned, in call order. -/
def analyzeLoopTraced :
    List ChunkAnswers → ChecksumContext → DifferenceReport →
      AnalysisResult × List (Option (Bool × Option Error))
  | [], ctx, report =>
      ({ ctx := ctx, report := report, outcome := AnalysisOutcome.unanswered }, [])
  | a :: rest, ctx, report =>
      let r := CalculateNextIterationRangeEndValues ctx a.rangeEnd
      match r.ret with
      | none =>
          ({ ctx := r.ctx, report := report, outcome := AnalysisOutcome.panicked }, [none])
      | some (hasFurtherRange, some e) =>
          ({ ctx := r.ctx, report := report, outcome := AnalysisOutcome.returned (some e) },
            [some (hasFurtherRange, some e)])
      | some (false, none) =>
          ({ ctx := r.ctx, report := report, outcome := AnalysisOutcome.returned none },
            [some (false, none)])
      | some (true, none) =>
          match analyzeChunkDifferences r.ctx a.sourceRecords a.targetRecords with
          | Except.error e =>
              ({ ctx := r.ctx, report := report, outcome := AnalysisOutcome.returned (some e) },
                [some (true, none)])
          | Except.ok chunkReport =>
              let next := analyzeLoopTraced rest r.ctx.AddIteration (aggregate report chunkReport)
              (next.1, some (true, none) :: next.2)

/-- `AnalyzeAndReportDifferences` with the returns of its range calls recorded. -/
def AnalyzeAndReportDifferencesTraced (ctx : ChecksumContext)
    (minAnswer maxAnswer : QueryOutcome ColumnValues) (chunks : List ChunkAnswers) :
    AnalysisResult × List (Option (Bool × Option Error)) :=
  match ReadUniqueKeyRangeMinValues ctx minAnswer with
  | (ctx1, some e) =>
      ({ ctx := ctx1, report := emptyReport, outcome := AnalysisOutcome.returned (some e) }, [])
  | (ctx1, none) =>
    match ReadUniqueKeyRangeMaxValues ctx1 maxAnswer with
    | (ctx2, some e) =>
        ({ ctx := ctx2, report := emptyReport, outcome := AnalysisOutcome.returned (some e) }, [])
    | (ctx2, none) => analyzeLoopTraced chunks ctx2 emptyReport

/-- The number of range calls that reported a further range without error. -/
def furtherRangeCalls (calls : List (Option (Bool × Option Error))) : Nat :=
  calls.count (some (true, none))

/-- A fresh context for the key column `id` at chunk size 10. -/
def exampleShortContext : ChecksumContext :=
  NewChecksumContext (NewBaseContext.SetChunkSize 10) ["id"]

/-- Two chunks of the example table, then the exhausted round. -/
def exampleShortScript : List ChunkAnswers :=
  [exampleChunk 0, exampleChunk 1, exampleFinalRound]

/-- The run over `exampleShortScript`, with its range calls. -/
def exampleShortRun : AnalysisResult × List (Option (Bool × Option Error)) :=
  AnalyzeAndReportDifferencesTraced exampleShortContext
    (QueryOutcome.success [[Value.other "1"]])
    (QueryOutcome.success [[Value.other "20"]])
    exampleShortScript

/-! ## Column lists (types.go) -/

/-- `strings.Split(s, sep)` for a one-character separator, on the characters of
`s`: the fields between the separators, in order; the empty string gives one
empty field. -/
def splitChars (sep : Char) : List Char → List (List Char)
  | [] => [[]]
  | c :: cs =>
      if c = sep then [] :: splitChars sep cs
      else
        match splitChars sep cs with
        | [] => [[c]]
        | field :: rest => (c :: field) :: rest

/-- `strings.Split(s, ",")`. -/
def stringsSplitComma (s : String) : List String :=
  (splitChars ',' s.data).map String.mk

/-- `strings.Join(elems, sep)`. -/
def stringsJoin : List String → String → String
  | [], _ => ""
  | [a], _ => a
  | a :: b :: rest, sep => a ++ sep ++ stringsJoin (b :: rest) sep

/-- `strings.Join` on characters, for a one-character separator. -/
def joinChars (sep : Char) : List (List Char) → List Char
  | [] => []
  | [a] => a
  | a :: b :: rest => a ++ sep :: joinChars sep (b :: rest)

/-- `types.Column` (its field `Type` is `ColumnType` here); `NewColumns` fills in
the name only, the other fields keep their zero values. -/
structure Column where
  Name : String
  IsUnsigned : Bool := false
  Charset : String := ""
  ColumnType : Nat := 0
  EnumValues : String := ""
  TimezoneConversion : Option String := none
  EnumToTextConversion : Bool := false
  BinaryOctetLength : Nat := 0
  deriving DecidableEq, Repr

/-- `NewColumns`. -/
def NewColumns (names : List String) : List Column :=
  names.map (fun name => { Name := name })

/-- `ParseColumns`. -/
def ParseColumns (names : String) : List Column :=
  NewColumns (stringsSplitComma names)

/-- `ColumnsMap`, a `map[string]int`, as its entries. -/
abbrev ColumnsMap := List (String × Nat)

/-- The map assignment `columnsMap[name] = i`. -/
def ColumnsMap.set : ColumnsMap → String → Nat → ColumnsMap
  | [], name, i => [(name, i)]
  | (name1, i1) :: rest, name, i =>
      if name1 = name then (name, i) :: rest else (name1, i1) :: ColumnsMap.set rest name i

/-- The map index expression `columnsMap[name]` with its `ok` flag. -/
def ColumnsMap.get (m : ColumnsMap) (name : String) : Option Nat :=
  List.lookup name m

/-- The loop of `NewColumnsMap` over the columns from position `i` on. -/
def newColumnsMapFrom : List Column → Nat → ColumnsMap → ColumnsMap
  | [], _, columnsMap => columnsMap
  | column :: rest, i, columnsMap =>
      newColumnsMapFrom rest (i + 1) (columnsMap.set column.Name i)

/-- `NewColumnsMap`. -/
def NewColumnsMap (orderedColumns : List Column) : ColumnsMap :=
  newColumnsMapFrom orderedColumns 0 []

/-- `types.ColumnList`. -/
structure ColumnList where
  columns : List Column
  Ordinals : ColumnsMap
  deriving DecidableEq, Repr

/-- `NewColumnList`. -/
def NewColumnList (names : List String) : ColumnList :=
  { columns := NewColumns names, Ordinals := NewColumnsMap (NewColumns names) }

/-- `ParseColumnList`. -/
def ParseColumnList (names : String) : ColumnList :=
  { columns := ParseColumns names, Ordinals := NewColumnsMap (ParseColumns names) }

/-- What `GetColumn` gives back: the pointer `&cl.columns[ordinal]` (the position
it points at and the column held there), or the nil pointer; the index
expression panics when the ordinal is not a position of `cl.columns`. -/
inductive ColumnPointer where
  | element (ordinal : Nat) (column : Column)
  | nil
  | indexOutOfRange
  deriving DecidableEq, Repr

/-- `ColumnList.GetColumn`. -/
def ColumnList.GetColumn (cl : ColumnList) (columnName : String) : ColumnPointer :=
  match cl.Ordinals.get columnName with
  | some ordinal =>
      match cl.columns[ordinal]? with
      | some column => ColumnPointer.element ordinal column
      | none => ColumnPointer.indexOutOfRange
  | none => ColumnPointer.nil

/-- `ColumnList.Names`. -/
def ColumnList.Names (cl : ColumnList) : List String :=
  cl.columns.map Column.Name

/-- `ColumnList.String`. -/
def ColumnList.String (cl : ColumnList) : String :=
  stringsJoin cl.Names ","

/-- `ColumnList.Len`. -/
def ColumnList.Len (cl : ColumnList) : Nat :=
  cl.columns.length

/-! ## The schema introspector (checksum.go) -/

/-- The part of `ChecksumContext` the schema introspector reads and writes.  The
`*types.ColumnList` pointers are `none` when nil; `RequestedColumnNames` is
`ctx.Context.RequestedColumnNames`. -/
structure SchemaContext where
  RequestedColumnNames : String
  CheckColumns : Option ColumnList
  UniqueKey : Option ColumnList
  UniqueIndexName : String
  deriving DecidableEq, Repr

/-- The schema part of `NewChecksumContext`: nothing resolved yet. -/
def NewSchemaContext (requestedColumnNames : String) : SchemaContext :=
  { RequestedColumnNames := requestedColumnNames
    CheckColumns := none
    UniqueKey := none
    UniqueIndexName := "" }

/-- What the source database answers to the transaction of `GetCheckColumns`:
the errors of `Begin`, of the `SET SESSION` statement and of `Commit`, and what
`QueryRow(...).Scan(&columnNames)` gave. -/
structure CheckColumnsAnswer where
  beginErr : Option Error
  execErr : Option Error
  scan : Except Error String
  commitErr : Option Error

/-- `GetCheckColumns`: the context, the returned error, and the database calls
made, in order. -/
def GetCheckColumns (ctx : SchemaContext) (db : CheckColumnsAnswer) :
    SchemaContext × Option Error × List String :=
  if ctx.RequestedColumnNames ≠ "" then
    ({ ctx with CheckColumns := some (ParseColumnList ctx.RequestedColumnNames) }, none, [])
  else
    match db.beginErr with
    | some e => (ctx, some e, ["Begin"])
    | none =>
      match db.execErr with
      | some e => (ctx, some e, ["Begin", "Exec", "Rollback"])
      | none =>
        match db.scan with
        | Except.error e => (ctx, some e, ["Begin", "Exec", "QueryRow", "Rollback"])
        | Except.ok columnNames =>
            ({ ctx with CheckColumns := some (ParseColumnList columnNames) }, db.commitErr,
              ["Begin", "Exec", "QueryRow", "Commit", "Rollback"])

/-! ## `GetUniqueKeys` (checksum.go) -/

/-- One row of the result set of the `GetUniqueKeys` statement before its
`ORDER BY ... LIMIT 1`: a unique index of the table with the data type and
character set of its leading column. -/
structure UniqueKeyCandidate where
  IndexName : String
  FirstColumnName : String
  ColumnNames : String
  CountColumnInIndex : Nat
  DataType : String
  CharacterSetName : String
  HasNullable : Bool
  deriving DecidableEq, Repr

/-- The `CASE DATA_TYPE ... END` of the `ORDER BY`. -/
def dataTypeRank (dataType : String) : Nat :=
  if dataType = "tinyint" then 0
  else if dataType = "smallint" then 1
  else if dataType = "int" then 2
  else if dataType = "bigint" then 3
  else 100

/-- The sort key of the `ORDER BY` (after the schema and table name, which are the
same for all rows): primary first, then no nullable column, then no character
set, then the type rank, then the number of columns. -/
def UniqueKeyCandidate.sortKey (c : UniqueKeyCandidate) : List Nat :=
  [if c.IndexName = "PRIMARY" then 0 else 1,
   if c.HasNullable then 1 else 0,
   if c.CharacterSetName = "" then 0 else 1,
   dataTypeRank c.DataType,
   c.CountColumnInIndex]

/-- Lexicographic comparison of two sort keys: the first differing position
decides. -/
def lexLE : List Nat → List Nat → Bool
  | [], _ => true
  | _ :: _, [] => false
  | a :: as, b :: bs => decide (a < b) || (decide (a = b) && lexLE as bs)

/-- Candidate `a` sorts no later than candidate `b` under the `ORDER BY`. -/
def priorityLE (a b : UniqueKeyCandidate) : Prop :=
  lexLE a.sortKey b.sortKey = true

/-- The row that `ORDER BY ... LIMIT 1` delivers for the candidates in the order
the server enumerates them: a row with the least sort key; among rows with the
same sort key (SQL leaves that choice to the server) the first enumerated. -/
def selectByPriority : List UniqueKeyCandidate → Option UniqueKeyCandidate
  | [] => none
  | c :: rest =>
      match selectByPriority rest with
      | none => some c
      | some best => if lexLE c.sortKey best.sortKey then some c else some best

/-- `QueryRow(query, ...).Scan(...)` of `GetUniqueKeys`: the query error, the
error for an empty result set, or the row. -/
def uniqueKeyRow (queryErr : Option Error) (candidates : List UniqueKeyCandidate) :
    Except Error UniqueKeyCandidate :=
  match queryErr with
  | some e => Except.error e
  | none =>
    match selectByPriority candidates with
    | none => Except.error "sql: no rows in result set"
    | some row => Except.ok row

/-- `GetUniqueKeys`, given what `QueryRow(...).Scan(...)` gave: the context and
the returned error (the error texts stand for the source's messages, which also
carry the table name). -/
def GetUniqueKeys (ctx : SchemaContext) (row : Except Error UniqueKeyCandidate) :
    SchemaContext × Option Error :=
  match row with
  | Except.error _ => (ctx, some "critical: get uniqueKey failed")
  | Except.ok r =>
      if r.HasNullable then (ctx, some "critical: got an uniqueKey with null values")
      else
        ({ ctx with UniqueKey := some (ParseColumnList r.ColumnNames)
                    UniqueIndexName := r.IndexName }, none)

/-- Two unique indexes `uk_a(a)` and `uk_b(b)` on `int not null` columns. -/
def exampleIndexA : UniqueKeyCandidate :=
  { IndexName := "uk_a", FirstColumnName := "a", ColumnNames := "a", CountColumnInIndex := 1,
    DataType := "int", CharacterSetName := "", HasNullable := false }

/-- The second of the two tying unique indexes. -/
def exampleIndexB : UniqueKeyCandidate :=
  { IndexName := "uk_b", FirstColumnName := "b", ColumnNames := "b", CountColumnInIndex := 1,
    DataType := "int", CharacterSetName := "", HasNullable := false }

/-- A primary key on a `bigint` column. -/
def examplePrimary : UniqueKeyCandidate :=
  { IndexName := "PRIMARY", FirstColumnName := "id", ColumnNames := "id",
    CountColumnInIndex := 1, DataType := "bigint", CharacterSetName := "",
    HasNullable := false }

/-- A unique index over a nullable column. -/
def exampleNullable : UniqueKeyCandidate :=
  { IndexName := "uk_n", FirstColumnName := "n", ColumnNames := "n", CountColumnInIndex := 1,
    DataType := "tinyint", CharacterSetName := "", HasNullable := true }

/-! ## Time-range chunking (timerange/checksum_time_range.go) -/

/-- A `time.Time` as its instant: nanoseconds after the zero time (January 1,
year 1, 00:00:00 UTC), so that `IsZero` is `= 0`, and `After`, `Before`, `Equal`
compare instants. -/
abbrev Time := Int

/-- A `time.Duration`: nanoseconds. -/
abbrev Duration := Int

/-- `t.IsZero()`. -/
def Time.IsZero (t : Time) : Bool := decide (t = 0)

/-- `t.After(u)`. -/
def Time.After (t u : Time) : Bool := decide (u < t)

/-- `t.Before(u)`. -/
def Time.Before (t u : Time) : Bool := decide (t < u)

/-- `t.Equal(u)`. -/
def Time.Equal (t u : Time) : Bool := decide (t = u)

/-- `t.Add(d)`. -/
def Time.Add (t : Time) (d : Duration) : Time := t + d

/-- The part of `ChecksumContext` and of its `BaseContext` the time-window
steppers read and write.  The two `ChecksumIterationRange*Values` hold the
one-element value lists built by `ToColumnValues` (`none` when nil). -/
structure TimeRangeContext where
  SpecifiedDatetimeRangeBegin : Time
  SpecifiedDatetimeRangeEnd : Time
  SpecifiedTimeRangePerStep : Duration
  TimeIterationRangeMinValue : Time
  TimeIterationRangeMaxValue : Time
  ChecksumIterationRangeMinValues : Option (List Time)
  ChecksumIterationRangeMaxValues : Option (List Time)
  Iteration : Int
  deriving DecidableEq, Repr

/-- A fresh context for a configured time range: zero window bounds, iteration 0. -/
def NewTimeRangeContext (rangeBegin rangeEnd : Time) (perStep : Duration) : TimeRangeContext :=
  { SpecifiedDatetimeRangeBegin := rangeBegin
    SpecifiedDatetimeRangeEnd := rangeEnd
    SpecifiedTimeRangePerStep := perStep
    TimeIterationRangeMinValue := 0
    TimeIterationRangeMaxValue := 0
    ChecksumIterationRangeMinValues := none
    ChecksumIterationRangeMaxValues := none
    Iteration := 0 }

/-- `TimeRangeAdapter.CalculateNextIterationTimeRange`: the context and the
returned `(hasFurtherRange, err)`. -/
def TimeRangeAdapter.CalculateNextIterationTimeRange (ctx : TimeRangeContext) :
    TimeRangeContext × Bool × Option Error :=
  let ctx1 :=
    if ctx.TimeIterationRangeMinValue.IsZero then
      { ctx with TimeIterationRangeMinValue := ctx.SpecifiedDatetimeRangeBegin }
    else
      { ctx with TimeIterationRangeMinValue := ctx.TimeIterationRangeMaxValue }
  if ctx1.TimeIterationRangeMinValue.After ctx1.SpecifiedDatetimeRangeEnd ||
      ctx1.TimeIterationRangeMinValue.Equal ctx1.SpecifiedDatetimeRangeEnd then
    (ctx1, false, none)
  else
    let ctx2 :=
      { ctx1 with TimeIterationRangeMaxValue :=
          ctx1.TimeIterationRangeMinValue.Add ctx1.SpecifiedTimeRangePerStep }
    let ctx3 :=
      if ctx2.TimeIterationRangeMaxValue.After ctx2.SpecifiedDatetimeRangeEnd then
        { ctx2 with TimeIterationRangeMaxValue := ctx2.SpecifiedDatetimeRangeEnd }
      else ctx2
    ({ ctx3 with
        ChecksumIterationRangeMinValues := some [ctx3.TimeIterationRangeMinValue]
        ChecksumIterationRangeMaxValues := some [ctx3.TimeIterationRangeMaxValue] },
      true, none)

/-- The lower bound a call of the stepper starts from: the begin of the range
while the lower bound is still zero, the previous upper bound afterwards. -/
def TimeRangeContext.nextLower (ctx : TimeRangeContext) : Time :=
  if ctx.TimeIterationRangeMinValue = 0 then ctx.SpecifiedDatetimeRangeBegin
  else ctx.TimeIterationRangeMaxValue

/-- A fresh context for the range from 100 to 250 in steps of 60. -/
def exampleTimeContext : TimeRangeContext :=
  NewTimeRangeContext 100 250 60

/-! ## Resume (tracking/tracker.go, resume/resume.go) -/

/-- A row of the persisted `table_comparisons` table, with the columns the resume
statement reads or filters on. -/
structure PersistedComparison where
  JobID : String
  ComparisonID : Int
  SourceDatabase : String
  SourceTable : String
  TargetDatabase : String
  TargetTable : String
  Status : String
  deriving DecidableEq, Repr

/-- `tracking.TableComparison`; `GetPendingTables` scans the first five fields and
leaves the others at their zero values. -/
structure TableComparison where
  ComparisonID : Int
  SourceDatabase : String
  SourceTable : String
  TargetDatabase : String
  TargetTable : String
  Status : String := ""
  ChunksProcessed : Int := 0
  ChunksEqual : Int := 0
  ChunksDifferent : Int := 0
  deriving DecidableEq, Repr

/-- The `WHERE job_id = ? AND status IN ('pending', 'running')` of the resume
statement. -/
def PersistedComparison.isPendingOf (jobID : String) (row : PersistedComparison) : Bool :=
  decide (row.JobID = jobID) &&
    (decide (row.Status = "pending") || decide (row.Status = "running"))

/-- The five columns the resume statement selects. -/
def PersistedComparison.selected (row : PersistedComparison) : TableComparison :=
  { ComparisonID := row.ComparisonID
    SourceDatabase := row.SourceDatabase
    SourceTable := row.SourceTable
    TargetDatabase := row.TargetDatabase
    TargetTable := row.TargetTable }

/-- The rows the resume statement matches, in its `ORDER BY comparison_id`. -/
def pendingRows (store : List PersistedComparison) (jobID : String) :
    List PersistedComparison :=
  (store.filter (PersistedComparison.isPendingOf jobID)).insertionSort
    (fun a b => a.ComparisonID ≤ b.ComparisonID)

/-- The result set of the resume statement on the persisted rows. -/
def pendingTablesQuery (store : List PersistedComparison) (jobID : String) :
    List TableComparison :=
  (pendingRows store jobID).map PersistedComparison.selected

/-- The `for rows.Next()` loop of `GetPendingTables`: each row is scanned and
appended; a scan error returns `nil, err`. -/
def scanPendingRows :
    List (RowScan TableComparison) → List TableComparison → Except Error (List TableComparison)
  | [], tables => Except.ok tables
  | RowScan.fail e :: _, _ => Except.error e
  | RowScan.ok tc :: rest, tables => scanPendingRows rest (tables ++ [tc])

/-- `GetPendingTables`, given the answers to its statement.  The statement is a
literal (nothing is built), and `rows.Err()` is not consulted after the loop. -/
def GetPendingTables (q : QueryOutcome TableComparison) : Except Error (List TableComparison) :=
  match q.queryErr with
  | some e => Except.error e
  | none => scanPendingRows q.rows []

/-- What the databases answer while one table pair is processed. -/
structure TableAnswers where
  uniqueKeyErr : Option Error
  candidates : List UniqueKeyCandidate
  checkColumns : CheckColumnsAnswer
  minValues : QueryOutcome ColumnValues
  maxValues : QueryOutcome ColumnValues
  chunks : List ChunkAnswers

/-- `performTableComparisonWithDiff` on a fresh context: how the call ends. -/
def performTableComparisonWithDiff (baseContext : BaseContext) (answers : TableAnswers) :
    AnalysisOutcome :=
  match GetUniqueKeys (NewSchemaContext baseContext.RequestedColumnNames)
      (uniqueKeyRow answers.uniqueKeyErr answers.candidates) with
  | (_, some e) => AnalysisOutcome.returned (some e)
  | (ctx1, none) =>
    match GetCheckColumns ctx1 answers.checkColumns with
    | (_, some e, _) => AnalysisOutcome.returned (some e)
    | (ctx2, none, _) =>
      match ctx2.UniqueKey with
      | none => AnalysisOutcome.panicked
      | some uniqueKey =>
          (AnalyzeAndReportDifferences (NewChecksumContext baseContext uniqueKey.Names)
            answers.minValues answers.maxValues answers.chunks).outcome

/-- What a run of `ResumeJob` leaves behind: the pairs handed to
`performTableComparisonWithDiff`, in order; the failures it logged, by comparison
id; and how the run ended. -/
structure ResumeResult where
  processed : List TableComparison
  failed : List (Int × Error)
  outcome : AnalysisOutcome
  deriving DecidableEq, Repr

/-- The `for _, table := range pendingTables` loop of `ResumeJob`.  A returned
error is logged and the loop goes on; a call that does not return ends the run. -/
def resumeLoop (baseContext : BaseContext) (answers : TableComparison → TableAnswers) :
    List TableComparison → List TableComparison → List (Int × Error) → ResumeResult
  | [], processed, failed =>
      { processed := processed, failed := failed, outcome := AnalysisOutcome.returned none }
  | table :: rest, processed, failed =>
      match performTableComparisonWithDiff baseContext (answers table) with
      | AnalysisOutcome.returned none =>
          resumeLoop baseContext answers rest (processed ++ [table]) failed
      | AnalysisOutcome.returned (some e) =>
          resumeLoop baseContext answers rest (processed ++ [table])
            (failed ++ [(table.ComparisonID, e)])
      | AnalysisOutcome.panicked =>
          { processed := processed ++ [table], failed := failed,
            outcome := AnalysisOutcome.panicked }
      | AnalysisOutcome.unanswered =>
          { processed := processed ++ [table], failed := failed,
            outcome := AnalysisOutcome.unanswered }

/-- `ResumeJob`: `pending` is what the tracking database answers to the resume
statement, `answers table` what the databases answer while `table` is processed. -/
def ResumeJob (baseContext : BaseContext) (pending : QueryOutcome TableComparison)
    (answers : TableComparison → TableAnswers) : ResumeResult :=
  match GetPendingTables pending with
  | Except.error e =>
      { processed := [], failed := [],
        outcome := AnalysisOutcome.returned (some ("failed to get pending tables: " ++ e)) }
  | Except.ok pendingTables => resumeLoop baseContext answers pendingTables [] []

/-- Persisted pairs of job `job1` (one running, one completed, one pending) and a
pending pair of another job. -/
def exampleStore : List PersistedComparison :=
  [{ JobID := "job1", ComparisonID := 3, SourceDatabase := "src", SourceTable := "t3",
     TargetDatabase := "dst", TargetTable := "t3", Status := "running" },
   { JobID := "job1", ComparisonID := 1, SourceDatabase := "src", SourceTable := "t1",
     TargetDatabase := "dst", TargetTable := "t1", Status := "completed" },
   { JobID := "job1", ComparisonID := 2, SourceDatabase := "src", SourceTable := "t2",
     TargetDatabase := "dst", TargetTable := "t2", Status := "pending" },
   { JobID := "job2", ComparisonID := 4, SourceDatabase := "src", SourceTable := "t4",
     TargetDatabase := "dst", TargetTable := "t4", Status := "pending" }]

/-- The answers while a pair is processed: pair 2 has no unique index at all, every
other pair has the primary key `id` and is empty. -/
def exampleTableAnswers (table : TableComparison) : TableAnswers :=
  { uniqueKeyErr := none
    candidates := if table.ComparisonID = 2 then [] else [examplePrimary]
    checkColumns :=
      { beginErr := none, execErr := none, scan := Except.ok "id,v", commitErr := none }
    minValues := QueryOutcome.success []
    maxValues := QueryOutcome.success []
    chunks := [exampleFinalRound] }

/-! ## Example inputs for the retried chunk advance -/

/-- Answers of a call whose offset statement fails in `db.Query`. -/
def exampleFailedAnswers : Strategy → QueryOutcome ColumnValues :=
  fun _ => { buildErr := none, queryErr := some "invalid connection", rows := [], rowsErr := none }

/-- The example context after its first chunk (upper bound 7) was committed and
counted. -/
def exampleCommittedContext : ChecksumContext :=
  (CalculateNextIterationRangeEndValues exampleContext exampleAnswers).ctx.AddIteration

/-! ## The result queues of `IterationQueryChecksum` (checksum.go) -/

/-- The `for rows.Next()` loop and the tail of `QueryChecksumFunc`, as the values
sent on `ch` before the function returns: a scan error sends `(ret, err)` and
returns, the end of the rows sends `(ret, rows.Err())` or `(ret, nil)`. -/
def scanChecksumRowsSent :
    List (RowScan Value) → GoStrings → Option Error → List crc32ResultStruct
  | [], ret, rowsErr =>
      match rowsErr with
      | some e => [{ result := ret, err := some e }]
      | none => [{ result := ret, err := none }]
  | RowScan.fail e :: _, ret, _ => [{ result := ret, err := some e }]
  | RowScan.ok val :: rest, ret, rowsErr =>
      scanChecksumRowsSent rest (ret.append val.asString) rowsErr

/-- `QueryChecksumFunc` as the sequence of values it sends on its channel `ch`
from its start until it returns, path by path: builder error, `db.Query` error,
then the row loop.  The chunk bounds it reads have been set by a successful
`CalculateNextIterationRangeEndValues`. -/
def QueryChecksumFuncSent (q : QueryOutcome Value) : List crc32ResultStruct :=
  match q.buildErr with
  | some e => [{ result := none, err := some e }]
  | none =>
    match q.queryErr with
    | some e => [{ result := none, err := some e }]
    | none => scanChecksumRowsSent q.rows none q.rowsErr

/-- The receive `<-queue` on a queue with a single sender: the first value the
sender sends; `none` when the sender returns without sending, so that the
receive never completes. -/
def receiveFrom (sent : List crc32ResultStruct) : Option crc32ResultStruct :=
  sent.head?

/-- `IterationQueryChecksum` as a whole: the two `go ctx.QueryChecksumFunc(...)`,
the receive from `SourceResultQueue` and from `TargetResultQueue`, then the
decision; `none` when one of the receives never completes. -/
def IterationQueryChecksumRun (isSuperSetAsEqual : Bool) (source target : QueryOutcome Value) :
    Option (Bool × Option Error) :=
  match receiveFrom (QueryChecksumFuncSent source), receiveFrom (QueryChecksumFuncSent target) with
  | some sourceResultStruct, some targetResultStruct =>
      some (IterationQueryChecksum isSuperSetAsEqual sourceResultStruct targetResultStruct)
  | _, _ => none

/-! ## `buildRecordQuery` (differ.go) -/

/-- The comparison signs of `pkg/builder` that `buildRecordQuery` passes to
`BuildRangePreparedComparison`. -/
inductive ComparisonSign where
  | GreaterThanOrEqualsComparisonSign
  | LessThanOrEqualsComparisonSign
  deriving DecidableEq, Repr

/-- The statement of `buildRecordQuery`, reduced to its `WHERE %s AND %s`: the
sign and the key tuple of the range-start comparison, and those of the range-end
comparison. -/
structure RecordQuery where
  rangeStartSign : ComparisonSign
  rangeStartArgs : ColumnValues
  rangeEndSign : ComparisonSign
  rangeEndArgs : ColumnValues
  deriving DecidableEq, Repr

/-- `buildRecordQuery`: the range start is compared with
`GreaterThanOrEqualsComparisonSign` against the chunk's lower bound and the range
end with `LessThanOrEqualsComparisonSign` against its upper bound, whatever the
iteration is; `AbstractValues()` on a nil bound panics (`none`). -/
def buildRecordQuery (ctx : ChecksumContext) : Option RecordQuery :=
  match ctx.ChecksumIterationRangeMinValues, ctx.ChecksumIterationRangeMaxValues with
  | some rangeStartArgs, some rangeEndArgs =>
      some { rangeStartSign := ComparisonSign.GreaterThanOrEqualsComparisonSign
             rangeStartArgs := rangeStartArgs
             rangeEndSign := ComparisonSign.LessThanOrEqualsComparisonSign
             rangeEndArgs := rangeEndArgs }
  | _, _ => none

/-- Modelled from the spec: the range comparison predicate that
`builder.BuildRangePreparedComparison` emits (`>=` / `<=` against a key tuple),
as the database evaluates it on the key of a row; `le` is the order of the
unique index on key tuples. -/
def ComparisonSign.holds (le : ColumnValues → ColumnValues → Bool) :
    ComparisonSign → ColumnValues → ColumnValues → Bool
  | ComparisonSign.GreaterThanOrEqualsComparisonSign, key, args => le args key
  | ComparisonSign.LessThanOrEqualsComparisonSign, key, args => le key args

/-- Whether the `WHERE` clause of the statement keeps the row with the given key. -/
def RecordQuery.selects (le : ColumnValues → ColumnValues → Bool) (q : RecordQuery)
    (key : ColumnValues) : Bool :=
  q.rangeStartSign.holds le key q.rangeStartArgs && q.rangeEndSign.holds le key q.rangeEndArgs

/-- What a table, given as its rows (key tuple, row checksum) in key order,
answers to the statement `buildRecordQuery` builds for the context: the rows its
`WHERE` clause keeps. -/
def recordQueryAnswer (le : ColumnValues → ColumnValues → Bool) (ctx : ChecksumContext)
    (table : List (ColumnValues × Value)) : QueryOutcome (ColumnValues × Value) :=
  match buildRecordQuery ctx with
  | some q => QueryOutcome.success (table.filter (fun row => q.selects le row.1))
  | none => QueryOutcome.success []

/-- The number a key value of an integer column stands for, read off its decimal
rendering. -/
def keyNumber (v : Value) : Nat :=
  (sprintfV v).data.foldl (fun n c => 10 * n + (c.toNat - 48)) 0

/-- The index order on tuples of integer key values. -/
def numericKeyLE (a b : ColumnValues) : Bool :=
  lexLE (a.map keyNumber) (b.map keyNumber)

/-- A table with the ids 1..20, the same on both sides. -/
def exampleBoundaryTable : List (ColumnValues × Value) :=
  (List.range' 1 20).map exampleSourceRow

/-- The context of chunk 0 of the walk over `exampleBoundaryTable` at chunk size
10: both global bounds read, then the first call, which commits the upper bound
10. -/
def exampleBoundaryChunk0 : ChecksumContext :=
  (CalculateNextIterationRangeEndValues
    (ReadUniqueKeyRangeMaxValues
      (ReadUniqueKeyRangeMinValues exampleShortContext
        (QueryOutcome.success [[Value.other "1"]])).1
      (QueryOutcome.success [[Value.other "20"]])).1
    (exampleChunk 0).rangeEnd).ctx

/-- The context of chunk 1: after chunk 0 was counted, the second call commits the
upper bound 20. -/
def exampleBoundaryChunk1 : ChecksumContext :=
  (CalculateNextIterationRangeEndValues exampleBoundaryChunk0.AddIteration
    (exampleChunk 1).rangeEnd).ctx

/-- The answers of the two chunks and of the exhausted round, where each side
answers the statement of `buildRecordQuery` from `exampleBoundaryTable`. -/
def exampleBoundaryScript : List ChunkAnswers :=
  [{ rangeEnd := (exampleChunk 0).rangeEnd
     sourceRecords := recordQueryAnswer numericKeyLE exampleBoundaryChunk0 exampleBoundaryTable
     targetRecords := recordQueryAnswer numericKeyLE exampleBoundaryChunk0 exampleBoundaryTable },
   { rangeEnd := (exampleChunk 1).rangeEnd
     sourceRecords := recordQueryAnswer numericKeyLE exampleBoundaryChunk1 exampleBoundaryTable
     targetRecords := recordQueryAnswer numericKeyLE exampleBoundaryChunk1 exampleBoundaryTable },
   exampleFinalRound]

/-- The run of `AnalyzeAndReportDifferences` over `exampleBoundaryTable`. -/
def exampleBoundaryRun : AnalysisResult :=
  AnalyzeAndReportDifferences exampleShortContext
    (QueryOutcome.success [[Value.other "1"]])
    (QueryOutcome.success [[Value.other "20"]])
    exampleBoundaryScript

/-- A context on which the chunks up to key 50 of a table with the ids 1..120
were committed before: lower bound 40, upper bound 50, five chunks counted. -/
def exampleStaleContext : ChecksumContext :=
  { UniqueKey := ["id"]
    UniqueKeyRangeMinValues := some [Value.other "1"]
    UniqueKeyRangeMaxValues := some [Value.other "120"]
    ChecksumIterationRangeMinValues := some [Value.other "40"]
    ChecksumIterationRangeMaxValues := some [Value.other "50"]
    Context := NewBaseContext.SetChunkSize 10
    Iteration := 5 }

/-- The run of `AnalyzeAndReportDifferences` on `exampleStaleContext` up to the
end of the first chunk it analyzes. -/
def exampleStaleFirstChunk : AnalysisResult :=
  AnalyzeAndReportDifferences exampleStaleContext
    (QueryOutcome.success [[Value.other "1"]])
    (QueryOutcome.success [[Value.other "120"]])
    [exampleChunk 5]

/-- The whole run of `AnalyzeAndReportDifferences` on `exampleStaleContext`. -/
def exampleStaleRun : AnalysisResult × List (Option (Bool × Option Error)) :=
  AnalyzeAndReportDifferencesTraced exampleStaleContext
    (QueryOutcome.success [[Value.other "1"]])
    (QueryOutcome.success [[Value.other "120"]])
    ((List.range' 5 7).map exampleChunk ++ [exampleFinalRound])

/-! ## The map key of `getChunkRecords` (differ.go) -/

/-- The map key `getChunkRecords` stores a fetched row under: the `%v` renderings
of its key columns, joined with `|` (the `pkKey` of `scanRecordRows`). -/
def pkKey (pk : ColumnValues) : String :=
  "|".intercalate (pk.map sprintfV)

/-- Whether the rendering of a key value is free of the separator `|`: the
renderings of nil and of a `[]uint8` always are, that of another dynamic type is
when its text holds no `|`. -/
def rendersWithoutSeparator : Value → Bool
  | Value.other rendered => decide ('|' ∉ rendered.data)
  | _ => true

/-- Two fetched rows of a two-column key whose values are Go strings holding the
separator. -/
def exampleBarRows : List (ColumnValues × Value) :=
  [([Value.other "a|b", Value.other "c"], Value.other "5d41"),
   ([Value.other "a", Value.other "b|c"], Value.other "7a08")]

/-- Two fetched rows of a two-column key: an integer and a `[]uint8` (or nil). -/
def exampleBytesRows : List (ColumnValues × Value) :=
  [([Value.other "1", Value.bytes "a|b"], Value.other "5d41"),
   ([Value.other "2", Value.null], Value.other "7a08")]

/-! ## The stepper of timecolumn.go and repeated calls -/

/-- `ChecksumContext.CalculateNextIterationTimeRange` (timecolumn.go): the
context and the returned `(hasFurtherRange, err)`. -/
def ChecksumContext.CalculateNextIterationTimeRange (ctx : TimeRangeContext) :
    TimeRangeContext × Bool × Option Error :=
  if ctx.Iteration = 0 then
    let ctx1 :=
      { ctx with
          TimeIterationRangeMinValue := ctx.SpecifiedDatetimeRangeBegin
          TimeIterationRangeMaxValue :=
            ctx.SpecifiedDatetimeRangeBegin.Add ctx.SpecifiedTimeRangePerStep }
    let ctx2 :=
      if ctx1.TimeIterationRangeMaxValue.After ctx1.SpecifiedDatetimeRangeEnd then
        { ctx1 with TimeIterationRangeMaxValue := ctx1.SpecifiedDatetimeRangeEnd }
      else ctx1
    (ctx2, true, none)
  else
    let ctx1 := { ctx with TimeIterationRangeMinValue := ctx.TimeIterationRangeMaxValue }
    let ctx2 :=
      { ctx1 with TimeIterationRangeMaxValue :=
          ctx1.TimeIterationRangeMinValue.Add ctx1.SpecifiedTimeRangePerStep }
    let ctx3 :=
      if ctx2.TimeIterationRangeMaxValue.After ctx2.SpecifiedDatetimeRangeEnd then
        { ctx2 with TimeIterationRangeMaxValue := ctx2.SpecifiedDatetimeRangeEnd }
      else ctx2
    (ctx3, ctx3.TimeIterationRangeMinValue.Before ctx3.SpecifiedDatetimeRangeEnd, none)

/-- One round of a loop that drives a stepper: the call, then `AddIteration` when
a window was reported. -/
def stepAndCount (stepper : TimeRangeContext → TimeRangeContext × Bool × Option Error)
    (ctx : TimeRangeContext) : TimeRangeContext :=
  let r := stepper ctx
  if r.2.1 then { r.1 with Iteration := wrapInt64 (r.1.Iteration + 1) } else r.1

/-- The context after `k` rounds of the loop. -/
def afterCalls (stepper : TimeRangeContext → TimeRangeContext × Bool × Option Error) :
    Nat → TimeRangeContext → TimeRangeContext
  | 0, ctx => ctx
  | k + 1, ctx => stepAndCount stepper (afterCalls stepper k ctx)

/-- The number of windows of the range, `ceil((End - Begin) / step)`. -/
def windowCount (rangeBegin rangeEnd : Time) (perStep : Duration) : Nat :=
  ((rangeEnd - rangeBegin + perStep - 1) / perStep).toNat

/-- The start of window `k`, `Begin + k * step`. -/
def windowStart (rangeBegin : Time) (perStep : Duration) (k : Nat) : Time :=
  rangeBegin + k * perStep

/-! ## Example inputs for a time range across the zero time -/

/-- A fresh context for the range from 60 before the zero time to 100 after it,
in steps of 60. -/
def exampleZeroCrossing : TimeRangeContext :=
  NewTimeRangeContext (-60) 100 60

/-- The context after the first call of the adapter's stepper on that range. -/
def exampleZeroCrossingFirst : TimeRangeContext :=
  (TimeRangeAdapter.CalculateNextIterationTimeRange exampleZeroCrossing).1

/-- The context after its second call. -/
def exampleZeroCrossingSecond : TimeRangeContext :=
  (TimeRangeAdapter.CalculateNextIterationTimeRange exampleZeroCrossingFirst).1

/-! ## The priority order of unique keys in the words of the specification -/

/-- The rank of a leading-column type as the specification words it: its place in
tinyint < smallint < int < bigint, and the place after these four for every
other type. -/
def specTypeRank (dataType : String) : Nat :=
  ["tinyint", "smallint", "int", "bigint"].indexOf dataType

/-- The priority order as the specification words it, written out on the fields
of two candidates: `a` comes no later than `b` when `a` is the primary key and
`b` is not; or both or neither are, and `a` has no nullable column while `b` has
one; or they agree on that too, and the leading column of `a` has no character
set while that of `b` has one; or they agree on that too, and the leading-column
type of `a` ranks before that of `b`; or the types rank alike and `a` has no more
columns than `b`. -/
def specNoLater (a b : UniqueKeyCandidate) : Prop :=
  (a.IndexName = "PRIMARY" ∧ b.IndexName ≠ "PRIMARY") ∨
  ((a.IndexName = "PRIMARY" ↔ b.IndexName = "PRIMARY") ∧
    ((a.HasNullable = false ∧ b.HasNullable = true) ∨
     (a.HasNullable = b.HasNullable ∧
       ((a.CharacterSetName = "" ∧ b.CharacterSetName ≠ "") ∨
        ((a.CharacterSetName = "" ↔ b.CharacterSetName = "") ∧
          (specTypeRank a.DataType < specTypeRank b.DataType ∨
           (specTypeRank a.DataType = specTypeRank b.DataType ∧
             a.CountColumnInIndex ≤ b.CountColumnInIndex)))))))

/-- A unique index on a `varchar` column. -/
def exampleIndexText : UniqueKeyCandidate :=
  { IndexName := "uk_t", FirstColumnName := "t", ColumnNames := "t", CountColumnInIndex := 1,
    DataType := "varchar", CharacterSetName := "utf8mb4", HasNullable := false }

/-- A unique index over two columns, led by a `smallint` column. -/
def exampleIndexWide : UniqueKeyCandidate :=
  { IndexName := "uk_w", FirstColumnName := "w", ColumnNames := "w,x", CountColumnInIndex := 2,
    DataType := "smallint", CharacterSetName := "", HasNullable := false }

/-- A unique index over one `smallint` column. -/
def exampleIndexNarrow : UniqueKeyCandidate :=
  { IndexName := "uk_s", FirstColumnName := "s", ColumnNames := "s", CountColumnInIndex := 1,
    DataType := "smallint", CharacterSetName := "", HasNullable := false }

/-! ## Lemmas on the subsequence walk -/

theorem subsetInner_eq_none {x : String} :
    ∀ (l : List String) (j : Nat), subsetInner x l j = none ↔ x ∉ l := by
  intro l
  induction l with
  | nil => intro j; simp [subsetInner]
  | cons y rest ih =>
    intro j
    by_cases h : x = y
    · simp [subsetInner, h]
    · simp [subsetInner, h, ih]

theorem subsetInner_eq_some {x : String} :
    ∀ (l : List String) (j k : Nat), subsetInner x l j = some k →
      ∃ pre post, l = pre ++ x :: post ∧ x ∉ pre ∧ k = j + pre.length + 1 := by
  intro l
  induction l with
  | nil => intro j k h; simp [subsetInner] at h
  | cons y rest ih =>
    intro j k h
    by_cases hxy : x = y
    · subst hxy
      simp [subsetInner] at h
      exact ⟨[], rest, by simp, by simp, by simp [h]⟩
    · simp [subsetInner, hxy] at h
      obtain ⟨pre, post, hl, hpre, hk⟩ := ih (j + 1) k h
      refine ⟨y :: pre, post, by simp [hl], ?_, ?_⟩
      · simp [hxy, hpre]
      · simp [hk]; omega

theorem cons_sublist_after_first {x : String} {xs post : List String} :
    ∀ (pre : List String), x ∉ pre → ((x :: xs).Sublist (pre ++ x :: post) ↔ xs.Sublist post) := by
  intro pre
  induction pre with
  | nil => intro _; simp [List.cons_sublist_cons]
  | cons y pre ih =>
    intro hx
    have hxy : x ≠ y := fun h => hx (by simp [h])
    have hpre : x ∉ pre := fun h => hx (by simp [h])
    rw [← ih hpre]
    constructor
    · intro h
      cases h with
      | cons _ h => exact h
      | cons₂ _ h => exact absurd rfl hxy
    · intro h
      exact List.Sublist.cons _ h

theorem subsetOuter_iff (superset : List String) :
    ∀ (subset : List String) (startIndex : Nat),
      subsetOuter superset subset startIndex = true ↔
        subset.Sublist (superset.drop startIndex) := by
  intro subset
  induction subset with
  | nil => intro k; simp [subsetOuter]
  | cons x xs ih =>
    intro k
    cases hin : subsetInner x (superset.drop k) k with
    | none =>
      have hx := (subsetInner_eq_none _ _).1 hin
      simp only [subsetOuter, hin]
      constructor
      · intro h; exact absurd h (by simp)
      · intro h; exact absurd (h.subset (List.mem_cons_self x xs)) hx
    | some next =>
      obtain ⟨pre, post, hl, hpre, hk⟩ := subsetInner_eq_some _ _ _ hin
      simp only [subsetOuter, hin]
      rw [ih next, hl, cons_sublist_after_first pre hpre]
      have hdrop : superset.drop next = post := by
        have : superset.drop next = (superset.drop k).drop (pre.length + 1) := by
          rw [List.drop_drop, hk]
          congr 1
        rw [this, hl]
        simp
      rw [hdrop]

theorem subsetCheckFunc_iff (subset superset : List String) :
    subsetCheckFunc subset superset = true ↔ subset.Sublist superset := by
  simp [subsetCheckFunc, subsetOuter_iff]

/-! ## Lemmas on `QueryChecksumFunc` -/

theorem scanChecksumRows_fetched :
    ∀ (rows : List (RowScan Value)) (ret : GoStrings) (rowsErr : Option Error),
      ret.fetched → (scanChecksumRows rows ret rowsErr).result.fetched := by
  intro rows
  induction rows with
  | nil =>
    intro ret rowsErr h
    cases rowsErr <;> simpa [scanChecksumRows] using h
  | cons r rest ih =>
    intro ret rowsErr h
    cases r with
    | fail e => simpa [scanChecksumRows] using h
    | ok val =>
      simp only [scanChecksumRows]
      apply ih
      simp [GoStrings.append, GoStrings.fetched]

theorem QueryChecksumFunc_fetched (q : QueryOutcome Value) :
    (QueryChecksumFunc q).result.fetched := by
  unfold QueryChecksumFunc
  cases q.buildErr with
  | some e => simp [GoStrings.fetched]
  | none =>
    cases q.queryErr with
    | some e => simp [GoStrings.fetched]
    | none => exact scanChecksumRows_fetched _ _ _ (by simp [GoStrings.fetched])

theorem deepEqual_of_fetched {a b : GoStrings} (ha : a.fetched) (hb : b.fetched) :
    deepEqual a b = true ↔ a.elems = b.elems := by
  cases a with
  | none =>
    cases b with
    | none => simp [deepEqual, GoStrings.elems]
    | some ys =>
      simp only [GoStrings.fetched] at hb
      simp [deepEqual, GoStrings.elems, Ne.symm hb]
  | some xs =>
    cases b with
    | none =>
      simp only [GoStrings.fetched] at ha
      simp [deepEqual, GoStrings.elems, ha]
    | some ys => simp [deepEqual, GoStrings.elems]

theorem deepEqual_elems {a b : GoStrings} (h : deepEqual a b = true) : a.elems = b.elems := by
  cases a <;> cases b <;> simp_all [deepEqual, GoStrings.elems]

/-! ## Lemmas on the range iterator -/

theorem scanRangeEndRows_nonempty :
    ∀ (rows : List (RowScan ColumnValues)) (buffer : ColumnValues) (hasFurtherRange : Bool),
      rows ≠ [] → (scanRangeEndRows rows buffer hasFurtherRange).2.2 = none →
        (scanRangeEndRows rows buffer hasFurtherRange).2.1 = true := by
  intro rows
  induction rows with
  | nil => intro _ _ h; exact absurd rfl h
  | cons r rest ih =>
    intro buffer hasFurtherRange _ herr
    cases r with
    | fail e => simp [scanRangeEndRows] at herr
    | ok vals =>
      simp only [scanRangeEndRows] at herr ⊢
      cases rest with
      | nil => simp [scanRangeEndRows]
      | cons r2 rest2 => exact ih vals true (by simp) herr

theorem scanRangeEndRows_all_ok :
    ∀ (rows : List ColumnValues) (last buffer : ColumnValues) (hasFurtherRange : Bool),
      scanRangeEndRows ((rows ++ [last]).map RowScan.ok) buffer hasFurtherRange
        = (last, true, none) := by
  intro rows
  induction rows with
  | nil => intro last buffer hasFurtherRange; simp [scanRangeEndRows]
  | cons r rest ih =>
    intro last buffer hasFurtherRange
    simpa [scanRangeEndRows] using ih last r true

theorem rangeEndPass_succeededEmpty (ctx : ChecksumContext) (q : QueryOutcome ColumnValues)
    (hasFurtherRange : Bool) (h : q.succeededEmpty) :
    rangeEndPass ctx q hasFurtherRange =
      if hasFurtherRange then
        PassResult.returned
          { ctx with ChecksumIterationRangeMaxValues := some (NewColumnValues ctx.UniqueKey.length) }
          true none
      else PassResult.fallThrough false := by
  obtain ⟨hb, hq, hr, he⟩ := h
  cases hasFurtherRange <;> simp [rangeEndPass, hb, hq, hr, he, scanRangeEndRows]

theorem rangeEndPass_not_succeededEmpty (ctx : ChecksumContext) (q : QueryOutcome ColumnValues)
    (hasFurtherRange : Bool) (h : ¬ q.succeededEmpty) :
    ∃ ctx1 hasFurtherRange1 err,
      rangeEndPass ctx q hasFurtherRange = PassResult.returned ctx1 hasFurtherRange1 err := by
  unfold rangeEndPass
  cases hb : q.buildErr with
  | some e => exact ⟨_, _, _, rfl⟩
  | none =>
    cases hq : q.queryErr with
    | some e => exact ⟨_, _, _, rfl⟩
    | none =>
      simp only
      rcases hscan : scanRangeEndRows q.rows (NewColumnValues ctx.UniqueKey.length) hasFurtherRange
        with ⟨buffer, has1, scanErr⟩
      cases scanErr with
      | some e => exact ⟨_, _, _, rfl⟩
      | none =>
        cases he : q.rowsErr with
        | some e => exact ⟨_, _, _, rfl⟩
        | none =>
          simp only
          have hrows : q.rows ≠ [] := fun hr => h ⟨hb, hq, hr, he⟩
          have h1 := scanRangeEndRows_nonempty q.rows (NewColumnValues ctx.UniqueKey.length)
            hasFurtherRange hrows (by rw [hscan])
          rw [hscan] at h1
          simp only at h1
          subst h1
          exact ⟨_, _, _, rfl⟩

theorem rangeEndPass_success (ctx : ChecksumContext) (rows : List ColumnValues)
    (last : ColumnValues) (hasFurtherRange : Bool) :
    rangeEndPass ctx (QueryOutcome.success (rows ++ [last])) hasFurtherRange =
      PassResult.returned { ctx with ChecksumIterationRangeMaxValues := some last } true none := by
  simp only [rangeEndPass, QueryOutcome.success, scanRangeEndRows_all_ok]
  simp

/-- A pass either leaves the context alone or commits a new upper bound and
returns `(true, nil)`. -/
theorem rangeEndPass_returned (ctx : ChecksumContext) (q : QueryOutcome ColumnValues)
    (hasFurtherRange : Bool) (ctx1 : ChecksumContext) (has1 : Bool) (err : Option Error)
    (h : rangeEndPass ctx q hasFurtherRange = PassResult.returned ctx1 has1 err) :
    (ctx1 = ctx ∧ ¬ (has1 = true ∧ err = none)) ∨
      (∃ v, ctx1 = { ctx with ChecksumIterationRangeMaxValues := some v } ∧
        has1 = true ∧ err = none) := by
  unfold rangeEndPass at h
  cases hb : q.buildErr with
  | some e =>
    simp only [hb, PassResult.returned.injEq] at h
    obtain ⟨h1, _, h3⟩ := h
    exact Or.inl ⟨h1.symm, by rw [← h3]; simp⟩
  | none =>
    cases hq : q.queryErr with
    | some e =>
      simp only [hb, hq, PassResult.returned.injEq] at h
      obtain ⟨h1, _, h3⟩ := h
      exact Or.inl ⟨h1.symm, by rw [← h3]; simp⟩
    | none =>
      simp only [hb, hq] at h
      rcases hscan : scanRangeEndRows q.rows (NewColumnValues ctx.UniqueKey.length) hasFurtherRange
        with ⟨buffer, has2, scanErr⟩
      rw [hscan] at h
      cases scanErr with
      | some e =>
        simp only [PassResult.returned.injEq] at h
        obtain ⟨h1, _, h3⟩ := h
        exact Or.inl ⟨h1.symm, by rw [← h3]; simp⟩
      | none =>
        cases he : q.rowsErr with
        | some e =>
          simp only [he, PassResult.returned.injEq] at h
          obtain ⟨h1, _, h3⟩ := h
          exact Or.inl ⟨h1.symm, by rw [← h3]; simp⟩
        | none =>
          simp only [he] at h
          cases has2 with
          | false => simp at h
          | true =>
            simp only [if_true, PassResult.returned.injEq] at h
            obtain ⟨h1, h2, h3⟩ := h
            exact Or.inr ⟨buffer, h1.symm, h2.symm, h3.symm⟩

theorem rangeEndPass_fallThrough (ctx : ChecksumContext) (q : QueryOutcome ColumnValues)
    (has1 : Bool) (h : rangeEndPass ctx q false = PassResult.fallThrough has1) :
    has1 = false ∧ q.succeededEmpty := by
  by_cases hq : q.succeededEmpty
  · rw [rangeEndPass_succeededEmpty ctx q false hq] at h
    simp at h
    exact ⟨h, hq⟩
  · obtain ⟨c, h1, e, hr⟩ := rangeEndPass_not_succeededEmpty ctx q false hq
    rw [hr] at h
    cases h

theorem rangeEndLoop_spec (ctx : ChecksumContext)
    (answers : Strategy → QueryOutcome ColumnValues) :
    ∀ (strategies consulted : List Strategy),
      ((rangeEndLoop ctx answers strategies false consulted).ctx = ctx ∧
        (rangeEndLoop ctx answers strategies false consulted).ret ≠ some (true, none)) ∨
      (∃ v, (rangeEndLoop ctx answers strategies false consulted).ctx =
          { ctx with ChecksumIterationRangeMaxValues := some v } ∧
        (rangeEndLoop ctx answers strategies false consulted).ret = some (true, none)) := by
  intro strategies
  induction strategies with
  | nil => intro consulted; left; simp [rangeEndLoop]
  | cons s rest ih =>
    intro consulted
    unfold rangeEndLoop
    split
    · cases hp : rangeEndPass ctx (answers s) false with
      | returned ctx1 has1 err =>
        simp only
        rcases rangeEndPass_returned ctx (answers s) false ctx1 has1 err hp with
          ⟨h1, h2⟩ | ⟨v, h1, h2, h3⟩
        · left
          refine ⟨h1, ?_⟩
          intro hret
          simp only [Option.some.injEq, Prod.mk.injEq] at hret
          exact h2 hret
        · right
          exact ⟨v, h1, by rw [h2, h3]⟩
      | fallThrough has1 =>
        simp only
        obtain ⟨hf, _⟩ := rangeEndPass_fallThrough ctx (answers s) has1 hp
        subst hf
        exact ih (consulted ++ [s])
    · left; simp

theorem setIterationRangeMin_lower (ctx : ChecksumContext) :
    (setIterationRangeMin ctx).ChecksumIterationRangeMinValues =
      (match ctx.ChecksumIterationRangeMaxValues with
        | some upper => some upper
        | none => ctx.UniqueKeyRangeMinValues) := by
  unfold setIterationRangeMin
  cases h : ctx.ChecksumIterationRangeMaxValues <;> simp

theorem setIterationRangeMin_upper (ctx : ChecksumContext) :
    (setIterationRangeMin ctx).ChecksumIterationRangeMaxValues =
      ctx.ChecksumIterationRangeMaxValues := by
  unfold setIterationRangeMin
  dsimp only
  split_ifs <;> rfl

theorem setIterationRangeMin_globalMax (ctx : ChecksumContext) :
    (setIterationRangeMin ctx).UniqueKeyRangeMaxValues = ctx.UniqueKeyRangeMaxValues := by
  unfold setIterationRangeMin
  dsimp only
  split_ifs <;> rfl

/-- With both global bounds read, the loop of a call unfolds into its two passes. -/
theorem CalculateNext_unfold (ctx : ChecksumContext)
    (answers : Strategy → QueryOutcome ColumnValues)
    (hmin : ctx.UniqueKeyRangeMinValues ≠ none) (hmax : ctx.UniqueKeyRangeMaxValues ≠ none) :
    CalculateNextIterationRangeEndValues ctx answers =
      (match rangeEndPass (setIterationRangeMin ctx) (answers Strategy.offset) false with
        | PassResult.returned ctx1 has1 err =>
            { ctx := ctx1, ret := some (has1, err), consulted := [Strategy.offset] }
        | PassResult.fallThrough has1 =>
          match rangeEndPass (setIterationRangeMin ctx) (answers Strategy.temptable) has1 with
          | PassResult.returned ctx1 has2 err =>
              { ctx := ctx1, ret := some (has2, err),
                consulted := [Strategy.offset, Strategy.temptable] }
          | PassResult.fallThrough has2 =>
              { ctx := setIterationRangeMin ctx, ret := some (has2, none),
                consulted := [Strategy.offset, Strategy.temptable] }) := by
  obtain ⟨lower, hlower⟩ : ∃ lower,
      (setIterationRangeMin ctx).ChecksumIterationRangeMinValues = some lower := by
    rw [setIterationRangeMin_lower]
    cases h : ctx.ChecksumIterationRangeMaxValues with
    | some upper => exact ⟨upper, rfl⟩
    | none => exact Option.ne_none_iff_exists'.1 hmin
  obtain ⟨upper, hupper⟩ : ∃ upper,
      (setIterationRangeMin ctx).UniqueKeyRangeMaxValues = some upper := by
    rw [setIterationRangeMin_globalMax]
    exact Option.ne_none_iff_exists'.1 hmax
  simp only [CalculateNextIterationRangeEndValues, rangeEndLoop, hlower, hupper, List.nil_append,
    List.singleton_append]

/-! ## Lemmas on `compareRecordSets` -/

theorem addSample_counts (report : DifferenceReport) (d : RecordDifference) :
    (addSample report d).SourceOnlyRecords = report.SourceOnlyRecords ∧
    (addSample report d).TargetOnlyRecords = report.TargetOnlyRecords ∧
    (addSample report d).ModifiedRecords = report.ModifiedRecords ∧
    (addSample report d).IdenticalRecords = report.IdenticalRecords := by
  unfold addSample
  split_ifs <;> simp

theorem compareSourceEntry_counts (targetRecords : RecordMap) (report : DifferenceReport)
    (entry : String × RecordData) :
    (compareSourceEntry targetRecords report entry).SourceOnlyRecords =
      report.SourceOnlyRecords + (if targetRecords.checksumAt entry.1 = none then 1 else 0) ∧
    (compareSourceEntry targetRecords report entry).ModifiedRecords =
      report.ModifiedRecords +
        (if targetRecords.checksumAt entry.1 ≠ none ∧
            targetRecords.checksumAt entry.1 ≠ some entry.2.Checksum then 1 else 0) ∧
    (compareSourceEntry targetRecords report entry).IdenticalRecords =
      report.IdenticalRecords +
        (if targetRecords.checksumAt entry.1 = some entry.2.Checksum then 1 else 0) ∧
    (compareSourceEntry targetRecords report entry).TargetOnlyRecords =
      report.TargetOnlyRecords := by
  unfold compareSourceEntry RecordMap.checksumAt
  cases h : targetRecords.get entry.1 with
  | none => simp [h, addSample_counts]
  | some targetRecord =>
    by_cases hc : entry.2.Checksum = targetRecord.Checksum
    · simp [h, hc]
    · have hc2 : ¬ targetRecord.Checksum = entry.2.Checksum := fun h => hc h.symm
      simp [h, hc, hc2, addSample_counts]

theorem compareTargetEntry_counts (sourceRecords : RecordMap) (report : DifferenceReport)
    (entry : String × RecordData) :
    (compareTargetEntry sourceRecords report entry).SourceOnlyRecords =
      report.SourceOnlyRecords ∧
    (compareTargetEntry sourceRecords report entry).ModifiedRecords = report.ModifiedRecords ∧
    (compareTargetEntry sourceRecords report entry).IdenticalRecords =
      report.IdenticalRecords ∧
    (compareTargetEntry sourceRecords report entry).TargetOnlyRecords =
      report.TargetOnlyRecords + (if sourceRecords.checksumAt entry.1 = none then 1 else 0) := by
  unfold compareTargetEntry RecordMap.checksumAt
  cases h : sourceRecords.get entry.1 with
  | none => simp [h, addSample_counts]
  | some sourceRecord => simp [h]

theorem sourceLoop_counts (targetRecords : RecordMap) :
    ∀ (sourceRecords : RecordMap) (report : DifferenceReport),
      (sourceRecords.foldl (compareSourceEntry targetRecords) report).SourceOnlyRecords =
        report.SourceOnlyRecords +
          sourceRecords.countP (fun e => decide (targetRecords.checksumAt e.1 = none)) ∧
      (sourceRecords.foldl (compareSourceEntry targetRecords) report).ModifiedRecords =
        report.ModifiedRecords +
          sourceRecords.countP (fun e => decide (targetRecords.checksumAt e.1 ≠ none ∧
            targetRecords.checksumAt e.1 ≠ some e.2.Checksum)) ∧
      (sourceRecords.foldl (compareSourceEntry targetRecords) report).IdenticalRecords =
        report.IdenticalRecords +
          sourceRecords.countP (fun e => decide (targetRecords.checksumAt e.1 = some e.2.Checksum)) ∧
      (sourceRecords.foldl (compareSourceEntry targetRecords) report).TargetOnlyRecords =
        report.TargetOnlyRecords := by
  intro sourceRecords
  induction sourceRecords with
  | nil => intro report; simp
  | cons entry rest ih =>
    intro report
    obtain ⟨h1, h2, h3, h4⟩ := compareSourceEntry_counts targetRecords report entry
    obtain ⟨i1, i2, i3, i4⟩ := ih (compareSourceEntry targetRecords report entry)
    simp only [List.foldl_cons, List.countP_cons, decide_eq_true_eq]
    rw [i1, i2, i3, i4, h1, h2, h3, h4]
    refine ⟨by omega, by omega, by omega, rfl⟩

theorem targetLoop_counts (sourceRecords : RecordMap) :
    ∀ (targetRecords : RecordMap) (report : DifferenceReport),
      (targetRecords.foldl (compareTargetEntry sourceRecords) report).SourceOnlyRecords =
        report.SourceOnlyRecords ∧
      (targetRecords.foldl (compareTargetEntry sourceRecords) report).ModifiedRecords =
        report.ModifiedRecords ∧
      (targetRecords.foldl (compareTargetEntry sourceRecords) report).IdenticalRecords =
        report.IdenticalRecords ∧
      (targetRecords.foldl (compareTargetEntry sourceRecords) report).TargetOnlyRecords =
        report.TargetOnlyRecords +
          targetRecords.countP (fun e => decide (sourceRecords.checksumAt e.1 = none)) := by
  intro targetRecords
  induction targetRecords with
  | nil => intro report; simp
  | cons entry rest ih =>
    intro report
    obtain ⟨h1, h2, h3, h4⟩ := compareTargetEntry_counts sourceRecords report entry
    obtain ⟨i1, i2, i3, i4⟩ := ih (compareTargetEntry sourceRecords report entry)
    simp only [List.foldl_cons, List.countP_cons, decide_eq_true_eq]
    rw [i1, i2, i3, i4, h1, h2, h3, h4]
    refine ⟨rfl, rfl, rfl, by omega⟩

theorem RecordMap.get_eq_none_iff (m : RecordMap) (k : String) :
    m.get k = none ↔ k ∉ m.keys := by
  induction m with
  | nil => simp [RecordMap.get, RecordMap.keys]
  | cons entry rest ih =>
    obtain ⟨k1, v1⟩ := entry
    simp only [RecordMap.get, RecordMap.keys] at ih
    by_cases h : k = k1
    · subst h; simp [RecordMap.get, RecordMap.keys]
    · have hb : (k == k1) = false := by simpa using h
      simp [RecordMap.get, RecordMap.keys, List.lookup_cons, hb, h, ih]

theorem RecordMap.checksumAt_eq_none_iff (m : RecordMap) (k : String) :
    m.checksumAt k = none ↔ k ∉ m.keySet := by
  simp [RecordMap.checksumAt, RecordMap.keySet, RecordMap.get_eq_none_iff]

theorem RecordMap.get_of_mem (m : RecordMap) (hm : m.keys.Nodup) (entry : String × RecordData)
    (he : entry ∈ m) : m.get entry.1 = some entry.2 := by
  induction m with
  | nil => simp at he
  | cons head rest ih =>
    obtain ⟨k1, v1⟩ := head
    simp only [RecordMap.keys, List.map_cons, List.nodup_cons] at hm
    rcases List.mem_cons.1 he with h | h
    · subst h; simp [RecordMap.get]
    · have hne : entry.1 ≠ k1 := by
        intro heq
        exact hm.1 (heq ▸ List.mem_map_of_mem Prod.fst h)
      have hb : (entry.1 == k1) = false := by simpa using hne
      have := ih hm.2 h
      simp only [RecordMap.get] at this
      simp [RecordMap.get, List.lookup_cons, hb, this]

theorem countP_keys_card (m : RecordMap) (hm : m.keys.Nodup) (q : String → Bool) :
    m.countP (fun e => q e.1) = (m.keySet.filter (fun k => q k = true)).card := by
  have h1 : m.countP (fun e => q e.1) = m.keys.countP q := by
    simp only [RecordMap.keys, List.countP_map]
    rfl
  rw [h1, List.countP_eq_length_filter, ← List.toFinset_card_of_nodup (hm.filter _),
    List.toFinset_filter]
  rfl

/-! ## Lemmas on the retained samples -/

theorem addSample_length_le (report : DifferenceReport) (d : RecordDifference)
    (h : report.SampleDifferences.length ≤ 10) :
    (addSample report d).SampleDifferences.length ≤ 10 := by
  unfold addSample
  split_ifs with hlt
  · simp only [List.length_append, List.length_singleton]
    omega
  · exact h

theorem compareSourceEntry_samples_le (targetRecords : RecordMap) (report : DifferenceReport)
    (entry : String × RecordData) (h : report.SampleDifferences.length ≤ 10) :
    (compareSourceEntry targetRecords report entry).SampleDifferences.length ≤ 10 := by
  unfold compareSourceEntry
  cases hg : targetRecords.get entry.1 with
  | none =>
    simp only [hg]
    exact addSample_length_le _ _ h
  | some targetRecord =>
    simp only [hg]
    split_ifs
    · exact addSample_length_le _ _ h
    · exact h

theorem compareTargetEntry_samples_le (sourceRecords : RecordMap) (report : DifferenceReport)
    (entry : String × RecordData) (h : report.SampleDifferences.length ≤ 10) :
    (compareTargetEntry sourceRecords report entry).SampleDifferences.length ≤ 10 := by
  unfold compareTargetEntry
  cases hg : sourceRecords.get entry.1 with
  | none =>
    simp only [hg]
    exact addSample_length_le _ _ h
  | some sourceRecord =>
    simp only [hg]
    exact h

theorem foldl_samples_le (step : DifferenceReport → String × RecordData → DifferenceReport)
    (hstep : ∀ report entry, report.SampleDifferences.length ≤ 10 →
      (step report entry).SampleDifferences.length ≤ 10) :
    ∀ (entries : RecordMap) (report : DifferenceReport),
      report.SampleDifferences.length ≤ 10 →
        (entries.foldl step report).SampleDifferences.length ≤ 10 := by
  intro entries
  induction entries with
  | nil => intro report h; exact h
  | cons entry rest ih =>
    intro report h
    exact ih _ (hstep report entry h)

/-- A chunk report never holds more than 10 samples. -/
theorem compareRecordSets_samples_le (sourceRecords targetRecords : RecordMap) :
    (compareRecordSets sourceRecords targetRecords).SampleDifferences.length ≤ 10 := by
  unfold compareRecordSets
  apply foldl_samples_le _ (compareTargetEntry_samples_le sourceRecords)
  apply foldl_samples_le _ (compareSourceEntry_samples_le targetRecords)
  simp [emptyReport]

theorem aggregate_samples_le (report chunkReport : DifferenceReport)
    (hr : report.SampleDifferences.length ≤ 109)
    (hc : chunkReport.SampleDifferences.length ≤ 10) :
    (aggregate report chunkReport).SampleDifferences.length ≤ 109 := by
  unfold aggregate
  simp only
  split_ifs with hlt
  · simp only [List.length_append]
    omega
  · exact hr

theorem analyzeLoop_samples_le :
    ∀ (chunks : List ChunkAnswers) (ctx : ChecksumContext) (report : DifferenceReport),
      report.SampleDifferences.length ≤ 109 →
        (analyzeLoop chunks ctx report).report.SampleDifferences.length ≤ 109 := by
  intro chunks
  induction chunks with
  | nil => intro ctx report h; exact h
  | cons a rest ih =>
    intro ctx report h
    unfold analyzeLoop
    simp only
    split
    · exact h
    · exact h
    · exact h
    · split
      · exact h
      · rename_i chunkReport hok
        apply ih
        apply aggregate_samples_le _ _ h
        unfold analyzeChunkDifferences at hok
        split at hok
        · cases hok
        · split at hok
          · cases hok
          · cases hok
            exact compareRecordSets_samples_le _ _

/-- What the code does guarantee: the aggregate report of a run never holds more
than 109 samples (up to 99 held when the last append of at most 10 happens). -/
theorem AnalyzeAndReportDifferences_samples_le (ctx : ChecksumContext)
    (minAnswer maxAnswer : QueryOutcome ColumnValues) (chunks : List ChunkAnswers) :
    (AnalyzeAndReportDifferences ctx minAnswer maxAnswer chunks).report.SampleDifferences.length
      ≤ 109 := by
  unfold AnalyzeAndReportDifferences
  split
  · simp [emptyReport]
  · split
    · simp [emptyReport]
    · exact analyzeLoop_samples_le _ _ _ (by simp [emptyReport])

/-! ## Lemmas on the samples of `compareRecordSets` -/

theorem foldl_preserves {α β : Type} (P : β → Prop) (f : β → α → β) :
    ∀ (l : List α), (∀ b a, a ∈ l → P b → P (f b a)) → ∀ b, P b → P (l.foldl f b) := by
  intro l
  induction l with
  | nil => intro _ b hb; exact hb
  | cons a rest ih =>
    intro hstep b hb
    simp only [List.foldl_cons]
    apply ih
    · intro b1 a1 ha1 hb1
      exact hstep b1 a1 (List.mem_cons_of_mem _ ha1) hb1
    · exact hstep b a (List.mem_cons_self _ _) hb

theorem addSample_samples (report : DifferenceReport) (d : RecordDifference) :
    (addSample report d).SampleDifferences =
      if report.SampleDifferences.length < 10 then report.SampleDifferences ++ [d]
      else report.SampleDifferences := by
  unfold addSample
  split_ifs <;> rfl

/-- Counting one more difference and offering its sample keeps the invariant. -/
theorem samplesInvariant_addSample (S T : RecordMap) (report counted : DifferenceReport)
    (d : RecordDifference) (hinv : samplesInvariant S T report)
    (hsamples : counted.SampleDifferences = report.SampleDifferences)
    (hcount : counted.SourceOnlyRecords + counted.ModifiedRecords + counted.TargetOnlyRecords =
      report.SourceOnlyRecords + report.ModifiedRecords + report.TargetOnlyRecords + 1)
    (hd : sampleAgrees S T d) :
    samplesInvariant S T (addSample counted d) := by
  obtain ⟨hlen, hall⟩ := hinv
  obtain ⟨c1, c2, c3, c4⟩ := addSample_counts counted d
  refine ⟨?_, ?_⟩
  · rw [addSample_samples, c1, c2, c3, hcount, hsamples]
    split_ifs with hlt
    · simp only [List.length_append, List.length_singleton]
      omega
    · omega
  · intro x hx
    rw [addSample_samples, hsamples] at hx
    split_ifs at hx with hlt
    · rcases List.mem_append.1 hx with h | h
      · exact hall x h
      · simp only [List.mem_singleton] at h
        rw [h]
        exact hd
    · exact hall x hx

theorem samplesInvariant_source (S T : RecordMap) (report : DifferenceReport)
    (entry : String × RecordData) (he : entry ∈ S) (hinv : samplesInvariant S T report) :
    samplesInvariant S T (compareSourceEntry T report entry) := by
  unfold compareSourceEntry
  cases hg : T.get entry.1 with
  | none =>
    simp only [hg]
    apply samplesInvariant_addSample S T report _ _ hinv
    · rfl
    · simp only
      omega
    · left
      exact ⟨entry, he, by
        simpa [RecordMap.keySet] using (RecordMap.get_eq_none_iff T entry.1).1 hg, rfl⟩
  | some targetRecord =>
    simp only [hg]
    split_ifs with hc
    · apply samplesInvariant_addSample S T report _ _ hinv
      · rfl
      · simp only
        omega
      · right; left
        exact ⟨entry, he, targetRecord, hg, hc, rfl⟩
    · exact hinv

theorem samplesInvariant_target (S T : RecordMap) (report : DifferenceReport)
    (entry : String × RecordData) (he : entry ∈ T) (hinv : samplesInvariant S T report) :
    samplesInvariant S T (compareTargetEntry S report entry) := by
  unfold compareTargetEntry
  cases hg : S.get entry.1 with
  | none =>
    simp only [hg]
    apply samplesInvariant_addSample S T report _ _ hinv
    · rfl
    · simp only
      omega
    · right; right
      exact ⟨entry, he, by
        simpa [RecordMap.keySet] using (RecordMap.get_eq_none_iff S entry.1).1 hg, rfl⟩
  | some sourceRecord =>
    simp only [hg]
    exact hinv

theorem samplesInvariant_compareRecordSets (S T : RecordMap) :
    samplesInvariant S T (compareRecordSets S T) := by
  unfold compareRecordSets
  apply foldl_preserves (samplesInvariant S T) (compareTargetEntry S) T
    (fun b a ha hb => samplesInvariant_target S T b a ha hb)
  apply foldl_preserves (samplesInvariant S T) (compareSourceEntry T) S
    (fun b a ha hb => samplesInvariant_source S T b a ha hb)
  exact ⟨by simp [emptyReport], by simp [emptyReport]⟩

/-- Superset mode with both fetches successful: equal exactly on a subsequence. -/
theorem superset_equal_iff (source target : GoStrings) :
    (IterationQueryChecksum true ⟨source, none⟩ ⟨target, none⟩).1 = true ↔
      source.elems.Sublist target.elems := by
  by_cases hd : deepEqual source target = true
  · have he := deepEqual_elems hd
    simp [IterationQueryChecksum, hd, he]
  · by_cases hs : subsetCheckFunc source.elems target.elems = true
    · simp [IterationQueryChecksum, hd, checkLevel, hs, (subsetCheckFunc_iff _ _).1 hs]
    · have hn : ¬ source.elems.Sublist target.elems := fun h => hs ((subsetCheckFunc_iff _ _).2 h)
      simp [IterationQueryChecksum, hd, checkLevel, hs, hn]

/-! ## Lemmas on the iteration counter -/

theorem analyzeLoopTraced_fst :
    ∀ (chunks : List ChunkAnswers) (ctx : ChecksumContext) (report : DifferenceReport),
      (analyzeLoopTraced chunks ctx report).1 = analyzeLoop chunks ctx report := by
  intro chunks
  induction chunks with
  | nil => intro ctx report; rfl
  | cons a rest ih =>
    intro ctx report
    unfold analyzeLoopTraced analyzeLoop
    simp only
    split
    · rfl
    · rfl
    · rfl
    · split
      · rfl
      · exact ih _ _

theorem AnalyzeAndReportDifferencesTraced_fst (ctx : ChecksumContext)
    (minAnswer maxAnswer : QueryOutcome ColumnValues) (chunks : List ChunkAnswers) :
    (AnalyzeAndReportDifferencesTraced ctx minAnswer maxAnswer chunks).1 =
      AnalyzeAndReportDifferences ctx minAnswer maxAnswer chunks := by
  unfold AnalyzeAndReportDifferencesTraced AnalyzeAndReportDifferences
  split
  · rfl
  · split
    · rfl
    · exact analyzeLoopTraced_fst _ _ _

theorem setIterationRangeMin_Iteration (ctx : ChecksumContext) :
    (setIterationRangeMin ctx).Iteration = ctx.Iteration := by
  unfold setIterationRangeMin
  dsimp only
  split_ifs <;> rfl

theorem CalculateNext_Iteration (ctx : ChecksumContext)
    (answers : Strategy → QueryOutcome ColumnValues) :
    (CalculateNextIterationRangeEndValues ctx answers).ctx.Iteration = ctx.Iteration := by
  rw [← setIterationRangeMin_Iteration ctx]
  unfold CalculateNextIterationRangeEndValues
  rcases rangeEndLoop_spec (setIterationRangeMin ctx) answers
    [Strategy.offset, Strategy.temptable] [] with ⟨h1, _⟩ | ⟨v, h1, _⟩
  · rw [h1]
  · rw [h1]

theorem ReadUniqueKeyRangeMinValues_Iteration (ctx : ChecksumContext)
    (q : QueryOutcome ColumnValues) :
    (ReadUniqueKeyRangeMinValues ctx q).1.Iteration = ctx.Iteration := by
  unfold ReadUniqueKeyRangeMinValues
  split
  · rfl
  · split
    · rfl
    · split <;> rfl

theorem ReadUniqueKeyRangeMaxValues_Iteration (ctx : ChecksumContext)
    (q : QueryOutcome ColumnValues) :
    (ReadUniqueKeyRangeMaxValues ctx q).1.Iteration = ctx.Iteration := by
  unfold ReadUniqueKeyRangeMaxValues
  split
  · rfl
  · split
    · rfl
    · split <;> rfl

theorem wrapInt64_of_range (n : Int) (hlo : -9223372036854775808 ≤ n)
    (hhi : n < 9223372036854775808) : wrapInt64 n = n := by
  unfold wrapInt64
  omega

theorem wrapInt64_range (n : Int) :
    -9223372036854775808 ≤ wrapInt64 n ∧ wrapInt64 n < 9223372036854775808 := by
  unfold wrapInt64
  omega

theorem wrapInt64_add (a b : Int) : wrapInt64 (wrapInt64 a + b) = wrapInt64 (a + b) := by
  unfold wrapInt64
  omega

theorem analyzeLoopTraced_Iteration :
    ∀ (chunks : List ChunkAnswers) (ctx : ChecksumContext) (report : DifferenceReport),
      -9223372036854775808 ≤ ctx.Iteration → ctx.Iteration < 9223372036854775808 →
      (analyzeLoopTraced chunks ctx report).1.outcome = AnalysisOutcome.returned none →
        (analyzeLoopTraced chunks ctx report).1.ctx.Iteration =
            wrapInt64 (ctx.Iteration +
              (furtherRangeCalls (analyzeLoopTraced chunks ctx report).2 : Nat)) ∧
          (analyzeLoopTraced chunks ctx report).2.getLast? = some (some (false, none)) ∧
          (analyzeLoopTraced chunks ctx report).2.length =
            furtherRangeCalls (analyzeLoopTraced chunks ctx report).2 + 1 := by
  intro chunks
  induction chunks with
  | nil => intro ctx report _ _ h; simp [analyzeLoopTraced] at h
  | cons a rest ih =>
    intro ctx report hlo hhi
    have hiter := CalculateNext_Iteration ctx a.rangeEnd
    unfold analyzeLoopTraced
    simp only
    split
    · intro h; simp at h
    · intro h; simp at h
    · intro _
      simp [furtherRangeCalls, hiter, wrapInt64_of_range ctx.Iteration hlo hhi]
    · split
      · intro h; simp at h
      · intro h
        obtain ⟨h1, h2, h3⟩ := ih _ _
          (wrapInt64_range _).1 (wrapInt64_range _).2 h
        refine ⟨?_, ?_, ?_⟩
        · rw [h1]
          simp only [ChecksumContext.AddIteration, hiter, furtherRangeCalls,
            List.count_cons_self]
          rw [wrapInt64_add]
          congr 1
          push_cast
          omega
        · rw [List.getLast?_cons, h2]
          rfl
        · simp only [List.length_cons, h3, furtherRangeCalls, List.count_cons_self]

/-! ## Lemmas on splitting and joining -/

theorem splitChars_ne_nil (sep : Char) : ∀ (l : List Char), splitChars sep l ≠ [] := by
  intro l
  cases l with
  | nil => simp [splitChars]
  | cons c cs =>
    unfold splitChars
    split_ifs
    · simp
    · split <;> simp

theorem joinChars_cons_cons (sep c : Char) (field : List Char) (rest : List (List Char)) :
    joinChars sep ((c :: field) :: rest) = c :: joinChars sep (field :: rest) := by
  cases rest <;> simp [joinChars]

theorem joinChars_splitChars (sep : Char) :
    ∀ (l : List Char), joinChars sep (splitChars sep l) = l := by
  intro l
  induction l with
  | nil => simp [splitChars, joinChars]
  | cons c cs ih =>
    unfold splitChars
    split_ifs with hc
    · cases hs : splitChars sep cs with
      | nil => exact absurd hs (splitChars_ne_nil sep cs)
      | cons field rest =>
        rw [hs] at ih
        simp [joinChars, ih, hc]
    · cases hs : splitChars sep cs with
      | nil => exact absurd hs (splitChars_ne_nil sep cs)
      | cons field rest =>
        rw [hs] at ih
        simp only
        rw [joinChars_cons_cons, ih]

theorem length_splitChars (sep : Char) :
    ∀ (l : List Char), (splitChars sep l).length = l.count sep + 1 := by
  intro l
  induction l with
  | nil => simp [splitChars]
  | cons c cs ih =>
    unfold splitChars
    split_ifs with hc
    · subst hc
      simp [ih]
    · have hne : sep ≠ c := fun h => hc h.symm
      cases hs : splitChars sep cs with
      | nil => exact absurd hs (splitChars_ne_nil sep cs)
      | cons field rest =>
        rw [hs] at ih
        simp only [List.length_cons] at ih ⊢
        rw [List.count_cons_of_ne hne]
        exact ih

theorem stringsJoin_data (sep : Char) :
    ∀ (fields : List (List Char)),
      (stringsJoin (fields.map String.mk) (String.mk [sep])).data = joinChars sep fields := by
  intro fields
  induction fields with
  | nil => rfl
  | cons a rest ih =>
    cases rest with
    | nil => rfl
    | cons b rest2 =>
      simp only [List.map_cons, stringsJoin, joinChars, String.data_append] at ih ⊢
      rw [ih]
      simp

theorem NewColumns_Names (names : List String) :
    (NewColumns names).map Column.Name = names := by
  simp [NewColumns, Function.comp_def]

theorem ParseColumnList_Names (s : String) :
    (ParseColumnList s).Names = stringsSplitComma s := by
  simp [ParseColumnList, ColumnList.Names, ParseColumns, NewColumns_Names]

theorem ParseColumnList_String (s : String) : (ParseColumnList s).String = s := by
  apply String.ext
  rw [ColumnList.String, ParseColumnList_Names, stringsSplitComma]
  exact (stringsJoin_data ',' _).trans (joinChars_splitChars ',' s.data)

theorem ParseColumnList_Len (s : String) :
    (ParseColumnList s).Len = s.data.count ',' + 1 := by
  simp [ParseColumnList, ColumnList.Len, ParseColumns, NewColumns, stringsSplitComma,
    length_splitChars]

/-! ## Lemmas on the `ORDER BY` of `GetUniqueKeys` -/

theorem lexLE_refl : ∀ (a : List Nat), lexLE a a = true := by
  intro a
  induction a with
  | nil => rfl
  | cons x xs ih => simp [lexLE, ih]

theorem lexLE_total : ∀ (a b : List Nat), lexLE a b = true ∨ lexLE b a = true := by
  intro a
  induction a with
  | nil => intro b; left; rfl
  | cons x xs ih =>
    intro b
    cases b with
    | nil => right; rfl
    | cons y ys =>
      simp only [lexLE, Bool.or_eq_true, Bool.and_eq_true, decide_eq_true_eq]
      rcases Nat.lt_trichotomy x y with h | h | h
      · left; left; exact h
      · rcases ih ys with h2 | h2
        · left; right; exact ⟨h, h2⟩
        · right; right; exact ⟨h.symm, h2⟩
      · right; left; exact h

theorem lexLE_trans : ∀ (a b c : List Nat),
    lexLE a b = true → lexLE b c = true → lexLE a c = true := by
  intro a
  induction a with
  | nil => intro b c _ _; rfl
  | cons x xs ih =>
    intro b c hab hbc
    cases b with
    | nil => simp [lexLE] at hab
    | cons y ys =>
      cases c with
      | nil => simp [lexLE] at hbc
      | cons z zs =>
        simp only [lexLE, Bool.or_eq_true, Bool.and_eq_true, decide_eq_true_eq] at hab hbc ⊢
        rcases hab with h1 | ⟨h1, h2⟩
        · rcases hbc with h3 | ⟨h3, _⟩
          · left; omega
          · left; omega
        · rcases hbc with h3 | ⟨h3, h4⟩
          · left; omega
          · right; exact ⟨h1.trans h3, ih ys zs h2 h4⟩

theorem lexLE_antisymm : ∀ (a b : List Nat), a.length = b.length →
    lexLE a b = true → lexLE b a = true → a = b := by
  intro a
  induction a with
  | nil =>
    intro b hlen _ _
    cases b with
    | nil => rfl
    | cons y ys => simp at hlen
  | cons x xs ih =>
    intro b hlen hab hba
    cases b with
    | nil => simp at hlen
    | cons y ys =>
      simp only [lexLE, Bool.or_eq_true, Bool.and_eq_true, decide_eq_true_eq] at hab hba
      simp only [List.length_cons, Nat.add_right_cancel_iff] at hlen
      rcases hab with h1 | ⟨h1, h2⟩
      · rcases hba with h3 | ⟨h3, _⟩ <;> omega
      · rcases hba with h3 | ⟨_, h4⟩
        · omega
        · rw [h1, ih ys hlen h2 h4]

theorem sortKey_length (c : UniqueKeyCandidate) : c.sortKey.length = 5 := rfl

theorem selectByPriority_eq_none :
    ∀ (l : List UniqueKeyCandidate), selectByPriority l = none ↔ l = [] := by
  intro l
  cases l with
  | nil => simp [selectByPriority]
  | cons c rest =>
    unfold selectByPriority
    cases selectByPriority rest with
    | none => simp
    | some best =>
      simp only
      split_ifs <;> simp

/-- The delivered row is one of the candidates and sorts no later than any. -/
theorem selectByPriority_least :
    ∀ (l : List UniqueKeyCandidate) (c : UniqueKeyCandidate), selectByPriority l = some c →
      c ∈ l ∧ ∀ other ∈ l, lexLE c.sortKey other.sortKey = true := by
  intro l
  induction l with
  | nil => intro c h; simp [selectByPriority] at h
  | cons head rest ih =>
    intro c h
    unfold selectByPriority at h
    cases hs : selectByPriority rest with
    | none =>
      rw [hs] at h
      simp only [Option.some.injEq] at h
      subst h
      have hrest : rest = [] := (selectByPriority_eq_none rest).1 hs
      subst hrest
      exact ⟨by simp, by simp [lexLE_refl]⟩
    | some best =>
      rw [hs] at h
      obtain ⟨hmem, hleast⟩ := ih best hs
      simp only at h
      split_ifs at h with hle
      · simp only [Option.some.injEq] at h
        subst h
        refine ⟨by simp, ?_⟩
        intro other hother
        rcases List.mem_cons.1 hother with h1 | h1
        · rw [h1]; exact lexLE_refl _
        · exact lexLE_trans _ _ _ hle (hleast other h1)
      · simp only [Option.some.injEq] at h
        subst h
        refine ⟨List.mem_cons_of_mem _ hmem, ?_⟩
        intro other hother
        rcases List.mem_cons.1 hother with h1 | h1
        · rw [h1]
          rcases lexLE_total head.sortKey best.sortKey with h2 | h2
          · exact absurd h2 hle
          · exact h2
        · exact hleast other h1

theorem selectByPriority_perm (l1 l2 : List UniqueKeyCandidate) (hperm : l1.Perm l2)
    (c1 c2 : UniqueKeyCandidate) (h1 : selectByPriority l1 = some c1)
    (h2 : selectByPriority l2 = some c2) : c1.sortKey = c2.sortKey := by
  obtain ⟨m1, least1⟩ := selectByPriority_least l1 c1 h1
  obtain ⟨m2, least2⟩ := selectByPriority_least l2 c2 h2
  exact lexLE_antisymm _ _ rfl (least1 c2 (hperm.mem_iff.2 m2)) (least2 c1 (hperm.mem_iff.1 m1))

theorem selectByPriority_perm_isSome (l1 l2 : List UniqueKeyCandidate) (hperm : l1.Perm l2) :
    selectByPriority l1 = none ↔ selectByPriority l2 = none := by
  rw [selectByPriority_eq_none, selectByPriority_eq_none]
  constructor
  · intro h; subst h; exact hperm.symm.eq_nil
  · intro h; subst h; exact hperm.eq_nil

theorem sortKey_HasNullable (a b : UniqueKeyCandidate) (h : a.sortKey = b.sortKey) :
    a.HasNullable = b.HasNullable := by
  simp only [UniqueKeyCandidate.sortKey, List.cons.injEq] at h
  obtain ⟨_, h2, _⟩ := h
  cases ha : a.HasNullable <;> cases hb : b.HasNullable <;> simp [ha, hb] at h2 ⊢

theorem GetUniqueKeys_err (ctx : SchemaContext) (row : Except Error UniqueKeyCandidate) :
    (GetUniqueKeys ctx row).2 =
      (match row with
        | Except.error _ => some "critical: get uniqueKey failed"
        | Except.ok r =>
            if r.HasNullable then some "critical: got an uniqueKey with null values" else none) := by
  unfold GetUniqueKeys
  cases row with
  | error e => rfl
  | ok r =>
    simp only
    split_ifs <;> rfl

/-- Permuting the candidates changes neither the sort key of the delivered row nor,
when no other candidate shares that sort key, the row itself. -/
theorem uniqueKeyRow_perm (queryErr : Option Error) (l1 l2 : List UniqueKeyCandidate)
    (hperm : l1.Perm l2) :
    (∀ e, uniqueKeyRow queryErr l1 = Except.error e → uniqueKeyRow queryErr l2 = Except.error e) ∧
    (∀ r1, uniqueKeyRow queryErr l1 = Except.ok r1 →
      ∃ r2, uniqueKeyRow queryErr l2 = Except.ok r2 ∧ r1.sortKey = r2.sortKey ∧ r2 ∈ l1) := by
  unfold uniqueKeyRow
  cases queryErr with
  | some e0 => simp
  | none =>
    simp only
    cases h1 : selectByPriority l1 with
    | none =>
      have h2 := (selectByPriority_perm_isSome l1 l2 hperm).1 h1
      rw [h2]
      simp
    | some c1 =>
      cases h2 : selectByPriority l2 with
      | none =>
        have := (selectByPriority_perm_isSome l1 l2 hperm).2 h2
        rw [this] at h1
        cases h1
      | some c2 =>
        refine ⟨by simp, ?_⟩
        intro r1 hr1
        simp only [Except.ok.injEq] at hr1
        subst hr1
        exact ⟨c2, rfl, selectByPriority_perm l1 l2 hperm _ _ h1 h2,
          hperm.mem_iff.2 (selectByPriority_least l2 c2 h2).1⟩

/-! ## Lemmas on the time-window stepper -/

/-- `TimeRangeAdapter.CalculateNextIterationTimeRange` in closed form. -/
theorem TimeRangeAdapter_step_eq (ctx : TimeRangeContext) :
    TimeRangeAdapter.CalculateNextIterationTimeRange ctx =
      (if ctx.SpecifiedDatetimeRangeEnd ≤ ctx.nextLower then
        ({ ctx with TimeIterationRangeMinValue := ctx.nextLower }, false, none)
      else
        ({ ctx with
            TimeIterationRangeMinValue := ctx.nextLower
            TimeIterationRangeMaxValue :=
              min (ctx.nextLower + ctx.SpecifiedTimeRangePerStep) ctx.SpecifiedDatetimeRangeEnd
            ChecksumIterationRangeMinValues := some [ctx.nextLower]
            ChecksumIterationRangeMaxValues :=
              some [min (ctx.nextLower + ctx.SpecifiedTimeRangePerStep)
                ctx.SpecifiedDatetimeRangeEnd] },
          true, none)) := by
  have hlower : (if ctx.TimeIterationRangeMinValue.IsZero = true then
        { ctx with TimeIterationRangeMinValue := ctx.SpecifiedDatetimeRangeBegin }
      else { ctx with TimeIterationRangeMinValue := ctx.TimeIterationRangeMaxValue }) =
      { ctx with TimeIterationRangeMinValue := ctx.nextLower } := by
    simp only [Time.IsZero, TimeRangeContext.nextLower, decide_eq_true_eq]
    split_ifs <;> rfl
  unfold TimeRangeAdapter.CalculateNextIterationTimeRange
  simp only [hlower, Time.After, Time.Equal, Time.Add, decide_eq_true_eq, Bool.or_eq_true]
  generalize ctx.nextLower = lower
  by_cases hend : ctx.SpecifiedDatetimeRangeEnd ≤ lower
  · have h1 : ctx.SpecifiedDatetimeRangeEnd < lower ∨ lower = ctx.SpecifiedDatetimeRangeEnd := by
      unfold Time at *
      omega
    simp only [h1, hend, if_true]
  · have h1 : ¬ (ctx.SpecifiedDatetimeRangeEnd < lower ∨
        lower = ctx.SpecifiedDatetimeRangeEnd) := by
      unfold Time at *
      omega
    simp only [h1, hend, if_false]
    by_cases hcap : ctx.SpecifiedDatetimeRangeEnd < lower + ctx.SpecifiedTimeRangePerStep
    · have hmin : min (lower + ctx.SpecifiedTimeRangePerStep) ctx.SpecifiedDatetimeRangeEnd =
          ctx.SpecifiedDatetimeRangeEnd := min_eq_right (le_of_lt hcap)
      simp only [hcap, if_true, hmin]
    · have hmin : min (lower + ctx.SpecifiedTimeRangePerStep) ctx.SpecifiedDatetimeRangeEnd =
          lower + ctx.SpecifiedTimeRangePerStep := min_eq_left (not_lt.1 hcap)
      simp only [hcap, if_false, hmin]

/-! ## Lemmas on `ResumeJob` -/

theorem scanPendingRows_ok :
    ∀ (rows tables : List TableComparison),
      scanPendingRows (rows.map RowScan.ok) tables = Except.ok (tables ++ rows) := by
  intro rows
  induction rows with
  | nil => intro tables; simp [scanPendingRows]
  | cons r rest ih =>
    intro tables
    simp only [List.map_cons, scanPendingRows]
    rw [ih]
    simp

theorem GetPendingTables_success (rows : List TableComparison) :
    GetPendingTables (QueryOutcome.success rows) = Except.ok rows := by
  simp [GetPendingTables, QueryOutcome.success, scanPendingRows_ok]

theorem setIterationRangeMin_globalMin (ctx : ChecksumContext) :
    (setIterationRangeMin ctx).UniqueKeyRangeMinValues = ctx.UniqueKeyRangeMinValues := by
  unfold setIterationRangeMin
  dsimp only
  split_ifs <;> rfl

theorem CalculateNext_globalBounds (ctx : ChecksumContext)
    (answers : Strategy → QueryOutcome ColumnValues) :
    (CalculateNextIterationRangeEndValues ctx answers).ctx.UniqueKeyRangeMinValues =
        ctx.UniqueKeyRangeMinValues ∧
      (CalculateNextIterationRangeEndValues ctx answers).ctx.UniqueKeyRangeMaxValues =
        ctx.UniqueKeyRangeMaxValues := by
  rw [← setIterationRangeMin_globalMin ctx, ← setIterationRangeMin_globalMax ctx]
  unfold CalculateNextIterationRangeEndValues
  rcases rangeEndLoop_spec (setIterationRangeMin ctx) answers
    [Strategy.offset, Strategy.temptable] [] with ⟨h1, _⟩ | ⟨v, h1, _⟩
  · rw [h1]; exact ⟨rfl, rfl⟩
  · rw [h1]; exact ⟨rfl, rfl⟩

theorem CalculateNext_returns (ctx : ChecksumContext)
    (answers : Strategy → QueryOutcome ColumnValues)
    (hmin : ctx.UniqueKeyRangeMinValues ≠ none) (hmax : ctx.UniqueKeyRangeMaxValues ≠ none) :
    (CalculateNextIterationRangeEndValues ctx answers).ret ≠ none := by
  rw [CalculateNext_unfold ctx answers hmin hmax]
  split
  · simp
  · split <;> simp

/-- With both global bounds read, the analysis loop never panics. -/
theorem analyzeLoop_no_panic :
    ∀ (chunks : List ChunkAnswers) (ctx : ChecksumContext) (report : DifferenceReport),
      ctx.UniqueKeyRangeMinValues ≠ none → ctx.UniqueKeyRangeMaxValues ≠ none →
        (analyzeLoop chunks ctx report).outcome ≠ AnalysisOutcome.panicked := by
  intro chunks
  induction chunks with
  | nil => intro ctx report _ _; simp [analyzeLoop]
  | cons a rest ih =>
    intro ctx report hmin hmax
    have hret := CalculateNext_returns ctx a.rangeEnd hmin hmax
    obtain ⟨hb1, hb2⟩ := CalculateNext_globalBounds ctx a.rangeEnd
    unfold analyzeLoop
    simp only
    split
    · rename_i hnone
      exact absurd hnone hret
    · simp
    · simp
    · split
      · simp
      · apply ih
        · simpa [ChecksumContext.AddIteration, hb1] using hmin
        · simpa [ChecksumContext.AddIteration, hb2] using hmax

theorem ReadUniqueKeyRangeMinValues_ok (ctx : ChecksumContext) (q : QueryOutcome ColumnValues)
    (h : (ReadUniqueKeyRangeMinValues ctx q).2 = none) :
    (ReadUniqueKeyRangeMinValues ctx q).1.UniqueKeyRangeMinValues ≠ none := by
  unfold ReadUniqueKeyRangeMinValues at h ⊢
  split at h
  · simp at h
  · split at h
    · simp at h
    · split <;> simp

theorem ReadUniqueKeyRangeMaxValues_ok (ctx : ChecksumContext) (q : QueryOutcome ColumnValues)
    (h : (ReadUniqueKeyRangeMaxValues ctx q).2 = none) :
    (ReadUniqueKeyRangeMaxValues ctx q).1.UniqueKeyRangeMaxValues ≠ none ∧
      (ReadUniqueKeyRangeMaxValues ctx q).1.UniqueKeyRangeMinValues =
        ctx.UniqueKeyRangeMinValues := by
  unfold ReadUniqueKeyRangeMaxValues at h ⊢
  split at h
  · simp at h
  · split at h
    · simp at h
    · split <;> simp

theorem AnalyzeAndReportDifferences_no_panic (ctx : ChecksumContext)
    (minAnswer maxAnswer : QueryOutcome ColumnValues) (chunks : List ChunkAnswers) :
    (AnalyzeAndReportDifferences ctx minAnswer maxAnswer chunks).outcome
      ≠ AnalysisOutcome.panicked := by
  unfold AnalyzeAndReportDifferences
  rcases hrmin : ReadUniqueKeyRangeMinValues ctx minAnswer with ⟨ctx1, err1⟩
  cases err1 with
  | some e => simp
  | none =>
    simp only
    have h1 := ReadUniqueKeyRangeMinValues_ok ctx minAnswer (by rw [hrmin])
    rw [hrmin] at h1
    rcases hrmax : ReadUniqueKeyRangeMaxValues ctx1 maxAnswer with ⟨ctx2, err2⟩
    cases err2 with
    | some e => simp
    | none =>
      simp only
      obtain ⟨h2, h3⟩ := ReadUniqueKeyRangeMaxValues_ok ctx1 maxAnswer (by rw [hrmax])
      rw [hrmax] at h2 h3
      exact analyzeLoop_no_panic chunks ctx2 emptyReport (by rw [h3]; exact h1) h2

theorem GetCheckColumns_UniqueKey (ctx : SchemaContext) (db : CheckColumnsAnswer) :
    (GetCheckColumns ctx db).1.UniqueKey = ctx.UniqueKey := by
  unfold GetCheckColumns
  split_ifs
  · rfl
  · split
    · rfl
    · split
      · rfl
      · split <;> rfl

theorem GetUniqueKeys_ok_UniqueKey (ctx : SchemaContext) (row : Except Error UniqueKeyCandidate)
    (h : (GetUniqueKeys ctx row).2 = none) : (GetUniqueKeys ctx row).1.UniqueKey ≠ none := by
  unfold GetUniqueKeys at h ⊢
  cases row with
  | error e => simp at h
  | ok r =>
    simp only at h ⊢
    split_ifs at h ⊢
    simp

theorem performTableComparisonWithDiff_no_panic (baseContext : BaseContext)
    (answers : TableAnswers) :
    performTableComparisonWithDiff baseContext answers ≠ AnalysisOutcome.panicked := by
  unfold performTableComparisonWithDiff
  rcases hk : GetUniqueKeys (NewSchemaContext baseContext.RequestedColumnNames)
      (uniqueKeyRow answers.uniqueKeyErr answers.candidates) with ⟨ctx1, err1⟩
  cases err1 with
  | some e => simp
  | none =>
    simp only
    have h1 := GetUniqueKeys_ok_UniqueKey (NewSchemaContext baseContext.RequestedColumnNames)
      (uniqueKeyRow answers.uniqueKeyErr answers.candidates) (by rw [hk])
    rw [hk] at h1
    rcases hc : GetCheckColumns ctx1 answers.checkColumns with ⟨ctx2, err2, calls⟩
    cases err2 with
    | some e => simp
    | none =>
      simp only
      have h2 := GetCheckColumns_UniqueKey ctx1 answers.checkColumns
      rw [hc] at h2
      simp only at h1 h2
      cases hu : ctx2.UniqueKey with
      | none => rw [hu] at h2; exact absurd h2.symm h1
      | some uniqueKey =>
        simp only
        exact AnalyzeAndReportDifferences_no_panic _ _ _ _

/-- What `ResumeJob` logs for a pair: its comparison id with the returned error. -/
theorem resumeLoop_spec (baseContext : BaseContext) (answers : TableComparison → TableAnswers) :
    ∀ (tables processed : List TableComparison) (failed : List (Int × Error)),
      (∀ t ∈ tables,
        performTableComparisonWithDiff baseContext (answers t) ≠ AnalysisOutcome.unanswered) →
      (resumeLoop baseContext answers tables processed failed).processed = processed ++ tables ∧
      (resumeLoop baseContext answers tables processed failed).outcome
        = AnalysisOutcome.returned none ∧
      (resumeLoop baseContext answers tables processed failed).failed =
        failed ++ tables.filterMap (fun t =>
          match performTableComparisonWithDiff baseContext (answers t) with
          | AnalysisOutcome.returned (some e) => some (t.ComparisonID, e)
          | _ => none) := by
  intro tables
  induction tables with
  | nil => intro processed failed _; simp [resumeLoop]
  | cons t rest ih =>
    intro processed failed hans
    have ht := hans t (List.mem_cons_self _ _)
    have hrest : ∀ u ∈ rest,
        performTableComparisonWithDiff baseContext (answers u) ≠ AnalysisOutcome.unanswered :=
      fun u hu => hans u (List.mem_cons_of_mem _ hu)
    have hp := performTableComparisonWithDiff_no_panic baseContext (answers t)
    unfold resumeLoop
    cases hperf : performTableComparisonWithDiff baseContext (answers t) with
    | returned err =>
      cases err with
      | none =>
        simp only
        obtain ⟨i1, i2, i3⟩ := ih (processed ++ [t]) failed hrest
        refine ⟨by rw [i1]; simp, i2, ?_⟩
        rw [i3]
        simp [List.filterMap_cons, hperf]
      | some e =>
        simp only
        obtain ⟨i1, i2, i3⟩ := ih (processed ++ [t]) (failed ++ [(t.ComparisonID, e)]) hrest
        refine ⟨by rw [i1]; simp, i2, ?_⟩
        rw [i3]
        simp [List.filterMap_cons, hperf]
    | panicked => exact absurd hperf hp
    | unanswered => exact absurd hperf ht

theorem resumeLoop_outcome (baseContext : BaseContext)
    (answers : TableComparison → TableAnswers) :
    ∀ (tables processed : List TableComparison) (failed : List (Int × Error)) (e : Error),
      (resumeLoop baseContext answers tables processed failed).outcome
        ≠ AnalysisOutcome.returned (some e) := by
  intro tables
  induction tables with
  | nil => intro processed failed e; simp [resumeLoop]
  | cons t rest ih =>
    intro processed failed e
    unfold resumeLoop
    split
    · exact ih _ _ _
    · exact ih _ _ _
    · simp
    · simp

/-! ## Lemmas on a retried chunk advance -/

/-- Setting the chunk's lower bound twice is the same as setting it once: the
committed upper bound and the global minimum it is taken from are not touched. -/
theorem setIterationRangeMin_idem (ctx : ChecksumContext) :
    setIterationRangeMin (setIterationRangeMin ctx) = setIterationRangeMin ctx := by
  unfold setIterationRangeMin
  cases h : ctx.ChecksumIterationRangeMaxValues <;> simp [h]

/-- A call that does not return `(true, nil)` leaves the context with the lower
bound set and nothing else changed. -/
theorem CalculateNext_ctx_of_not_committed (ctx : ChecksumContext)
    (answers : Strategy → QueryOutcome ColumnValues)
    (h : (CalculateNextIterationRangeEndValues ctx answers).ret ≠ some (true, none)) :
    (CalculateNextIterationRangeEndValues ctx answers).ctx = setIterationRangeMin ctx := by
  rcases rangeEndLoop_spec (setIterationRangeMin ctx) answers
      [Strategy.offset, Strategy.temptable] [] with ⟨h1, _⟩ | ⟨v, _, h2⟩
  · exact h1
  · exact absurd h2 h

/-! ## Lemmas on the counters of `compareRecordSets` -/

/-- The four counters of `compareRecordSets` as cardinalities of key sets. -/
theorem compareRecordSets_counts_card (S T : RecordMap)
    (hS : S.keys.Nodup) (hT : T.keys.Nodup) :
    (compareRecordSets S T).SourceOnlyRecords = (S.keySet \ T.keySet).card ∧
    (compareRecordSets S T).TargetOnlyRecords = (T.keySet \ S.keySet).card ∧
    (compareRecordSets S T).ModifiedRecords =
      ((S.keySet ∩ T.keySet).filter (fun k => S.checksumAt k ≠ T.checksumAt k)).card ∧
    (compareRecordSets S T).IdenticalRecords =
      ((S.keySet ∩ T.keySet).filter (fun k => S.checksumAt k = T.checksumAt k)).card := by
  obtain ⟨t1, t2, t3, t4⟩ :=
    targetLoop_counts S T (S.foldl (compareSourceEntry T) emptyReport)
  obtain ⟨s1, s2, s3, s4⟩ := sourceLoop_counts T S emptyReport
  have hcs : ∀ e ∈ S, S.checksumAt e.1 = some e.2.Checksum := by
    intro e he
    simp [RecordMap.checksumAt, RecordMap.get_of_mem S hS e he]
  unfold compareRecordSets
  refine ⟨?_, ?_, ?_, ?_⟩
  · rw [t1, s1, countP_keys_card S hS (fun k => decide (T.checksumAt k = none))]
    simp only [emptyReport, Nat.zero_add]
    congr 1
    ext k
    simp [RecordMap.checksumAt_eq_none_iff]
  · rw [t4, s4, countP_keys_card T hT (fun k => decide (S.checksumAt k = none))]
    simp only [emptyReport, Nat.zero_add]
    congr 1
    ext k
    simp [RecordMap.checksumAt_eq_none_iff]
  · rw [t2, s2]
    have hc : S.countP (fun e => decide (T.checksumAt e.1 ≠ none ∧
          T.checksumAt e.1 ≠ some e.2.Checksum)) =
        S.countP (fun e => (fun k => decide (T.checksumAt k ≠ none ∧
          T.checksumAt k ≠ S.checksumAt k)) e.1) := by
      apply List.countP_congr
      intro e he
      simp [hcs e he]
    rw [hc, countP_keys_card S hS (fun k => decide (T.checksumAt k ≠ none ∧
          T.checksumAt k ≠ S.checksumAt k))]
    simp only [emptyReport, Nat.zero_add]
    congr 1
    ext k
    simp only [Finset.mem_filter, Finset.mem_inter, decide_eq_true_eq, ne_eq,
      RecordMap.checksumAt_eq_none_iff, not_not]
    constructor
    · rintro ⟨h1, h2, h3⟩
      exact ⟨⟨h1, h2⟩, fun h => h3 h.symm⟩
    · rintro ⟨⟨h1, h2⟩, h3⟩
      exact ⟨h1, h2, fun h => h3 h.symm⟩
  · rw [t3, s3]
    have hc : S.countP (fun e => decide (T.checksumAt e.1 = some e.2.Checksum)) =
        S.countP (fun e => (fun k => decide (T.checksumAt k = S.checksumAt k)) e.1) := by
      apply List.countP_congr
      intro e he
      simp [hcs e he]
    rw [hc, countP_keys_card S hS (fun k => decide (T.checksumAt k = S.checksumAt k))]
    simp only [emptyReport, Nat.zero_add]
    congr 1
    ext k
    simp only [Finset.mem_filter, Finset.mem_inter, decide_eq_true_eq]
    constructor
    · rintro ⟨h1, h2⟩
      refine ⟨⟨h1, ?_⟩, h2.symm⟩
      by_contra hk
      have hn := (RecordMap.checksumAt_eq_none_iff T k).2 hk
      have hs := (RecordMap.checksumAt_eq_none_iff S k).1 (h2 ▸ hn)
      exact hs h1
    · rintro ⟨⟨h1, _⟩, h3⟩
      exact ⟨h1, h3.symm⟩

theorem RecordMap.length_eq_card (m : RecordMap) (hm : m.keys.Nodup) :
    m.length = m.keySet.card := by
  unfold RecordMap.keySet
  rw [List.toFinset_card_of_nodup hm]
  simp [RecordMap.keys]

/-! ## Lemmas on `NewColumnsMap` and `GetColumn` -/

theorem ColumnsMap.get_set (m : ColumnsMap) (name : String) (i : Nat) (other : String) :
    (m.set name i).get other = if other = name then some i else m.get other := by
  induction m with
  | nil =>
    by_cases h : other = name
    · simp [ColumnsMap.set, ColumnsMap.get, List.lookup, h]
    · have hb : (other == name) = false := by simpa using h
      simp [ColumnsMap.set, ColumnsMap.get, List.lookup, h, hb]
  | cons head rest ih =>
    obtain ⟨name1, i1⟩ := head
    simp only [ColumnsMap.get] at ih
    unfold ColumnsMap.set
    by_cases h1 : name1 = name
    · subst h1
      by_cases h : other = name1
      · simp [ColumnsMap.get, List.lookup, h]
      · have hb : (other == name1) = false := by simpa using h
        simp [ColumnsMap.get, List.lookup, h, hb]
    · simp only [h1, if_false]
      by_cases h : other = name1
      · subst h
        simp [ColumnsMap.get, List.lookup, h1]
      · have hb : (other == name1) = false := by simpa using h
        simp only [ColumnsMap.get, List.lookup, hb]
        exact ih

/-- A name that no column of the list carries keeps the position it had before
the loop. -/
theorem newColumnsMapFrom_get_of_not_mem (name : String) :
    ∀ (columns : List Column) (i : Nat) (columnsMap : ColumnsMap),
      name ∉ columns.map Column.Name →
      (newColumnsMapFrom columns i columnsMap).get name = columnsMap.get name := by
  intro columns
  induction columns with
  | nil => intro i columnsMap _; rfl
  | cons column rest ih =>
    intro i columnsMap hnot
    simp only [List.map_cons, List.mem_cons, not_or] at hnot
    unfold newColumnsMapFrom
    rw [ih (i + 1) _ hnot.2, ColumnsMap.get_set, if_neg hnot.1]

/-- A name that some column of the list carries is mapped to a position that
holds a column of that name. -/
theorem newColumnsMapFrom_get_of_mem (name : String) :
    ∀ (columns : List Column) (i : Nat) (columnsMap : ColumnsMap),
      name ∈ columns.map Column.Name →
      ∃ j column, (newColumnsMapFrom columns i columnsMap).get name = some (i + j) ∧
        columns[j]? = some column ∧ column.Name = name := by
  intro columns
  induction columns with
  | nil => intro i columnsMap h; simp at h
  | cons column rest ih =>
    intro i columnsMap hmem
    unfold newColumnsMapFrom
    by_cases hrest : name ∈ rest.map Column.Name
    · obtain ⟨j, c, h1, h2, h3⟩ := ih (i + 1) (columnsMap.set column.Name i) hrest
      refine ⟨j + 1, c, ?_, ?_, h3⟩
      · rw [h1]; congr 1; omega
      · simpa using h2
    · have hhead : name = column.Name := by
        simp only [List.map_cons, List.mem_cons] at hmem
        rcases hmem with h | h
        · exact h
        · exact absurd h hrest
      refine ⟨0, column, ?_, by simp, hhead.symm⟩
      rw [newColumnsMapFrom_get_of_not_mem name rest (i + 1) _ hrest, ColumnsMap.get_set,
        if_pos hhead]
      rfl

/-- With pairwise distinct names, the name at position `j` is mapped to `j`. -/
theorem newColumnsMapFrom_get_of_nodup :
    ∀ (columns : List Column) (i : Nat) (columnsMap : ColumnsMap),
      (columns.map Column.Name).Nodup →
      ∀ (j : Nat) (column : Column), columns[j]? = some column →
        (newColumnsMapFrom columns i columnsMap).get column.Name = some (i + j) := by
  intro columns
  induction columns with
  | nil => intro i columnsMap _ j column h; simp at h
  | cons head rest ih =>
    intro i columnsMap hnodup j column hj
    simp only [List.map_cons, List.nodup_cons] at hnodup
    unfold newColumnsMapFrom
    cases j with
    | zero =>
      simp only [List.getElem?_cons_zero, Option.some.injEq] at hj
      subst hj
      rw [newColumnsMapFrom_get_of_not_mem head.Name rest (i + 1) _ hnodup.1, ColumnsMap.get_set,
        if_pos rfl]
      rfl
    | succ j =>
      simp only [List.getElem?_cons_succ] at hj
      rw [ih (i + 1) _ hnodup.2 j column hj]
      congr 1
      omega

theorem ParseColumnList_eq (s : String) :
    ParseColumnList s = NewColumnList (stringsSplitComma s) := rfl

theorem NewColumnList_Names (names : List String) : (NewColumnList names).Names = names := by
  simp [ColumnList.Names, NewColumnList, NewColumns_Names]

/-! ## Lemmas on the result queues -/

theorem scanChecksumRowsSent_eq :
    ∀ (rows : List (RowScan Value)) (ret : GoStrings) (rowsErr : Option Error),
      scanChecksumRowsSent rows ret rowsErr = [scanChecksumRows rows ret rowsErr] := by
  intro rows
  induction rows with
  | nil =>
    intro ret rowsErr
    cases rowsErr <;> rfl
  | cons row rest ih =>
    intro ret rowsErr
    cases row with
    | fail e => rfl
    | ok val =>
      simp only [scanChecksumRowsSent, scanChecksumRows]
      exact ih _ _

theorem QueryChecksumFuncSent_eq (q : QueryOutcome Value) :
    QueryChecksumFuncSent q = [QueryChecksumFunc q] := by
  unfold QueryChecksumFuncSent QueryChecksumFunc
  cases q.buildErr with
  | some e => rfl
  | none =>
    cases q.queryErr with
    | some e => rfl
    | none => exact scanChecksumRowsSent_eq _ _ _

/-! ## Lemmas on `buildRecordQuery` -/

/-- Under a reflexive key order, the statement of `buildRecordQuery` keeps the row
whose key is the chunk's lower bound and the row whose key is its upper bound, in
every iteration. -/
theorem buildRecordQuery_selects_bounds (le : ColumnValues → ColumnValues → Bool)
    (hrefl : ∀ key, le key key = true) (ctx : ChecksumContext) (lower upper : ColumnValues)
    (hmin : ctx.ChecksumIterationRangeMinValues = some lower)
    (hmax : ctx.ChecksumIterationRangeMaxValues = some upper)
    (hle : le lower upper = true) :
    ∃ q, buildRecordQuery ctx = some q ∧ q.selects le lower = true ∧
      q.selects le upper = true := by
  refine ⟨{ rangeStartSign := ComparisonSign.GreaterThanOrEqualsComparisonSign
            rangeStartArgs := lower
            rangeEndSign := ComparisonSign.LessThanOrEqualsComparisonSign
            rangeEndArgs := upper }, ?_, ?_, ?_⟩
  · simp only [buildRecordQuery, hmin, hmax]
  · simp [RecordQuery.selects, ComparisonSign.holds, hrefl, hle]
  · simp [RecordQuery.selects, ComparisonSign.holds, hrefl, hle]

/-- A context that holds no committed upper bound starts its first chunk at the
global minimum. -/
theorem setIterationRangeMin_of_fresh (ctx : ChecksumContext)
    (h : ctx.ChecksumIterationRangeMaxValues = none) :
    (setIterationRangeMin ctx).ChecksumIterationRangeMinValues = ctx.UniqueKeyRangeMinValues := by
  rw [setIterationRangeMin_lower, h]

/-! ## Lemmas on the map key of `getChunkRecords` -/

theorem intercalate_go_data (sep : String) :
    ∀ (l : List String) (acc : String),
      (String.intercalate.go acc sep l).data =
        acc.data ++ (l.map (fun a => sep.data ++ a.data)).flatten := by
  intro l
  induction l with
  | nil => intro acc; simp [String.intercalate.go]
  | cons a rest ih =>
    intro acc
    simp only [String.intercalate.go, ih, String.data_append, List.map_cons, List.flatten_cons,
      List.append_assoc]

theorem joinChars_cons (sep : Char) :
    ∀ (rest : List (List Char)) (a : List Char),
      joinChars sep (a :: rest) = a ++ (rest.map (fun f => sep :: f)).flatten := by
  intro rest
  induction rest with
  | nil => intro a; simp [joinChars]
  | cons b rest ih =>
    intro a
    simp only [joinChars, ih, List.map_cons, List.flatten_cons, List.cons_append]

theorem intercalate_data (sep : Char) (l : List String) :
    ((String.mk [sep]).intercalate l).data = joinChars sep (l.map String.data) := by
  cases l with
  | nil => rfl
  | cons a rest =>
    simp only [String.intercalate, intercalate_go_data, List.map_cons, joinChars_cons,
      List.map_map]
    rfl

theorem splitChars_cons_of_ne (sep c : Char) (cs : List Char) (h : ¬ c = sep) :
    splitChars sep (c :: cs) =
      (match splitChars sep cs with
        | [] => [[c]]
        | field :: rest => (c :: field) :: rest) := by
  rw [splitChars, if_neg h]

theorem splitChars_of_not_mem (sep : Char) :
    ∀ (a : List Char), sep ∉ a → splitChars sep a = [a] := by
  intro a
  induction a with
  | nil => intro _; rfl
  | cons c cs ih =>
    intro h
    simp only [List.mem_cons, not_or] at h
    unfold splitChars
    rw [if_neg (fun hc => h.1 hc.symm), ih h.2]

theorem splitChars_append_sep (sep : Char) (tail : List Char) :
    ∀ (a : List Char), sep ∉ a →
      splitChars sep (a ++ sep :: tail) = a :: splitChars sep tail := by
  intro a
  induction a with
  | nil => intro _; simp [splitChars]
  | cons c cs ih =>
    intro h
    simp only [List.mem_cons, not_or] at h
    have hc : ¬ c = sep := fun hc => h.1 hc.symm
    rw [List.cons_append, splitChars_cons_of_ne sep c _ hc, ih h.2]

theorem splitChars_joinChars (sep : Char) :
    ∀ (fields : List (List Char)), fields ≠ [] → (∀ f ∈ fields, sep ∉ f) →
      splitChars sep (joinChars sep fields) = fields := by
  intro fields
  induction fields with
  | nil => intro h; exact absurd rfl h
  | cons a rest ih =>
    intro _ hfree
    cases rest with
    | nil => exact splitChars_of_not_mem sep a (hfree a (by simp))
    | cons b rest2 =>
      simp only [joinChars]
      rw [splitChars_append_sep sep _ a (hfree a (by simp)),
        ih (by simp) (fun f hf => hfree f (List.mem_cons_of_mem _ hf))]

theorem joinChars_injective (sep : Char) (t1 t2 : List (List Char))
    (hlen : t1.length = t2.length)
    (h1 : ∀ f ∈ t1, sep ∉ f) (h2 : ∀ f ∈ t2, sep ∉ f)
    (h : joinChars sep t1 = joinChars sep t2) : t1 = t2 := by
  cases t1 with
  | nil =>
    cases t2 with
    | nil => rfl
    | cons b r => simp at hlen
  | cons a r1 =>
    cases t2 with
    | nil => simp at hlen
    | cons b r2 =>
      rw [← splitChars_joinChars sep (a :: r1) (by simp) h1,
        ← splitChars_joinChars sep (b :: r2) (by simp) h2, h]

theorem mem_joinChars (sep c : Char) :
    ∀ (fields : List (List Char)), c ∈ joinChars sep fields →
      c = sep ∨ ∃ f ∈ fields, c ∈ f := by
  intro fields
  induction fields with
  | nil => intro h; simp [joinChars] at h
  | cons a rest ih =>
    intro h
    cases rest with
    | nil => exact Or.inr ⟨a, by simp, by simpa [joinChars] using h⟩
    | cons b rest2 =>
      simp only [joinChars, List.mem_append, List.mem_cons] at h
      rcases h with h | h | h
      · exact Or.inr ⟨a, by simp, h⟩
      · exact Or.inl h
      · rcases ih h with h | ⟨f, hf, hc⟩
        · exact Or.inl h
        · exact Or.inr ⟨f, List.mem_cons_of_mem _ hf, hc⟩

theorem digitChar_ne_bar (d : Nat) (h : d < 10) : Nat.digitChar d ≠ '|' := by
  interval_cases d <;> decide

theorem mem_toDigitsCore :
    ∀ (fuel n : Nat) (acc : List Char) (c : Char),
      c ∈ Nat.toDigitsCore 10 fuel n acc → c ∈ acc ∨ ∃ d, d < 10 ∧ c = Nat.digitChar d := by
  intro fuel
  induction fuel with
  | zero => intro n acc c h; exact Or.inl (by simpa [Nat.toDigitsCore] using h)
  | succ fuel ih =>
    intro n acc c h
    unfold Nat.toDigitsCore at h
    dsimp only at h
    split_ifs at h
    · rcases List.mem_cons.1 h with h | h
      · exact Or.inr ⟨n % 10, Nat.mod_lt _ (by decide), h⟩
      · exact Or.inl h
    · rcases ih _ _ c h with h | h
      · rcases List.mem_cons.1 h with h | h
        · exact Or.inr ⟨n % 10, Nat.mod_lt _ (by decide), h⟩
        · exact Or.inl h
      · exact Or.inr h

theorem bar_not_mem_toString (n : Nat) : '|' ∉ (toString n).data := by
  intro h
  have h1 : '|' ∈ Nat.toDigitsCore 10 (n + 1) n [] := h
  rcases mem_toDigitsCore _ _ _ _ h1 with h2 | ⟨d, hd, h2⟩
  · simp at h2
  · exact digitChar_ne_bar d hd h2.symm


theorem bar_not_mem_sprintfBytes (s : String) : '|' ∉ (sprintfBytes s).data := by
  intro h
  have hsp : (" " : String) = String.mk [' '] := rfl
  simp only [sprintfBytes, String.data_append, List.mem_append, hsp, intercalate_data] at h
  rcases h with (h | h) | h
  · revert h; decide
  · rcases mem_joinChars _ _ _ h with h | ⟨f, hf, hc⟩
    · revert h; decide
    · simp only [List.mem_map] at hf
      obtain ⟨t, ⟨b, _, hb⟩, ht⟩ := hf
      subst ht
      subst hb
      exact bar_not_mem_toString _ hc
  · revert h; decide

theorem bar_not_mem_sprintfV (v : Value)
    (h : ∀ rendered, v = Value.other rendered → '|' ∉ rendered.data) :
    '|' ∉ (sprintfV v).data := by
  cases v with
  | null => decide
  | bytes s => exact bar_not_mem_sprintfBytes s
  | other rendered => exact h rendered rfl

theorem intercalate_bar_injective (t1 t2 : List String) (hlen : t1.length = t2.length)
    (h1 : ∀ f ∈ t1, '|' ∉ f.data) (h2 : ∀ f ∈ t2, '|' ∉ f.data)
    (h : "|".intercalate t1 = "|".intercalate t2) : t1 = t2 := by
  have hsp : ("|" : String) = String.mk ['|'] := rfl
  have hd := congrArg String.data h
  rw [hsp, intercalate_data, intercalate_data] at hd
  have hm := joinChars_injective '|' _ _ (by simpa using hlen)
    (by intro f hf; obtain ⟨x, hx, rfl⟩ := List.mem_map.1 hf; exact h1 x hx)
    (by intro f hf; obtain ⟨x, hx, rfl⟩ := List.mem_map.1 hf; exact h2 x hx) hd
  exact List.map_injective_iff.2 (fun a b hab => String.ext hab) hm

theorem pkKey_injective (pk1 pk2 : ColumnValues) (harity : pk1.length = pk2.length)
    (h1 : ∀ v ∈ pk1, ∀ rendered, v = Value.other rendered → '|' ∉ rendered.data)
    (h2 : ∀ v ∈ pk2, ∀ rendered, v = Value.other rendered → '|' ∉ rendered.data)
    (h : pkKey pk1 = pkKey pk2) : pk1.map sprintfV = pk2.map sprintfV := by
  apply intercalate_bar_injective _ _ (by simpa using harity) _ _ h
  · intro f hf
    obtain ⟨v, hv, rfl⟩ := List.mem_map.1 hf
    exact bar_not_mem_sprintfV v (h1 v hv)
  · intro f hf
    obtain ⟨v, hv, rfl⟩ := List.mem_map.1 hf
    exact bar_not_mem_sprintfV v (h2 v hv)

theorem RecordMap.keys_set_of_not_mem :
    ∀ (m : RecordMap) (k : String) (v : RecordData), k ∉ m.keys →
      (m.set k v).keys = m.keys ++ [k] := by
  intro m
  induction m with
  | nil => intro k v _; rfl
  | cons head rest ih =>
    intro k v hk
    obtain ⟨k1, v1⟩ := head
    simp only [RecordMap.keys, List.map_cons, List.mem_cons, not_or] at hk
    have hne : ¬ k1 = k := fun h => hk.1 h.symm
    have := ih k v hk.2
    simp only [RecordMap.keys] at this
    simp [RecordMap.set, hne, RecordMap.keys, this]

theorem scanRecordRows_keys (uniqueKey : List String) :
    ∀ (rows : List (ColumnValues × Value)) (records : RecordMap),
      (records.keys ++ rows.map (fun row => pkKey row.1)).Nodup →
      ∃ fetched, scanRecordRows uniqueKey (rows.map RowScan.ok) records = Except.ok fetched ∧
        fetched.keys = records.keys ++ rows.map (fun row => pkKey row.1) := by
  intro rows
  induction rows with
  | nil => intro records _; exact ⟨records, rfl, by simp⟩
  | cons row rest ih =>
    intro records hnodup
    obtain ⟨pk, checksumValue⟩ := row
    have hk : pkKey pk ∉ records.keys := by
      intro hmem
      rw [List.nodup_append] at hnodup
      exact hnodup.2.2 hmem (by simp)
    have hkeys := RecordMap.keys_set_of_not_mem records (pkKey pk)
      { PrimaryKeyValues := uniqueKey.zip pk, Checksum := sprintfV checksumValue } hk
    have hnodup2 : ((records.set (pkKey pk)
        { PrimaryKeyValues := uniqueKey.zip pk, Checksum := sprintfV checksumValue }).keys ++
        rest.map (fun row => pkKey row.1)).Nodup := by
      rw [hkeys]
      simpa using hnodup
    obtain ⟨fetched, h1, h2⟩ := ih _ hnodup2
    refine ⟨fetched, h1, ?_⟩
    rw [h2, hkeys]
    simp

/-! ## Lemmas on repeated calls of the time-window steppers -/

theorem windowStart_zero (b : Time) (s : Duration) : windowStart b s 0 = b := by
  simp [windowStart]

theorem windowStart_succ (b : Time) (s : Duration) (k : Nat) :
    windowStart b s (k + 1) = windowStart b s k + s := by
  simp only [windowStart]
  push_cast
  ring

theorem windowStart_lt_iff (b e : Time) (s : Duration) (hs : 0 < s) (k : Nat) :
    windowStart b s k < e ↔ k < windowCount b e s := by
  unfold windowStart windowCount
  unfold Time Duration at *
  have h1 : e - b + s - 1 = (e - b - 1) + 1 * s := by ring
  rw [h1, Int.add_mul_ediv_right _ _ (ne_of_gt hs), Int.lt_toNat]
  constructor
  · intro h
    have : (k : Int) ≤ (e - b - 1) / s := by
      rw [Int.le_ediv_iff_mul_le hs]
      omega
    omega
  · intro h
    have : (k : Int) ≤ (e - b - 1) / s := by omega
    rw [Int.le_ediv_iff_mul_le hs] at this
    omega


/-- What one round with the adapter's stepper leaves, field by field. -/
theorem adapter_stepAndCount (c : TimeRangeContext) :
    (stepAndCount TimeRangeAdapter.CalculateNextIterationTimeRange c).SpecifiedDatetimeRangeBegin =
        c.SpecifiedDatetimeRangeBegin ∧
      (stepAndCount TimeRangeAdapter.CalculateNextIterationTimeRange c).SpecifiedDatetimeRangeEnd =
        c.SpecifiedDatetimeRangeEnd ∧
      (stepAndCount TimeRangeAdapter.CalculateNextIterationTimeRange c).SpecifiedTimeRangePerStep =
        c.SpecifiedTimeRangePerStep ∧
      (stepAndCount TimeRangeAdapter.CalculateNextIterationTimeRange c).TimeIterationRangeMinValue =
        c.nextLower ∧
      (stepAndCount TimeRangeAdapter.CalculateNextIterationTimeRange c).TimeIterationRangeMaxValue =
        (if c.SpecifiedDatetimeRangeEnd ≤ c.nextLower then c.TimeIterationRangeMaxValue
          else min (c.nextLower + c.SpecifiedTimeRangePerStep) c.SpecifiedDatetimeRangeEnd) ∧
      (TimeRangeAdapter.CalculateNextIterationTimeRange c).2.1 =
        decide (c.nextLower < c.SpecifiedDatetimeRangeEnd) ∧
      (TimeRangeAdapter.CalculateNextIterationTimeRange c).1.TimeIterationRangeMinValue =
        (stepAndCount TimeRangeAdapter.CalculateNextIterationTimeRange c).TimeIterationRangeMinValue ∧
      (TimeRangeAdapter.CalculateNextIterationTimeRange c).1.TimeIterationRangeMaxValue =
        (stepAndCount TimeRangeAdapter.CalculateNextIterationTimeRange c).TimeIterationRangeMaxValue := by
  unfold stepAndCount
  rw [TimeRangeAdapter_step_eq]
  by_cases h : c.SpecifiedDatetimeRangeEnd ≤ c.nextLower
  · simp [h]
  · simp [h, not_le.1 h]

/-- The stepper of timecolumn.go in closed form. -/
theorem ChecksumContext_step_eq (ctx : TimeRangeContext) :
    ChecksumContext.CalculateNextIterationTimeRange ctx =
      (if ctx.Iteration = 0 then
        ({ ctx with
            TimeIterationRangeMinValue := ctx.SpecifiedDatetimeRangeBegin
            TimeIterationRangeMaxValue :=
              min (ctx.SpecifiedDatetimeRangeBegin + ctx.SpecifiedTimeRangePerStep)
                ctx.SpecifiedDatetimeRangeEnd }, true, none)
      else
        ({ ctx with
            TimeIterationRangeMinValue := ctx.TimeIterationRangeMaxValue
            TimeIterationRangeMaxValue :=
              min (ctx.TimeIterationRangeMaxValue + ctx.SpecifiedTimeRangePerStep)
                ctx.SpecifiedDatetimeRangeEnd },
          decide (ctx.TimeIterationRangeMaxValue < ctx.SpecifiedDatetimeRangeEnd), none)) := by
  unfold ChecksumContext.CalculateNextIterationTimeRange
  simp only [Time.After, Time.Before, Time.Add, decide_eq_true_eq]
  by_cases hit : ctx.Iteration = 0
  · simp only [hit, if_true]
    by_cases hcap : ctx.SpecifiedDatetimeRangeEnd <
        ctx.SpecifiedDatetimeRangeBegin + ctx.SpecifiedTimeRangePerStep
    · simp only [hcap, if_true, min_eq_right (le_of_lt hcap)]
    · simp only [hcap, if_false, min_eq_left (not_lt.1 hcap)]
  · simp only [hit, if_false]
    by_cases hcap : ctx.SpecifiedDatetimeRangeEnd <
        ctx.TimeIterationRangeMaxValue + ctx.SpecifiedTimeRangePerStep
    · simp only [hcap, if_true, min_eq_right (le_of_lt hcap)]
    · simp only [hcap, if_false, min_eq_left (not_lt.1 hcap)]

/-- The adapter's stepper after `k + 1` rounds on a fresh context, as long as no
lower bound it left was the zero time: the window that starts at
`Begin + k * step`, capped at `End`. -/
theorem adapter_afterCalls (b e : Time) (s : Duration) (hlt : b < e) (hs : 0 < s) :
    ∀ (k : Nat), (∀ j, j < k → min (windowStart b s j) e ≠ 0) →
      (afterCalls TimeRangeAdapter.CalculateNextIterationTimeRange (k + 1)
          (NewTimeRangeContext b e s)).SpecifiedDatetimeRangeBegin = b ∧
      (afterCalls TimeRangeAdapter.CalculateNextIterationTimeRange (k + 1)
          (NewTimeRangeContext b e s)).SpecifiedDatetimeRangeEnd = e ∧
      (afterCalls TimeRangeAdapter.CalculateNextIterationTimeRange (k + 1)
          (NewTimeRangeContext b e s)).SpecifiedTimeRangePerStep = s ∧
      (afterCalls TimeRangeAdapter.CalculateNextIterationTimeRange (k + 1)
          (NewTimeRangeContext b e s)).TimeIterationRangeMinValue = min (windowStart b s k) e ∧
      (afterCalls TimeRangeAdapter.CalculateNextIterationTimeRange (k + 1)
          (NewTimeRangeContext b e s)).TimeIterationRangeMaxValue =
        min (windowStart b s (k + 1)) e := by
  intro k
  induction k with
  | zero =>
    intro _
    obtain ⟨h1, h2, h3, h4, h5, _⟩ := adapter_stepAndCount (NewTimeRangeContext b e s)
    have hn : (NewTimeRangeContext b e s).nextLower = b := by
      simp [TimeRangeContext.nextLower, NewTimeRangeContext]
    rw [hn] at h4 h5
    simp only [afterCalls]
    refine ⟨h1, h2, h3, ?_, ?_⟩
    · rw [h4, windowStart_zero]
      exact (min_eq_left (le_of_lt hlt)).symm
    · rw [h5, windowStart_succ, windowStart_zero]
      have he : (NewTimeRangeContext b e s).SpecifiedDatetimeRangeEnd = e := rfl
      have hst : (NewTimeRangeContext b e s).SpecifiedTimeRangePerStep = s := rfl
      rw [he, hst, if_neg (not_le.2 hlt)]
  | succ k ih =>
    intro hnz
    obtain ⟨i1, i2, i3, i4, i5⟩ := ih (fun j hj => hnz j (Nat.lt_succ_of_lt hj))
    have hmin := hnz k (Nat.lt_succ_self k)
    have hstep : afterCalls TimeRangeAdapter.CalculateNextIterationTimeRange (k + 1 + 1)
        (NewTimeRangeContext b e s) =
        stepAndCount TimeRangeAdapter.CalculateNextIterationTimeRange
          (afterCalls TimeRangeAdapter.CalculateNextIterationTimeRange (k + 1)
            (NewTimeRangeContext b e s)) := rfl
    rw [hstep]
    generalize afterCalls TimeRangeAdapter.CalculateNextIterationTimeRange (k + 1)
      (NewTimeRangeContext b e s) = c at i1 i2 i3 i4 i5
    obtain ⟨h1, h2, h3, h4, h5, _⟩ := adapter_stepAndCount c
    have hn : c.nextLower = c.TimeIterationRangeMaxValue := by
      unfold TimeRangeContext.nextLower
      rw [if_neg (by rw [i4]; exact hmin)]
    rw [hn] at h4 h5
    rw [h1, h2, h3, h4, h5, i1, i2, i3, i5, windowStart_succ b s (k + 1)]
    refine ⟨rfl, rfl, rfl, rfl, ?_⟩
    generalize windowStart b s (k + 1) = w
    unfold Time Duration at *
    split_ifs <;> omega


/-- What the adapter's stepper returns in round `k + 1`: whether window `k`
starts before `End`. -/
theorem adapter_returns (b e : Time) (s : Duration) (hlt : b < e) (hs : 0 < s) :
    ∀ (k : Nat), (∀ j, j < k → min (windowStart b s j) e ≠ 0) →
      (TimeRangeAdapter.CalculateNextIterationTimeRange (afterCalls TimeRangeAdapter.CalculateNextIterationTimeRange k (NewTimeRangeContext b e s))).2.1 =
        decide (windowStart b s k < e) := by
  intro k hnz
  cases k with
  | zero =>
    obtain ⟨_, _, _, _, _, h6, _⟩ := adapter_stepAndCount (NewTimeRangeContext b e s)
    have hn : (NewTimeRangeContext b e s).nextLower = b := by
      simp [TimeRangeContext.nextLower, NewTimeRangeContext]
    rw [hn] at h6
    simp only [afterCalls, windowStart_zero]
    exact h6
  | succ k =>
    obtain ⟨_, i2, _, i4, i5⟩ :=
      adapter_afterCalls b e s hlt hs k (fun j hj => hnz j (Nat.lt_succ_of_lt hj))
    have hmin := hnz k (Nat.lt_succ_self k)
    generalize afterCalls TimeRangeAdapter.CalculateNextIterationTimeRange (k + 1) (NewTimeRangeContext b e s) = c at i2 i4 i5
    obtain ⟨_, _, _, _, _, h6, _⟩ := adapter_stepAndCount c
    have hn : c.nextLower = c.TimeIterationRangeMaxValue := by
      unfold TimeRangeContext.nextLower
      rw [if_neg (by rw [i4]; exact hmin)]
    rw [h6, hn, i2, i5]
    generalize windowStart b s (k + 1) = w
    unfold Time at *
    congr 1
    apply propext
    constructor <;> intro h <;> omega

/-- Where the adapter's stepper does what is asked of it: for a Begin strictly
before End, a positive step, and no window start `Begin + k * step` before End at
the zero time, the first `ceil((End - Begin) / step)` calls on a fresh context
report a further range, the next call reports none, and the last window's upper
bound is End. -/
theorem adapter_window_count (b e : Time) (s : Duration) (hlt : b < e) (hs : 0 < s)
    (hnz : ∀ k : Nat, windowStart b s k < e → windowStart b s k ≠ 0) :
    0 < windowCount b e s ∧
    (∀ k, k < windowCount b e s →
      (TimeRangeAdapter.CalculateNextIterationTimeRange (afterCalls TimeRangeAdapter.CalculateNextIterationTimeRange k (NewTimeRangeContext b e s))).2.1 = true) ∧
    (TimeRangeAdapter.CalculateNextIterationTimeRange (afterCalls TimeRangeAdapter.CalculateNextIterationTimeRange (windowCount b e s) (NewTimeRangeContext b e s))).2.1 = false ∧
    (afterCalls TimeRangeAdapter.CalculateNextIterationTimeRange (windowCount b e s) (NewTimeRangeContext b e s)).TimeIterationRangeMaxValue
      = e := by
  have hpos : 0 < windowCount b e s := by
    rw [← windowStart_lt_iff b e s hs 0, windowStart_zero]
    exact hlt
  have hmin : ∀ k, k ≤ windowCount b e s → ∀ j, j < k → min (windowStart b s j) e ≠ 0 := by
    intro k hk j hj
    have hj2 : windowStart b s j < e :=
      (windowStart_lt_iff b e s hs j).2 (Nat.lt_of_lt_of_le hj hk)
    rw [min_eq_left (le_of_lt hj2)]
    exact hnz j hj2
  have hlast : ¬ windowStart b s (windowCount b e s) < e := by
    rw [windowStart_lt_iff b e s hs]
    exact Nat.lt_irrefl _
  refine ⟨hpos, ?_, ?_, ?_⟩
  · intro k hk
    rw [adapter_returns b e s hlt hs k (hmin k (Nat.le_of_lt hk))]
    exact decide_eq_true ((windowStart_lt_iff b e s hs k).2 hk)
  · rw [adapter_returns b e s hlt hs _ (hmin _ (Nat.le_refl _))]
    exact decide_eq_false hlast
  · obtain ⟨n, hn⟩ : ∃ n, windowCount b e s = n + 1 := ⟨windowCount b e s - 1, by omega⟩
    have h5 := (adapter_afterCalls b e s hlt hs n
      (hmin n (by omega))).2.2.2.2
    rw [hn] at hlast ⊢
    rw [h5]
    exact min_eq_right (not_lt.1 hlast)

/-- The adapter's stepper on the range from 60 before the zero time to 100 after
it, in steps of 60: after any number of rounds the window is the fresh one, or
(-60, 0), or (0, 60); the walk never gets past 60. -/
theorem zeroCrossing_invariant :
    ∀ (k : Nat),
      (afterCalls TimeRangeAdapter.CalculateNextIterationTimeRange k exampleZeroCrossing).SpecifiedDatetimeRangeBegin = -60 ∧
      (afterCalls TimeRangeAdapter.CalculateNextIterationTimeRange k exampleZeroCrossing).SpecifiedDatetimeRangeEnd = 100 ∧
      (afterCalls TimeRangeAdapter.CalculateNextIterationTimeRange k exampleZeroCrossing).SpecifiedTimeRangePerStep = 60 ∧
      (((afterCalls TimeRangeAdapter.CalculateNextIterationTimeRange k exampleZeroCrossing).TimeIterationRangeMinValue = 0 ∧
          (afterCalls TimeRangeAdapter.CalculateNextIterationTimeRange k exampleZeroCrossing).TimeIterationRangeMaxValue = 0) ∨
        ((afterCalls TimeRangeAdapter.CalculateNextIterationTimeRange k exampleZeroCrossing).TimeIterationRangeMinValue = -60 ∧
          (afterCalls TimeRangeAdapter.CalculateNextIterationTimeRange k exampleZeroCrossing).TimeIterationRangeMaxValue = 0) ∨
        ((afterCalls TimeRangeAdapter.CalculateNextIterationTimeRange k exampleZeroCrossing).TimeIterationRangeMinValue = 0 ∧
          (afterCalls TimeRangeAdapter.CalculateNextIterationTimeRange k exampleZeroCrossing).TimeIterationRangeMaxValue = 60)) := by
  intro k
  induction k with
  | zero => exact ⟨rfl, rfl, rfl, Or.inl ⟨rfl, rfl⟩⟩
  | succ k ih =>
    have hstep : afterCalls TimeRangeAdapter.CalculateNextIterationTimeRange (k + 1) exampleZeroCrossing =
        stepAndCount TimeRangeAdapter.CalculateNextIterationTimeRange (afterCalls TimeRangeAdapter.CalculateNextIterationTimeRange k exampleZeroCrossing) := rfl
    rw [hstep]
    generalize afterCalls TimeRangeAdapter.CalculateNextIterationTimeRange k exampleZeroCrossing = c at ih
    obtain ⟨i1, i2, i3, i4⟩ := ih
    obtain ⟨h1, h2, h3, h4, h5, _⟩ := adapter_stepAndCount c
    rw [h1, h2, h3, h4, h5]
    refine ⟨i1, i2, i3, ?_⟩
    simp only [TimeRangeContext.nextLower, i1, i2, i3]
    rcases i4 with ⟨m1, m2⟩ | ⟨m1, m2⟩ | ⟨m1, m2⟩ <;> simp only [m1, m2] <;> decide

/-- On that range every call of the adapter's stepper reports a further range. -/
theorem zeroCrossing_returns (k : Nat) :
    (TimeRangeAdapter.CalculateNextIterationTimeRange (afterCalls TimeRangeAdapter.CalculateNextIterationTimeRange k exampleZeroCrossing)).2.1 = true := by
  obtain ⟨i1, i2, _, i4⟩ := zeroCrossing_invariant k
  generalize afterCalls TimeRangeAdapter.CalculateNextIterationTimeRange k exampleZeroCrossing = c at i1 i2 i4
  obtain ⟨_, _, _, _, _, h6, _⟩ := adapter_stepAndCount c
  rw [h6]
  simp only [TimeRangeContext.nextLower, i1, i2]
  rcases i4 with ⟨m1, m2⟩ | ⟨m1, m2⟩ | ⟨m1, m2⟩ <;> simp only [m1, m2] <;> decide

/-- What a call of the adapter's stepper that reports a further range leaves: the
lower bound is `SpecifiedDatetimeRangeBegin` when the lower bound was the zero
time before the call and the previous upper bound otherwise; the upper bound is
the lower bound plus the step, capped at `SpecifiedDatetimeRangeEnd`. -/
theorem TimeRangeAdapter_window_step (ctx : TimeRangeContext)
    (hfurther : (TimeRangeAdapter.CalculateNextIterationTimeRange ctx).2.1 = true) :
    (TimeRangeAdapter.CalculateNextIterationTimeRange ctx).1.TimeIterationRangeMinValue =
      (if ctx.TimeIterationRangeMinValue = 0 then ctx.SpecifiedDatetimeRangeBegin
        else ctx.TimeIterationRangeMaxValue) ∧
    (TimeRangeAdapter.CalculateNextIterationTimeRange ctx).1.TimeIterationRangeMaxValue =
      min ((TimeRangeAdapter.CalculateNextIterationTimeRange ctx).1.TimeIterationRangeMinValue
          + ctx.SpecifiedTimeRangePerStep) ctx.SpecifiedDatetimeRangeEnd ∧
    (TimeRangeAdapter.CalculateNextIterationTimeRange ctx).1.TimeIterationRangeMaxValue
      ≤ ctx.SpecifiedDatetimeRangeEnd ∧
    (TimeRangeAdapter.CalculateNextIterationTimeRange ctx).1.TimeIterationRangeMinValue
      < ctx.SpecifiedDatetimeRangeEnd ∧
    (TimeRangeAdapter.CalculateNextIterationTimeRange ctx).2.2 = none ∧
    ((TimeRangeAdapter.CalculateNextIterationTimeRange ctx).1.TimeIterationRangeMinValue ≠ 0 →
      (TimeRangeAdapter.CalculateNextIterationTimeRange
        (TimeRangeAdapter.CalculateNextIterationTimeRange ctx).1).1.TimeIterationRangeMinValue =
      (TimeRangeAdapter.CalculateNextIterationTimeRange ctx).1.TimeIterationRangeMaxValue) := by
  have hmin : ∀ c : TimeRangeContext,
      (TimeRangeAdapter.CalculateNextIterationTimeRange c).1.TimeIterationRangeMinValue
        = c.nextLower := by
    intro c
    rw [TimeRangeAdapter_step_eq]
    split_ifs <;> rfl
  rw [TimeRangeAdapter_step_eq ctx] at hfurther
  by_cases hend : ctx.SpecifiedDatetimeRangeEnd ≤ ctx.nextLower
  · rw [if_pos hend] at hfurther
    simp at hfurther
  · have hres := TimeRangeAdapter_step_eq ctx
    rw [if_neg hend] at hres
    refine ⟨(hmin ctx).trans rfl, ?_, ?_, ?_, ?_, ?_⟩
    · rw [hmin ctx, hres]
    · rw [hres]
      exact min_le_right _ _
    · rw [hmin ctx]
      exact not_le.1 hend
    · rw [hres]
    · intro hne
      rw [hmin, TimeRangeContext.nextLower, if_neg hne]

/-! ## Lemmas on the priority order in the words of the specification -/

theorem specTypeRank_eq (t : String) :
    specTypeRank t =
      (if t = "tinyint" then 0 else if t = "smallint" then 1 else if t = "int" then 2
        else if t = "bigint" then 3 else 4) := by
  unfold specTypeRank
  by_cases h1 : t = "tinyint"
  · subst h1; rfl
  · by_cases h2 : t = "smallint"
    · subst h2; rfl
    · by_cases h3 : t = "int"
      · subst h3; rfl
      · by_cases h4 : t = "bigint"
        · subst h4; rfl
        · have b1 : ("tinyint" == t) = false := beq_eq_false_iff_ne.2 (Ne.symm h1)
          have b2 : ("smallint" == t) = false := beq_eq_false_iff_ne.2 (Ne.symm h2)
          have b3 : ("int" == t) = false := beq_eq_false_iff_ne.2 (Ne.symm h3)
          have b4 : ("bigint" == t) = false := beq_eq_false_iff_ne.2 (Ne.symm h4)
          simp [List.indexOf_cons, b1, b2, b3, b4, h1, h2, h3, h4]

theorem dataTypeRank_lt_iff (x y : String) :
    dataTypeRank x < dataTypeRank y ↔ specTypeRank x < specTypeRank y := by
  rw [specTypeRank_eq, specTypeRank_eq]
  unfold dataTypeRank
  split_ifs <;> simp

theorem dataTypeRank_eq_iff (x y : String) :
    dataTypeRank x = dataTypeRank y ↔ specTypeRank x = specTypeRank y := by
  rw [specTypeRank_eq, specTypeRank_eq]
  unfold dataTypeRank
  split_ifs <;> simp

theorem zeroOne_lt_iff (P Q : Prop) [Decidable P] [Decidable Q] :
    (if P then 0 else 1 : Nat) < (if Q then 0 else 1) ↔ P ∧ ¬ Q := by
  by_cases hP : P <;> by_cases hQ : Q <;> simp [hP, hQ]

theorem zeroOne_eq_iff (P Q : Prop) [Decidable P] [Decidable Q] :
    (if P then 0 else 1 : Nat) = (if Q then 0 else 1) ↔ (P ↔ Q) := by
  by_cases hP : P <;> by_cases hQ : Q <;> simp [hP, hQ]

theorem oneZero_lt_iff (x y : Bool) :
    (if x = true then 1 else 0 : Nat) < (if y = true then 1 else 0) ↔ x = false ∧ y = true := by
  cases x <;> cases y <;> simp

theorem oneZero_eq_iff (x y : Bool) :
    (if x = true then 1 else 0 : Nat) = (if y = true then 1 else 0) ↔ x = y := by
  cases x <;> cases y <;> simp

theorem priorityLE_iff_specNoLater (a b : UniqueKeyCandidate) :
    priorityLE a b ↔ specNoLater a b := by
  unfold priorityLE specNoLater
  simp only [UniqueKeyCandidate.sortKey, lexLE, Bool.or_eq_true, Bool.and_eq_true,
    decide_eq_true_eq, zeroOne_lt_iff, zeroOne_eq_iff, oneZero_lt_iff, oneZero_eq_iff,
    dataTypeRank_lt_iff, dataTypeRank_eq_iff, Bool.or_true, or_true, and_true, ne_eq,
    ← Nat.le_iff_lt_or_eq]

/-! ## Claims -/

/-- C1: in superset mode (`IsSuperSetAsEqual` set, `checkLevel` 2), whenever both
fetches succeeded, `IterationQueryChecksum` judges the chunk equal exactly when
the source sequence is an ordered, not necessarily contiguous, subsequence of the
target sequence.  In particular `[a,b,c]` is equal against `[a,x,b,c]`, unequal
against `[a,c,b]` and unequal against `[a,b]`. -/
theorem C1_superset_equal_iff_subsequence :
    (∀ source target : GoStrings,
      (IterationQueryChecksum true ⟨source, none⟩ ⟨target, none⟩).1 = true ↔
        source.elems.Sublist target.elems) ∧
    IterationQueryChecksum true ⟨some ["a", "b", "c"], none⟩ ⟨some ["a", "x", "b", "c"], none⟩
      = (true, none) ∧
    IterationQueryChecksum true ⟨some ["a", "b", "c"], none⟩ ⟨some ["a", "c", "b"], none⟩
      = (false, none) ∧
    IterationQueryChecksum true ⟨some ["a", "b", "c"], none⟩ ⟨some ["a", "b"], none⟩
      = (false, none) := by
  refine ⟨?_, by decide, by decide, by decide⟩
  intro source target
  by_cases hd : deepEqual source target = true
  · have he := deepEqual_elems hd
    simp [IterationQueryChecksum, hd, he]
  · by_cases hs : subsetCheckFunc source.elems target.elems = true
    · simp [IterationQueryChecksum, hd, checkLevel, hs, (subsetCheckFunc_iff _ _).1 hs]
    · have hn : ¬ source.elems.Sublist target.elems := fun h => hs ((subsetCheckFunc_iff _ _).2 h)
      simp [IterationQueryChecksum, hd, checkLevel, hs, hn]

/-- C2: in exact mode (`IsSuperSetAsEqual` unset, `checkLevel` 1), whenever both
fetches succeed, `IterationQueryChecksum` returns equal = true exactly when the two
result sequences are identical (same length, same value at every position); a
source sequence that is only a proper subsequence of the target is judged
unequal. -/
theorem C2_exact_equal_iff_identical (qs qt : QueryOutcome Value)
    (hs : (QueryChecksumFunc qs).err = none) (ht : (QueryChecksumFunc qt).err = none) :
    ((IterationQueryChecksum false (QueryChecksumFunc qs) (QueryChecksumFunc qt)).1 = true ↔
      (QueryChecksumFunc qs).result.elems = (QueryChecksumFunc qt).result.elems) ∧
    ((QueryChecksumFunc qs).result.elems.Sublist (QueryChecksumFunc qt).result.elems →
      (QueryChecksumFunc qs).result.elems ≠ (QueryChecksumFunc qt).result.elems →
      IterationQueryChecksum false (QueryChecksumFunc qs) (QueryChecksumFunc qt) = (false, none)) := by
  have hde := deepEqual_of_fetched (QueryChecksumFunc_fetched qs) (QueryChecksumFunc_fetched qt)
  constructor
  · by_cases hd : deepEqual (QueryChecksumFunc qs).result (QueryChecksumFunc qt).result = true
    · simp [IterationQueryChecksum, hs, ht, hd, hde.1 hd]
    · have hne : ¬ (QueryChecksumFunc qs).result.elems = (QueryChecksumFunc qt).result.elems :=
        fun h => hd (hde.2 h)
      simp [IterationQueryChecksum, hs, ht, hd, checkLevel, hne]
  · intro _ hne
    have hd : ¬ deepEqual (QueryChecksumFunc qs).result (QueryChecksumFunc qt).result = true :=
      fun h => hne (hde.1 h)
    simp [IterationQueryChecksum, hs, ht, hd, checkLevel]

/-- Witness for C2: source rows `1a`, target rows `1a, 2b` (a proper subsequence)
are judged unequal without error in exact mode. -/
theorem C2_exact_equal_iff_identical_witness :
    (QueryChecksumFunc (QueryOutcome.success [Value.bytes "1a"])).err = none ∧
    (QueryChecksumFunc (QueryOutcome.success [Value.bytes "1a", Value.bytes "2b"])).err = none ∧
    IterationQueryChecksum false
      (QueryChecksumFunc (QueryOutcome.success [Value.bytes "1a"]))
      (QueryChecksumFunc (QueryOutcome.success [Value.bytes "1a", Value.bytes "2b"]))
      = (false, none) :=
  ⟨by decide, by decide,
    (C2_exact_equal_iff_identical (QueryOutcome.success [Value.bytes "1a"])
      (QueryOutcome.success [Value.bytes "1a", Value.bytes "2b"]) (by decide) (by decide)).2
      (by decide) (by decide)⟩

/-- C3: `IterationQueryChecksum` returns a non-nil error exactly when at least one
of the two fetches failed; then equal is false and the error is the failing
side's (the source's when both failed).  When both fetches succeeded the error is
nil, whether or not the chunk is judged equal. -/
theorem C3_error_iff_fetch_failed (isSuperSetAsEqual : Bool)
    (sourceResultStruct targetResultStruct : crc32ResultStruct) :
    ((IterationQueryChecksum isSuperSetAsEqual sourceResultStruct targetResultStruct).2 ≠ none ↔
      (sourceResultStruct.err ≠ none ∨ targetResultStruct.err ≠ none)) ∧
    (∀ e, sourceResultStruct.err = some e →
      IterationQueryChecksum isSuperSetAsEqual sourceResultStruct targetResultStruct
        = (false, some e)) ∧
    (∀ e, sourceResultStruct.err = none → targetResultStruct.err = some e →
      IterationQueryChecksum isSuperSetAsEqual sourceResultStruct targetResultStruct
        = (false, some e)) ∧
    (sourceResultStruct.err = none → targetResultStruct.err = none →
      (IterationQueryChecksum isSuperSetAsEqual sourceResultStruct targetResultStruct).2 = none) := by
  obtain ⟨sr, se⟩ := sourceResultStruct
  obtain ⟨tr, te⟩ := targetResultStruct
  cases se with
  | some e => simp [IterationQueryChecksum]
  | none =>
    cases te with
    | some e => simp [IterationQueryChecksum]
    | none =>
      simp only [IterationQueryChecksum]
      split_ifs <;> simp

/-- Witness for C3: when both fetches fail, the source's error is returned; when
both succeed on different sequences, unequal is returned with a nil error. -/
theorem C3_error_iff_fetch_failed_witness :
    IterationQueryChecksum false ⟨none, some "source down"⟩ ⟨none, some "target down"⟩
      = (false, some "source down") ∧
    (IterationQueryChecksum false ⟨some ["1a"], none⟩ ⟨some ["2b"], none⟩).2 = none :=
  ⟨(C3_error_iff_fetch_failed false ⟨none, some "source down"⟩ ⟨none, some "target down"⟩).2.1
      "source down" rfl,
    (C3_error_iff_fetch_failed false ⟨some ["1a"], none⟩ ⟨some ["2b"], none⟩).2.2.2 rfl rfl⟩

/-- C4: when both count queries succeed, `DataChecksumByCount` returns
countsEqual = (s = t) and continueChunking = (s = t, or superset-tolerant and
s < t), without error; so (100,100) gives (true,true), (90,100,superset) gives
(false,true), (110,100,superset) gives (false,false) and (90,100,non-superset)
gives (false,false). -/
theorem C4_count_precheck_policy :
    (∀ (isSuperSetAsEqual : Bool) (s t : Int),
      DataChecksumByCount isSuperSetAsEqual (some s) (some t) =
        (decide (s = t), decide (s = t) || (isSuperSetAsEqual && decide (s < t)), none)) ∧
    DataChecksumByCount false (some 100) (some 100) = (true, true, none) ∧
    DataChecksumByCount true (some 100) (some 100) = (true, true, none) ∧
    DataChecksumByCount true (some 90) (some 100) = (false, true, none) ∧
    DataChecksumByCount true (some 110) (some 100) = (false, false, none) ∧
    DataChecksumByCount false (some 90) (some 100) = (false, false, none) := by
  refine ⟨?_, by decide, by decide, by decide, by decide, by decide⟩
  intro f s t
  by_cases hst : s = t
  · simp [DataChecksumByCount, hst]
  · by_cases hlt : s < t
    · cases f <;> simp [DataChecksumByCount, hst, hlt]
    · cases f <;> simp [DataChecksumByCount, hst, hlt]

/-- C5: in every call of `CalculateNextIterationRangeEndValues` the lower bound
used for the new chunk (`ChecksumIterationRangeMinValues`) is the upper bound
that was committed before the call (`ChecksumIterationRangeMaxValues`), or the
global minimum (`UniqueKeyRangeMinValues`) when no upper bound has been
committed yet; and after a call that returned `(true, nil)` the next call starts
from exactly the upper bound that call committed. -/
theorem C5_lower_bound_is_previous_upper_bound (ctx : ChecksumContext)
    (answers next : Strategy → QueryOutcome ColumnValues) :
    (CalculateNextIterationRangeEndValues ctx answers).ctx.ChecksumIterationRangeMinValues =
      (match ctx.ChecksumIterationRangeMaxValues with
        | some upper => some upper
        | none => ctx.UniqueKeyRangeMinValues) ∧
    ((CalculateNextIterationRangeEndValues ctx answers).ret = some (true, none) →
      (CalculateNextIterationRangeEndValues ctx answers).ctx.ChecksumIterationRangeMaxValues ≠ none ∧
      (CalculateNextIterationRangeEndValues
          (CalculateNextIterationRangeEndValues ctx answers).ctx next).ctx.ChecksumIterationRangeMinValues =
        (CalculateNextIterationRangeEndValues ctx answers).ctx.ChecksumIterationRangeMaxValues) := by
  have key : ∀ (c : ChecksumContext) (a : Strategy → QueryOutcome ColumnValues),
      (CalculateNextIterationRangeEndValues c a).ctx.ChecksumIterationRangeMinValues =
        (match c.ChecksumIterationRangeMaxValues with
          | some upper => some upper
          | none => c.UniqueKeyRangeMinValues) := by
    intro c a
    rw [← setIterationRangeMin_lower]
    unfold CalculateNextIterationRangeEndValues
    rcases rangeEndLoop_spec (setIterationRangeMin c) a [Strategy.offset, Strategy.temptable] []
      with ⟨h1, _⟩ | ⟨v, h1, _⟩
    · rw [h1]
    · rw [h1]
  refine ⟨key ctx answers, ?_⟩
  intro hret
  have hupper : ∃ v, (CalculateNextIterationRangeEndValues ctx answers).ctx.ChecksumIterationRangeMaxValues
      = some v := by
    unfold CalculateNextIterationRangeEndValues at hret ⊢
    rcases rangeEndLoop_spec (setIterationRangeMin ctx) answers
      [Strategy.offset, Strategy.temptable] [] with ⟨_, h2⟩ | ⟨v, h1, _⟩
    · exact absurd hret h2
    · exact ⟨v, by rw [h1]⟩
  obtain ⟨v, hv⟩ := hupper
  refine ⟨by rw [hv]; simp, ?_⟩
  rw [key, hv]

/-- Witness for C5: on a table whose offset statement answers the key 7, the
first call starts from the global minimum 1, commits 7, and the second call
starts from 7. -/
theorem C5_lower_bound_is_previous_upper_bound_witness :
    (CalculateNextIterationRangeEndValues exampleContext exampleAnswers).ret = some (true, none) ∧
    (CalculateNextIterationRangeEndValues exampleContext exampleAnswers).ctx.ChecksumIterationRangeMinValues
      = some [Value.other "1"] ∧
    (CalculateNextIterationRangeEndValues
        (CalculateNextIterationRangeEndValues exampleContext exampleAnswers).ctx
        exampleAnswers).ctx.ChecksumIterationRangeMinValues = some [Value.other "7"] :=
  ⟨by decide,
    (C5_lower_bound_is_previous_upper_bound exampleContext exampleAnswers exampleAnswers).1.trans
      (by decide),
    ((C5_lower_bound_is_previous_upper_bound exampleContext exampleAnswers exampleAnswers).2
      (by decide)).2.trans (by decide)⟩

/-- C6: with both global bounds read, the temp-table pass of
`CalculateNextIterationRangeEndValues` is run exactly when the offset statement
went through without error and delivered no row.  When the offset statement
delivers rows, the (last) row's key tuple becomes the new upper bound with
`hasMore = true` and the temp-table statement is not consulted; when the offset
statement delivers nothing and the temp-table statement delivers a row, that row
becomes the new upper bound with `hasMore = true`. -/
theorem C6_temptable_iff_offset_empty (ctx : ChecksumContext)
    (answers : Strategy → QueryOutcome ColumnValues)
    (hmin : ctx.UniqueKeyRangeMinValues ≠ none) (hmax : ctx.UniqueKeyRangeMaxValues ≠ none) :
    (Strategy.temptable ∈ (CalculateNextIterationRangeEndValues ctx answers).consulted ↔
      (answers Strategy.offset).succeededEmpty) ∧
    (∀ rows last, answers Strategy.offset = QueryOutcome.success (rows ++ [last]) →
      (CalculateNextIterationRangeEndValues ctx answers).ret = some (true, none) ∧
      (CalculateNextIterationRangeEndValues ctx answers).ctx.ChecksumIterationRangeMaxValues
        = some last ∧
      (CalculateNextIterationRangeEndValues ctx answers).consulted = [Strategy.offset]) ∧
    (∀ rows last, (answers Strategy.offset).succeededEmpty →
      answers Strategy.temptable = QueryOutcome.success (rows ++ [last]) →
      (CalculateNextIterationRangeEndValues ctx answers).ret = some (true, none) ∧
      (CalculateNextIterationRangeEndValues ctx answers).ctx.ChecksumIterationRangeMaxValues
        = some last ∧
      (CalculateNextIterationRangeEndValues ctx answers).consulted
        = [Strategy.offset, Strategy.temptable]) := by
  rw [CalculateNext_unfold ctx answers hmin hmax]
  refine ⟨?_, ?_, ?_⟩
  · by_cases ho : (answers Strategy.offset).succeededEmpty
    · rw [rangeEndPass_succeededEmpty _ _ false ho]
      simp only [Bool.false_eq_true, if_false, ho, iff_true]
      cases rangeEndPass (setIterationRangeMin ctx) (answers Strategy.temptable) false <;> simp
    · obtain ⟨c, h1, e, hr⟩ := rangeEndPass_not_succeededEmpty (setIterationRangeMin ctx)
        (answers Strategy.offset) false ho
      rw [hr]
      simp [ho]
  · intro rows last ho
    rw [ho, rangeEndPass_success]
    simp
  · intro rows last ho ht
    rw [rangeEndPass_succeededEmpty _ _ false ho, ht]
    simp only [Bool.false_eq_true, if_false]
    rw [rangeEndPass_success]
    simp

/-- Witness for C6: from the example context, an offset statement that delivers
nothing followed by a temp-table statement that delivers the key 9 commits 9 with
`hasMore = true`, and both passes were run. -/
theorem C6_temptable_iff_offset_empty_witness :
    exampleContext.UniqueKeyRangeMinValues ≠ none ∧
    exampleContext.UniqueKeyRangeMaxValues ≠ none ∧
    (CalculateNextIterationRangeEndValues exampleContext exampleTailAnswers).ret
      = some (true, none) ∧
    (CalculateNextIterationRangeEndValues exampleContext
        exampleTailAnswers).ctx.ChecksumIterationRangeMaxValues = some [Value.other "9"] ∧
    (CalculateNextIterationRangeEndValues exampleContext exampleTailAnswers).consulted
      = [Strategy.offset, Strategy.temptable] :=
  ⟨by decide, by decide,
    (C6_temptable_iff_offset_empty exampleContext exampleTailAnswers (by decide) (by decide)).2.2
      [] [Value.other "9"] ⟨rfl, rfl, rfl, rfl⟩ rfl⟩

/-- C7: with both global bounds read (for an empty table they hold nil values),
when the offset statement and the temp-table statement both go through without
error and deliver no row, `CalculateNextIterationRangeEndValues` returns
`hasMore = false` with a nil error and leaves the committed upper bound as it
was. -/
theorem C7_no_row_means_no_further_range (ctx : ChecksumContext)
    (answers : Strategy → QueryOutcome ColumnValues)
    (hmin : ctx.UniqueKeyRangeMinValues ≠ none) (hmax : ctx.UniqueKeyRangeMaxValues ≠ none)
    (hoffset : (answers Strategy.offset).succeededEmpty)
    (htemptable : (answers Strategy.temptable).succeededEmpty) :
    (CalculateNextIterationRangeEndValues ctx answers).ret = some (false, none) ∧
    (CalculateNextIterationRangeEndValues ctx answers).ctx.ChecksumIterationRangeMaxValues
      = ctx.ChecksumIterationRangeMaxValues ∧
    (CalculateNextIterationRangeEndValues ctx answers).consulted
      = [Strategy.offset, Strategy.temptable] := by
  rw [CalculateNext_unfold ctx answers hmin hmax,
    rangeEndPass_succeededEmpty _ _ false hoffset]
  simp only [Bool.false_eq_true, if_false]
  rw [rangeEndPass_succeededEmpty _ _ false htemptable]
  simp only [Bool.false_eq_true, if_false]
  exact ⟨trivial, setIterationRangeMin_upper ctx, trivial⟩

/-- Witness for C7: the context of an empty table (both readers found no row, so
the global bounds hold nil values) on its very first call. -/
theorem C7_no_row_means_no_further_range_witness :
    emptyTableContext.UniqueKeyRangeMinValues = some [Value.null] ∧
    emptyTableContext.UniqueKeyRangeMaxValues = some [Value.null] ∧
    emptyTableContext.ChecksumIterationRangeMaxValues = none ∧
    (CalculateNextIterationRangeEndValues emptyTableContext emptyAnswers).ret
      = some (false, none) ∧
    (CalculateNextIterationRangeEndValues emptyTableContext
        emptyAnswers).ctx.ChecksumIterationRangeMaxValues = none :=
  ⟨by decide, by decide, by decide,
    (C7_no_row_means_no_further_range emptyTableContext emptyAnswers (by decide) (by decide)
      ⟨rfl, rfl, rfl, rfl⟩ ⟨rfl, rfl, rfl, rfl⟩).1,
    (C7_no_row_means_no_further_range emptyTableContext emptyAnswers (by decide) (by decide)
      ⟨rfl, rfl, rfl, rfl⟩ ⟨rfl, rfl, rfl, rfl⟩).2.1⟩

/-- C8: after `SetChunkSize(n)` the stored `ChunkSize` is `n` clamped to
[10, 100000] (10 if n < 10, 100000 if n > 100000, n otherwise); it always lies in
[10, 100000], and setting the stored value again changes nothing. -/
theorem C8_SetChunkSize_clamps (ctx : BaseContext) (n : Int) :
    (ctx.SetChunkSize n).ChunkSize
      = (if n < 10 then 10 else if n > 100000 then 100000 else n) ∧
    10 ≤ (ctx.SetChunkSize n).ChunkSize ∧ (ctx.SetChunkSize n).ChunkSize ≤ 100000 ∧
    (ctx.SetChunkSize n).SetChunkSize (ctx.SetChunkSize n).ChunkSize = ctx.SetChunkSize n ∧
    (ctx.SetChunkSize n).IsSuperSetAsEqual = ctx.IsSuperSetAsEqual := by
  refine ⟨?_, ?_, ?_, ?_, rfl⟩
  · simp only [BaseContext.SetChunkSize]
    split_ifs <;> omega
  · simp only [BaseContext.SetChunkSize]
    split_ifs <;> omega
  · simp only [BaseContext.SetChunkSize]
    split_ifs <;> omega
  · simp only [BaseContext.SetChunkSize]
    congr 1
    split_ifs <;> omega

/-- C9: for record maps S (source) and T (target), `compareRecordSets` reports
SourceOnlyRecords = the number of keys in S but not in T, TargetOnlyRecords = the
number of keys in T but not in S, ModifiedRecords = the number of keys in both
whose checksums differ, and IdenticalRecords = the number of keys in both whose
checksums are equal. -/
theorem C9_compareRecordSets_counts (S T : RecordMap)
    (hS : S.keys.Nodup) (hT : T.keys.Nodup) :
    (compareRecordSets S T).SourceOnlyRecords = (S.keySet \ T.keySet).card ∧
    (compareRecordSets S T).TargetOnlyRecords = (T.keySet \ S.keySet).card ∧
    (compareRecordSets S T).ModifiedRecords =
      ((S.keySet ∩ T.keySet).filter (fun k => S.checksumAt k ≠ T.checksumAt k)).card ∧
    (compareRecordSets S T).IdenticalRecords =
      ((S.keySet ∩ T.keySet).filter (fun k => S.checksumAt k = T.checksumAt k)).card :=
  compareRecordSets_counts_card S T hS hT

/-- Witness for C9: source keys K1, K3, K4 and target keys K2, K3, K4, where K3
carries different checksums and K4 the same one: exactly one source-only, one
target-only, one modified and one identical row. -/
theorem C9_compareRecordSets_counts_witness :
    exampleSourceRecords.keys.Nodup ∧ exampleTargetRecords.keys.Nodup ∧
    (compareRecordSets exampleSourceRecords exampleTargetRecords).SourceOnlyRecords = 1 ∧
    (compareRecordSets exampleSourceRecords exampleTargetRecords).TargetOnlyRecords = 1 ∧
    (compareRecordSets exampleSourceRecords exampleTargetRecords).ModifiedRecords = 1 ∧
    (compareRecordSets exampleSourceRecords exampleTargetRecords).IdenticalRecords = 1 ∧
    (exampleSourceRecords.keySet \ exampleTargetRecords.keySet).card = 1 ∧
    (exampleTargetRecords.keySet \ exampleSourceRecords.keySet).card = 1 :=
  ⟨by decide, by decide, by decide, by decide, by decide, by decide,
    (C9_compareRecordSets_counts exampleSourceRecords exampleTargetRecords
      (by decide) (by decide)).1.symm.trans (by decide),
    (C9_compareRecordSets_counts exampleSourceRecords exampleTargetRecords
      (by decide) (by decide)).2.1.symm.trans (by decide)⟩

set_option maxRecDepth 100000 in
/-- C10 (fails on the code): on a table with ids 1..120 at chunk size 10, where the
first eleven chunks hold 9 modified rows each and the twelfth holds 10, the run
returns without error and the aggregate report holds 109 sample differences,
more than the 100 the claim allows. -/
theorem C10_samples_exceed_100 :
    exampleAnalysis.outcome = AnalysisOutcome.returned none ∧
    exampleAnalysis.report.ModifiedRecords = 109 ∧
    exampleAnalysis.report.SampleDifferences.length = 109 ∧
    ¬ exampleAnalysis.report.SampleDifferences.length ≤ 100 := by
  decide

/-- C11: for all record maps S and T, the report of `compareRecordSets` holds
exactly min(10, SourceOnlyRecords + ModifiedRecords + TargetOnlyRecords) sample
differences, and every sample is tagged `source_only`, `modified` or
`target_only` in agreement with the classification of its key. -/
theorem C11_samples_count_and_tags (S T : RecordMap) :
    (compareRecordSets S T).SampleDifferences.length =
      min 10 ((compareRecordSets S T).SourceOnlyRecords +
        (compareRecordSets S T).ModifiedRecords + (compareRecordSets S T).TargetOnlyRecords) ∧
    (∀ d ∈ (compareRecordSets S T).SampleDifferences,
      (d.DifferenceType = "source_only" ∨ d.DifferenceType = "modified" ∨
        d.DifferenceType = "target_only") ∧ sampleAgrees S T d) := by
  obtain ⟨hlen, hall⟩ := samplesInvariant_compareRecordSets S T
  refine ⟨hlen, ?_⟩
  intro d hd
  refine ⟨?_, hall d hd⟩
  rcases hall d hd with ⟨e, _, _, h⟩ | ⟨e, _, t, _, _, h⟩ | ⟨e, _, _, h⟩
  · left; rw [h]; rfl
  · right; left; rw [h]; rfl
  · right; right; rw [h]; rfl

/-- Witness for C11: on the K1/K2/K3/K4 example the report holds three samples,
one per difference. -/
theorem C11_samples_count_and_tags_witness :
    (compareRecordSets exampleSourceRecords exampleTargetRecords).SampleDifferences.length = 3 ∧
    (compareRecordSets exampleSourceRecords exampleTargetRecords).SampleDifferences.map
        RecordDifference.DifferenceType = ["source_only", "modified", "target_only"] :=
  ⟨(C11_samples_count_and_tags exampleSourceRecords exampleTargetRecords).1.trans (by decide),
    by decide⟩

/-- C20: superset tolerance is monotone in the target: when the superset-mode
comparison judges source and target equal, it still judges them equal after any
additional element is inserted at any position of the target. -/
theorem C20_superset_monotone_in_target (source target : GoStrings)
    (pre post : List String) (x : String)
    (hsplit : target.elems = pre ++ post)
    (hequal : (IterationQueryChecksum true ⟨source, none⟩ ⟨target, none⟩).1 = true) :
    (IterationQueryChecksum true ⟨source, none⟩ ⟨some (pre ++ x :: post), none⟩).1 = true := by
  rw [superset_equal_iff] at hequal ⊢
  rw [hsplit] at hequal
  exact hequal.trans
    (List.Sublist.append_left (List.sublist_cons_self x post) pre)

/-- Witness for C20: source `[a, b]` is equal against target `[a, b]` and stays
equal when `x` is inserted between `a` and `b`. -/
theorem C20_superset_monotone_in_target_witness :
    (IterationQueryChecksum true ⟨some ["a", "b"], none⟩ ⟨some ["a", "b"], none⟩).1 = true ∧
    (IterationQueryChecksum true ⟨some ["a", "b"], none⟩ ⟨some ["a", "x", "b"], none⟩).1 = true :=
  ⟨by decide,
    C20_superset_monotone_in_target (some ["a", "b"]) (some ["a", "b"]) ["a"] ["b"] "x" rfl
      (by decide)⟩

/-- C18 (fails on the code as stated): the Iteration counter is an `int64`; at
the `int64` maximum `AddIteration` does not raise it by 1 but wraps it around to
the minimum. -/
theorem C18_AddIteration_wraps_at_maximum :
    ({ exampleContext with Iteration := 9223372036854775807 } :
        ChecksumContext).AddIteration.Iteration = -9223372036854775808 ∧
    ({ exampleContext with Iteration := 9223372036854775807 } :
        ChecksumContext).AddIteration.Iteration ≠
      ({ exampleContext with Iteration := 9223372036854775807 } :
        ChecksumContext).Iteration + 1 := by
  decide

/-- C18 (amended): the Iteration counter is incremented exactly once per completed
chunk, in `int64` arithmetic.  `AddIteration` leaves the counter plus 1 wrapped
to `int64`, which is the counter plus 1 for every value below the `int64`
maximum.  After a run of `AnalyzeAndReportDifferences` that returns no error,
started with an `int64` counter, the counter is the initial value plus the number
of calls of `CalculateNextIterationRangeEndValues` that reported a further range,
wrapped to `int64`, so it has grown by exactly that number whenever the sum stays
below `2^63`; the last call of the run is the exhausted one, which is not
counted. -/
theorem C18_iteration_once_per_chunk (ctx : ChecksumContext)
    (minAnswer maxAnswer : QueryOutcome ColumnValues) (chunks : List ChunkAnswers)
    (hlo : -9223372036854775808 ≤ ctx.Iteration) (hhi : ctx.Iteration < 9223372036854775808)
    (hret : (AnalyzeAndReportDifferences ctx minAnswer maxAnswer chunks).outcome
      = AnalysisOutcome.returned none) :
    (∀ c : ChecksumContext, c.AddIteration.Iteration = wrapInt64 (c.Iteration + 1)) ∧
    (∀ c : ChecksumContext, -9223372036854775808 ≤ c.Iteration →
      c.Iteration < 9223372036854775807 → c.AddIteration.Iteration = c.Iteration + 1) ∧
    (AnalyzeAndReportDifferencesTraced ctx minAnswer maxAnswer chunks).1 =
      AnalyzeAndReportDifferences ctx minAnswer maxAnswer chunks ∧
    (AnalyzeAndReportDifferences ctx minAnswer maxAnswer chunks).ctx.Iteration =
      wrapInt64 (ctx.Iteration +
        (furtherRangeCalls
          (AnalyzeAndReportDifferencesTraced ctx minAnswer maxAnswer chunks).2 : Nat)) ∧
    (ctx.Iteration +
        (furtherRangeCalls
          (AnalyzeAndReportDifferencesTraced ctx minAnswer maxAnswer chunks).2 : Nat)
        < 9223372036854775808 →
      (AnalyzeAndReportDifferences ctx minAnswer maxAnswer chunks).ctx.Iteration =
        ctx.Iteration +
          (furtherRangeCalls
            (AnalyzeAndReportDifferencesTraced ctx minAnswer maxAnswer chunks).2 : Nat)) ∧
    (AnalyzeAndReportDifferencesTraced ctx minAnswer maxAnswer chunks).2.getLast?
      = some (some (false, none)) ∧
    (AnalyzeAndReportDifferencesTraced ctx minAnswer maxAnswer chunks).2.length =
      furtherRangeCalls (AnalyzeAndReportDifferencesTraced ctx minAnswer maxAnswer chunks).2
        + 1 := by
  have hcore : (AnalyzeAndReportDifferences ctx minAnswer maxAnswer chunks).ctx.Iteration =
        wrapInt64 (ctx.Iteration +
          (furtherRangeCalls
            (AnalyzeAndReportDifferencesTraced ctx minAnswer maxAnswer chunks).2 : Nat)) ∧
      (AnalyzeAndReportDifferencesTraced ctx minAnswer maxAnswer chunks).2.getLast?
        = some (some (false, none)) ∧
      (AnalyzeAndReportDifferencesTraced ctx minAnswer maxAnswer chunks).2.length =
        furtherRangeCalls (AnalyzeAndReportDifferencesTraced ctx minAnswer maxAnswer chunks).2
          + 1 := by
    rw [← AnalyzeAndReportDifferencesTraced_fst] at hret ⊢
    unfold AnalyzeAndReportDifferencesTraced at hret ⊢
    have hmin := ReadUniqueKeyRangeMinValues_Iteration ctx minAnswer
    rcases hrmin : ReadUniqueKeyRangeMinValues ctx minAnswer with ⟨ctx1, err1⟩
    rw [hrmin] at hret hmin
    cases err1 with
    | some e => simp at hret
    | none =>
      simp only at hret hmin ⊢
      have hmax := ReadUniqueKeyRangeMaxValues_Iteration ctx1 maxAnswer
      rcases hrmax : ReadUniqueKeyRangeMaxValues ctx1 maxAnswer with ⟨ctx2, err2⟩
      rw [hrmax] at hret hmax
      cases err2 with
      | some e => simp at hret
      | none =>
        simp only at hret hmax ⊢
        have h2eq : ctx2.Iteration = ctx.Iteration := hmax.trans hmin
        obtain ⟨h1, h2, h3⟩ := analyzeLoopTraced_Iteration chunks ctx2 emptyReport
          (by rw [h2eq]; exact hlo) (by rw [h2eq]; exact hhi) hret
        exact ⟨by rw [h1, h2eq], h2, h3⟩
  obtain ⟨c1, c2, c3⟩ := hcore
  refine ⟨fun _ => rfl, ?_, AnalyzeAndReportDifferencesTraced_fst _ _ _ _, c1, ?_, c2, c3⟩
  · intro c hclo hchi
    show wrapInt64 (c.Iteration + 1) = c.Iteration + 1
    exact wrapInt64_of_range _ (by omega) (by omega)
  · intro hsum
    rw [c1]
    exact wrapInt64_of_range _ (by omega) hsum

set_option maxRecDepth 100000 in
/-- C18 (amended) at an example: a run over two chunks makes three range calls,
returns no error and leaves the counter at 2. -/
theorem C18_iteration_once_per_chunk_witness :
    (AnalyzeAndReportDifferences exampleShortContext (QueryOutcome.success [[Value.other "1"]])
      (QueryOutcome.success [[Value.other "20"]]) exampleShortScript).outcome
        = AnalysisOutcome.returned none ∧
    (AnalyzeAndReportDifferences exampleShortContext (QueryOutcome.success [[Value.other "1"]])
      (QueryOutcome.success [[Value.other "20"]]) exampleShortScript).ctx.Iteration = 2 ∧
    exampleShortRun.2 = [some (true, none), some (true, none), some (false, none)] :=
  ⟨by decide,
    ((C18_iteration_once_per_chunk exampleShortContext
      (QueryOutcome.success [[Value.other "1"]]) (QueryOutcome.success [[Value.other "20"]])
      exampleShortScript (by decide) (by decide) (by decide)).2.2.2.2.1 (by decide)).trans
      (by decide),
    by decide⟩

/-- C15: when a non-empty column list is requested, `GetCheckColumns` sets
`CheckColumns` to `ParseColumnList` of the request, returns no error and makes no
database call; the column names are the comma-separated fields of the request
in order, and for every string `s`, `ParseColumnList(s).String() = s` and its
`Len` is the number of commas in `s` plus one. -/
theorem C15_requested_columns_verbatim (ctx : SchemaContext) (db : CheckColumnsAnswer)
    (hrequested : ctx.RequestedColumnNames ≠ "") :
    GetCheckColumns ctx db =
      ({ ctx with CheckColumns := some (ParseColumnList ctx.RequestedColumnNames) }, none, []) ∧
    (ParseColumnList ctx.RequestedColumnNames).Names
      = stringsSplitComma ctx.RequestedColumnNames ∧
    (∀ s : String, (ParseColumnList s).String = s ∧
      (ParseColumnList s).Len = s.data.count ',' + 1) := by
  refine ⟨?_, ParseColumnList_Names _, fun s => ⟨ParseColumnList_String s, ParseColumnList_Len s⟩⟩
  simp [GetCheckColumns, hrequested]

/-- Witness for C15: the request `id,name,ts` gives the three columns `id`,
`name`, `ts`, without any database call even when the database is down. -/
theorem C15_requested_columns_verbatim_witness :
    (GetCheckColumns (NewSchemaContext "id,name,ts")
        { beginErr := some "down", execErr := none, scan := Except.error "down",
          commitErr := none }).2 = (none, []) ∧
    (ParseColumnList "id,name,ts").Names = ["id", "name", "ts"] ∧
    (ParseColumnList "id,name,ts").String = "id,name,ts" ∧
    (ParseColumnList "id,name,ts").Len = 3 :=
  ⟨congrArg Prod.snd
      (C15_requested_columns_verbatim (NewSchemaContext "id,name,ts")
        { beginErr := some "down", execErr := none, scan := Except.error "down",
          commitErr := none } (by decide)).1,
    by decide, by decide, by decide⟩

/-- C12: `GetUniqueKeys` succeeds exactly when a candidate row was read and that
row has no nullable column; then the key it sets is that row's, a candidate
without nullable column.  When the row is nullable or no row could be read it
returns an error and leaves the context as it was, so that `UniqueKey` and
`UniqueIndexName` of a fresh context stay unset. -/
theorem C12_nullable_key_rejected (ctx : SchemaContext)
    (row : Except Error UniqueKeyCandidate) :
    ((GetUniqueKeys ctx row).2 = none ↔ ∃ r, row = Except.ok r ∧ r.HasNullable = false) ∧
    (∀ r, row = Except.ok r → r.HasNullable = false →
      (GetUniqueKeys ctx row).1.UniqueIndexName = r.IndexName ∧
      (GetUniqueKeys ctx row).1.UniqueKey = some (ParseColumnList r.ColumnNames)) ∧
    (∀ r, row = Except.ok r → r.HasNullable = true → (GetUniqueKeys ctx row).2 ≠ none) ∧
    ((GetUniqueKeys ctx row).2 ≠ none → (GetUniqueKeys ctx row).1 = ctx) ∧
    (∀ requested, (GetUniqueKeys (NewSchemaContext requested) row).2 ≠ none →
      (GetUniqueKeys (NewSchemaContext requested) row).1.UniqueKey = none ∧
      (GetUniqueKeys (NewSchemaContext requested) row).1.UniqueIndexName = "") ∧
    (∀ queryErr candidates, row = uniqueKeyRow queryErr candidates →
      (GetUniqueKeys ctx row).2 = none →
      ∃ r ∈ candidates, r.HasNullable = false ∧
        (GetUniqueKeys ctx row).1.UniqueIndexName = r.IndexName) := by
  have hunchanged : ∀ c : SchemaContext, (GetUniqueKeys c row).2 ≠ none →
      (GetUniqueKeys c row).1 = c := by
    intro c
    unfold GetUniqueKeys
    cases row with
    | error e => intro _; rfl
    | ok r =>
      simp only
      split_ifs
      · intro _; rfl
      · intro h; exact absurd rfl h
  refine ⟨?_, ?_, ?_, hunchanged ctx, ?_, ?_⟩
  · rw [GetUniqueKeys_err]
    cases row with
    | error e => simp
    | ok r => cases h : r.HasNullable <;> simp [h]
  · intro r hr hn
    subst hr
    simp [GetUniqueKeys, hn]
  · intro r hr hn
    subst hr
    simp [GetUniqueKeys, hn]
  · intro requested herr
    rw [hunchanged _ herr]
    exact ⟨rfl, rfl⟩
  · intro queryErr candidates hrow hok
    rw [GetUniqueKeys_err] at hok
    cases hr : row with
    | error e => rw [hr] at hok; simp at hok
    | ok r =>
      rw [hr] at hok
      have hn : r.HasNullable = false := by
        cases h : r.HasNullable
        · rfl
        · simp [h] at hok
      have hmem : r ∈ candidates := by
        rw [hrow] at hr
        unfold uniqueKeyRow at hr
        cases queryErr with
        | some e0 => simp at hr
        | none =>
          simp only at hr
          cases hs : selectByPriority candidates with
          | none => rw [hs] at hr; simp at hr
          | some c =>
            rw [hs] at hr
            simp only [Except.ok.injEq] at hr
            subst hr
            exact (selectByPriority_least candidates c hs).1
      exact ⟨r, hmem, hn, by simp [GetUniqueKeys, hn]⟩

/-- Witness for C12: a table whose only unique index is nullable is rejected and
the fresh context stays unset; with a primary key next to it the primary key is
set. -/
theorem C12_nullable_key_rejected_witness :
    GetUniqueKeys (NewSchemaContext "") (uniqueKeyRow none [exampleNullable]) =
      (NewSchemaContext "", some "critical: got an uniqueKey with null values") ∧
    (GetUniqueKeys (NewSchemaContext "") (uniqueKeyRow none [])).2 ≠ none ∧
    (GetUniqueKeys (NewSchemaContext "")
      (uniqueKeyRow none [exampleNullable, examplePrimary])).1.UniqueIndexName = "PRIMARY" :=
  ⟨by decide, by decide,
    ((C12_nullable_key_rejected (NewSchemaContext "")
      (uniqueKeyRow none [exampleNullable, examplePrimary])).2.1 examplePrimary
        rfl (by decide)).1⟩

/-- C13: the candidate row that `GetUniqueKeys` reads is one of the candidates and
comes no later than any candidate under the priority order of the specification,
written out criterion by criterion in `specNoLater`: the primary key before any
other index, then an index without nullable columns, then a leading column
without character set, then the leading-column type rank tinyint < smallint <
int < bigint < every other type, then fewest columns.  When a primary key is
among the candidates the row read is the primary key, and when the row read has
no nullable column it is the key `GetUniqueKeys` sets. -/
theorem C13_takes_least_candidate (candidates : List UniqueKeyCandidate)
    (row : UniqueKeyCandidate) (htaken : uniqueKeyRow none candidates = Except.ok row) :
    row ∈ candidates ∧
    (∀ other ∈ candidates, specNoLater row other) ∧
    ((∃ p ∈ candidates, p.IndexName = "PRIMARY") → row.IndexName = "PRIMARY") ∧
    (∀ ctx : SchemaContext, row.HasNullable = false →
      GetUniqueKeys ctx (uniqueKeyRow none candidates) =
        ({ ctx with UniqueKey := some (ParseColumnList row.ColumnNames)
                    UniqueIndexName := row.IndexName }, none)) := by
  have hsel : selectByPriority candidates = some row := by
    unfold uniqueKeyRow at htaken
    simp only at htaken
    cases hs : selectByPriority candidates with
    | none => rw [hs] at htaken; simp at htaken
    | some c =>
      rw [hs] at htaken
      simp only [Except.ok.injEq] at htaken
      rw [htaken]
  obtain ⟨hmem, hleast⟩ := selectByPriority_least candidates row hsel
  have hspec : ∀ other ∈ candidates, specNoLater row other :=
    fun other hother => (priorityLE_iff_specNoLater row other).1 (hleast other hother)
  refine ⟨hmem, hspec, ?_, ?_⟩
  · rintro ⟨p, hp, hname⟩
    rcases hspec p hp with ⟨h, _⟩ | ⟨h, _⟩
    · exact h
    · exact h.2 hname
  · intro ctx hn
    rw [htaken]
    simp [GetUniqueKeys, hn]

/-- Witness for C13: among a unique `int` index, a nullable `tinyint` index and
the `bigint` primary key, the primary key is read and set; without a primary key
the index without nullable column is read; a `varchar` index comes after a
numeric one, `smallint` before `int`, and of two `smallint` indexes the one with
fewer columns is read. -/
theorem C13_takes_least_candidate_witness :
    uniqueKeyRow none [exampleIndexA, exampleNullable, examplePrimary]
      = Except.ok examplePrimary ∧
    (∀ other ∈ [exampleIndexA, exampleNullable, examplePrimary],
      specNoLater examplePrimary other) ∧
    uniqueKeyRow none [exampleNullable, exampleIndexA] = Except.ok exampleIndexA ∧
    uniqueKeyRow none [exampleIndexText, exampleIndexA] = Except.ok exampleIndexA ∧
    uniqueKeyRow none [exampleIndexA, exampleIndexWide] = Except.ok exampleIndexWide ∧
    uniqueKeyRow none [exampleIndexWide, exampleIndexNarrow] = Except.ok exampleIndexNarrow :=
  ⟨rfl,
    (C13_takes_least_candidate [exampleIndexA, exampleNullable, examplePrimary] examplePrimary
      rfl).2.1,
    rfl, rfl, rfl, rfl⟩

/-- C14 (fails as stated): two unique indexes that agree on every `ORDER BY`
criterion are delivered in enumeration order, so the same set of candidates
resolves to `uk_a` in one order and to `uk_b` in the other. -/
theorem C14_order_dependent_on_ties :
    [exampleIndexA, exampleIndexB].Perm [exampleIndexB, exampleIndexA] ∧
    (GetUniqueKeys (NewSchemaContext "")
      (uniqueKeyRow none [exampleIndexA, exampleIndexB])).1.UniqueIndexName = "uk_a" ∧
    (GetUniqueKeys (NewSchemaContext "")
      (uniqueKeyRow none [exampleIndexB, exampleIndexA])).1.UniqueIndexName = "uk_b" ∧
    ¬ (∀ l1 l2 : List UniqueKeyCandidate, l1.Perm l2 →
        GetUniqueKeys (NewSchemaContext "") (uniqueKeyRow none l1) =
          GetUniqueKeys (NewSchemaContext "") (uniqueKeyRow none l2)) := by
  refine ⟨List.Perm.swap _ _ _, by decide, by decide, ?_⟩
  intro h
  have := h [exampleIndexA, exampleIndexB] [exampleIndexB, exampleIndexA] (List.Perm.swap _ _ _)
  revert this
  decide

/-- C14 (amended): for two enumerations of the same candidates, `GetUniqueKeys`
returns the same error or success, and the rows read have the same sort key
(primary, nullable, character set, type rank, column count); when no two
candidates share a sort key the whole result, index included, is the same.
Whatever row a server picks among the least ones, its sort key is the same. -/
theorem C14_deterministic_up_to_ties (ctx : SchemaContext) (queryErr : Option Error)
    (l1 l2 : List UniqueKeyCandidate) (hperm : l1.Perm l2) :
    (GetUniqueKeys ctx (uniqueKeyRow queryErr l1)).2 =
      (GetUniqueKeys ctx (uniqueKeyRow queryErr l2)).2 ∧
    (∀ r1 r2, uniqueKeyRow queryErr l1 = Except.ok r1 →
      uniqueKeyRow queryErr l2 = Except.ok r2 → r1.sortKey = r2.sortKey) ∧
    ((∀ a ∈ l1, ∀ b ∈ l1, a.sortKey = b.sortKey → a = b) →
      GetUniqueKeys ctx (uniqueKeyRow queryErr l1) =
        GetUniqueKeys ctx (uniqueKeyRow queryErr l2)) ∧
    (∀ r1 ∈ l1, ∀ r2 ∈ l2, (∀ other ∈ l1, priorityLE r1 other) →
      (∀ other ∈ l2, priorityLE r2 other) → r1.sortKey = r2.sortKey) := by
  obtain ⟨herr, hok⟩ := uniqueKeyRow_perm queryErr l1 l2 hperm
  refine ⟨?_, ?_, ?_, ?_⟩
  rotate_right
  · intro r1 hr1 r2 hr2 hleast1 hleast2
    exact lexLE_antisymm _ _ rfl (hleast1 r2 (hperm.mem_iff.2 hr2))
      (hleast2 r1 (hperm.mem_iff.1 hr1))
  · rw [GetUniqueKeys_err, GetUniqueKeys_err]
    cases h1 : uniqueKeyRow queryErr l1 with
    | error e => rw [herr e h1]
    | ok r1 =>
      obtain ⟨r2, h2, hkey, _⟩ := hok r1 h1
      rw [h2]
      simp only [sortKey_HasNullable r1 r2 hkey]
  · intro r1 r2 h1 h2
    obtain ⟨r, hr, hkey, _⟩ := hok r1 h1
    rw [h2] at hr
    simp only [Except.ok.injEq] at hr
    rw [hr]
    exact hkey
  · intro hinj
    cases h1 : uniqueKeyRow queryErr l1 with
    | error e => rw [herr e h1]
    | ok r1 =>
      obtain ⟨r2, h2, hkey, hmem2⟩ := hok r1 h1
      have hmem1 : r1 ∈ l1 := by
        unfold uniqueKeyRow at h1
        cases queryErr with
        | some e0 => simp at h1
        | none =>
          simp only at h1
          cases hs : selectByPriority l1 with
          | none => rw [hs] at h1; simp at h1
          | some c =>
            rw [hs] at h1
            simp only [Except.ok.injEq] at h1
            subst h1
            exact (selectByPriority_least l1 c hs).1
      rw [h2, hinj r1 hmem1 r2 hmem2 hkey]

/-- Witness for C14 (amended): the nullable index and the primary key have
different sort keys, so both enumerations resolve to the primary key. -/
theorem C14_deterministic_up_to_ties_witness :
    [exampleNullable, examplePrimary].Perm [examplePrimary, exampleNullable] ∧
    GetUniqueKeys (NewSchemaContext "") (uniqueKeyRow none [exampleNullable, examplePrimary]) =
      GetUniqueKeys (NewSchemaContext "") (uniqueKeyRow none [examplePrimary, exampleNullable]) :=
  ⟨List.Perm.swap _ _ _,
    (C14_deterministic_up_to_ties (NewSchemaContext "") none
      [exampleNullable, examplePrimary] [examplePrimary, exampleNullable]
      (List.Perm.swap _ _ _)).2.2.1 (by decide)⟩

/-- C19 (the code departs from the claim): on the range from 60 before the zero
time to 100 after it, in steps of 60, the first call of
`TimeRangeAdapter.CalculateNextIterationTimeRange` reports the window (-60, 0)
and the second the window (0, 60); the third call, which is not the first one,
reports a further range whose lower bound is `SpecifiedDatetimeRangeBegin` again
and not the previous window's upper bound 60. -/
theorem C19_third_window_starts_at_begin :
    (TimeRangeAdapter.CalculateNextIterationTimeRange exampleZeroCrossing).2.1 = true ∧
    exampleZeroCrossingFirst.TimeIterationRangeMinValue = -60 ∧
    exampleZeroCrossingFirst.TimeIterationRangeMaxValue = 0 ∧
    (TimeRangeAdapter.CalculateNextIterationTimeRange exampleZeroCrossingFirst).2.1 = true ∧
    exampleZeroCrossingSecond.TimeIterationRangeMinValue = 0 ∧
    exampleZeroCrossingSecond.TimeIterationRangeMaxValue = 60 ∧
    (TimeRangeAdapter.CalculateNextIterationTimeRange exampleZeroCrossingSecond).2.1 = true ∧
    (TimeRangeAdapter.CalculateNextIterationTimeRange exampleZeroCrossingSecond).1.TimeIterationRangeMinValue = -60 ∧
    (TimeRangeAdapter.CalculateNextIterationTimeRange exampleZeroCrossingSecond).1.TimeIterationRangeMinValue ≠
      exampleZeroCrossingSecond.TimeIterationRangeMaxValue := by
  decide

/-- C16: when the tracking database answers the resume statement in full and
every call of `performTableComparisonWithDiff` returns, `ResumeJob` processes
exactly the persisted pairs of the job whose status is `pending` or `running`,
each once, in ascending comparison-id order, and returns no error; a pair marked
`completed` is not among them. -/
theorem C16_resume_processes_pending (baseContext : BaseContext)
    (store : List PersistedComparison) (jobID : String)
    (answers : TableComparison → TableAnswers)
    (hreturns : ∀ t ∈ pendingTablesQuery store jobID,
      performTableComparisonWithDiff baseContext (answers t) ≠ AnalysisOutcome.unanswered) :
    (ResumeJob baseContext (QueryOutcome.success (pendingTablesQuery store jobID))
      answers).outcome = AnalysisOutcome.returned none ∧
    (ResumeJob baseContext (QueryOutcome.success (pendingTablesQuery store jobID))
      answers).processed = (pendingRows store jobID).map PersistedComparison.selected ∧
    (pendingRows store jobID).Perm
      (store.filter (fun row => decide (row.JobID = jobID) &&
        (decide (row.Status = "pending") || decide (row.Status = "running")))) ∧
    (pendingRows store jobID).Sorted (fun a b => a.ComparisonID ≤ b.ComparisonID) ∧
    (∀ row ∈ store, row.Status = "completed" → row ∉ pendingRows store jobID) := by
  obtain ⟨h1, h2, _⟩ := resumeLoop_spec baseContext answers (pendingTablesQuery store jobID)
    [] [] hreturns
  have hperm : (pendingRows store jobID).Perm
      (store.filter (PersistedComparison.isPendingOf jobID)) :=
    List.perm_insertionSort _ _
  refine ⟨?_, ?_, hperm, ?_, ?_⟩
  · simp only [ResumeJob, GetPendingTables_success]
    exact h2
  · simp only [ResumeJob, GetPendingTables_success]
    rw [h1]
    simp [pendingTablesQuery]
  · exact @List.sorted_insertionSort PersistedComparison
      (fun a b => a.ComparisonID ≤ b.ComparisonID) _
      ⟨fun a b => Int.le_total a.ComparisonID b.ComparisonID⟩
      ⟨fun _ _ _ hab hbc => Int.le_trans hab hbc⟩ _
  · intro row _ hcompleted hmem
    have hsel := (List.mem_filter.1 (hperm.mem_iff.1 hmem)).2
    simp [PersistedComparison.isPendingOf, hcompleted] at hsel

/-- Witness for C16: of the three pairs of `job1` (3 running, 1 completed,
2 pending) exactly the pairs 2 and 3 are processed, in that order. -/
theorem C16_resume_processes_pending_witness :
    (ResumeJob NewBaseContext (QueryOutcome.success (pendingTablesQuery exampleStore "job1"))
      exampleTableAnswers).outcome = AnalysisOutcome.returned none ∧
    (ResumeJob NewBaseContext (QueryOutcome.success (pendingTablesQuery exampleStore "job1"))
      exampleTableAnswers).processed.map TableComparison.ComparisonID = [2, 3] :=
  ⟨(C16_resume_processes_pending NewBaseContext exampleStore "job1" exampleTableAnswers
      (by decide)).1,
    (congrArg (List.map TableComparison.ComparisonID)
      (C16_resume_processes_pending NewBaseContext exampleStore "job1" exampleTableAnswers
        (by decide)).2.1).trans (by decide)⟩

/-- C17: `ResumeJob` returns an error exactly when `GetPendingTables` fails, and
then processes nothing.  When the pending pairs were read and every call of
`performTableComparisonWithDiff` returns, every pending pair is processed, in
order, whatever errors the calls return: the errors are logged and `ResumeJob`
returns nil. -/
theorem C17_pair_failure_does_not_stop (baseContext : BaseContext)
    (pending : QueryOutcome TableComparison) (answers : TableComparison → TableAnswers) :
    (∀ e, (ResumeJob baseContext pending answers).outcome = AnalysisOutcome.returned (some e) ↔
      ∃ e0, GetPendingTables pending = Except.error e0 ∧
        e = "failed to get pending tables: " ++ e0) ∧
    (∀ e0, GetPendingTables pending = Except.error e0 →
      (ResumeJob baseContext pending answers).processed = []) ∧
    (∀ tables, GetPendingTables pending = Except.ok tables →
      (∀ t ∈ tables,
        performTableComparisonWithDiff baseContext (answers t) ≠ AnalysisOutcome.unanswered) →
      (ResumeJob baseContext pending answers).processed = tables ∧
      (ResumeJob baseContext pending answers).outcome = AnalysisOutcome.returned none ∧
      (ResumeJob baseContext pending answers).failed =
        tables.filterMap (fun t =>
          match performTableComparisonWithDiff baseContext (answers t) with
          | AnalysisOutcome.returned (some e) => some (t.ComparisonID, e)
          | _ => none)) := by
  refine ⟨?_, ?_, ?_⟩
  · intro e
    unfold ResumeJob
    cases hg : GetPendingTables pending with
    | error e0 =>
      simp only [AnalysisOutcome.returned.injEq, Option.some.injEq, Except.error.injEq,
        exists_eq_left']
      exact eq_comm
    | ok tables =>
      constructor
      · intro h
        exact absurd h (resumeLoop_outcome baseContext answers tables [] [] e)
      · rintro ⟨e0, h, _⟩
        cases h
  · intro e0 hg
    simp [ResumeJob, hg]
  · intro tables hg hreturns
    obtain ⟨h1, h2, h3⟩ := resumeLoop_spec baseContext answers tables [] [] hreturns
    simp only [ResumeJob, hg]
    refine ⟨by simpa using h1, h2, by simpa using h3⟩

/-- Witness for C17: pair 2 fails in `GetUniqueKeys` (its table has no unique
index), pair 3 is still processed, the failure is logged and `ResumeJob` returns
nil. -/
theorem C17_pair_failure_does_not_stop_witness :
    performTableComparisonWithDiff NewBaseContext
      (exampleTableAnswers (PersistedComparison.selected
        { JobID := "job1", ComparisonID := 2, SourceDatabase := "src", SourceTable := "t2",
          TargetDatabase := "dst", TargetTable := "t2", Status := "pending" }))
      = AnalysisOutcome.returned (some "critical: get uniqueKey failed") ∧
    (ResumeJob NewBaseContext (QueryOutcome.success (pendingTablesQuery exampleStore "job1"))
      exampleTableAnswers).processed = pendingTablesQuery exampleStore "job1" ∧
    (ResumeJob NewBaseContext (QueryOutcome.success (pendingTablesQuery exampleStore "job1"))
      exampleTableAnswers).failed = [(2, "critical: get uniqueKey failed")] ∧
    (ResumeJob NewBaseContext (QueryOutcome.success (pendingTablesQuery exampleStore "job1"))
      exampleTableAnswers).outcome = AnalysisOutcome.returned none :=
  ⟨by decide,
    ((C17_pair_failure_does_not_stop NewBaseContext
      (QueryOutcome.success (pendingTablesQuery exampleStore "job1")) exampleTableAnswers).2.2
      (pendingTablesQuery exampleStore "job1") (GetPendingTables_success _) (by decide)).1,
    by decide, by decide⟩

/-- C29: a failed chunk advance can be retried.  Whenever
`CalculateNextIterationRangeEndValues` returns an error, the committed upper
bound `ChecksumIterationRangeMaxValues` of the context is the one from before the
call, and a following call on the context it left, whatever the answers to its
statements are, gives exactly what the same call with the same answers gives on
the context from before the failed call: the same chunk bounds, the same returned
values and the same statements run. -/
theorem C29_failed_advance_can_be_retried (ctx : ChecksumContext)
    (failed answers : Strategy → QueryOutcome ColumnValues) (has : Bool) (e : Error)
    (hret : (CalculateNextIterationRangeEndValues ctx failed).ret = some (has, some e)) :
    (CalculateNextIterationRangeEndValues ctx failed).ctx.ChecksumIterationRangeMaxValues =
        ctx.ChecksumIterationRangeMaxValues ∧
      CalculateNextIterationRangeEndValues
          (CalculateNextIterationRangeEndValues ctx failed).ctx answers =
        CalculateNextIterationRangeEndValues ctx answers := by
  have hctx : (CalculateNextIterationRangeEndValues ctx failed).ctx = setIterationRangeMin ctx := by
    apply CalculateNext_ctx_of_not_committed
    rw [hret]
    simp
  rw [hctx]
  refine ⟨setIterationRangeMin_upper ctx, ?_⟩
  unfold CalculateNextIterationRangeEndValues
  rw [setIterationRangeMin_idem]

/-- C29 at an example: after the chunk up to key 7 was committed, a call whose
statement fails is followed by a call that commits the same chunk (7, 9] as if
the failed call had not happened. -/
theorem C29_failed_advance_can_be_retried_witness :
    (CalculateNextIterationRangeEndValues exampleCommittedContext exampleFailedAnswers).ret =
        some (false, some "invalid connection") ∧
      (CalculateNextIterationRangeEndValues exampleCommittedContext
          exampleFailedAnswers).ctx.ChecksumIterationRangeMaxValues =
        some [Value.other "7"] ∧
      (CalculateNextIterationRangeEndValues
          (CalculateNextIterationRangeEndValues exampleCommittedContext exampleFailedAnswers).ctx
          exampleTailAnswers).ctx.ChecksumIterationRangeMinValues = some [Value.other "7"] ∧
      (CalculateNextIterationRangeEndValues
          (CalculateNextIterationRangeEndValues exampleCommittedContext exampleFailedAnswers).ctx
          exampleTailAnswers).ctx.ChecksumIterationRangeMaxValues = some [Value.other "9"] :=
  have h := C29_failed_advance_can_be_retried exampleCommittedContext exampleFailedAnswers
    exampleTailAnswers false "invalid connection" (by decide)
  ⟨by decide, by decide, by rw [h.2]; decide, by rw [h.2]; decide⟩

/-- C25: the counts of a chunk add up and are symmetric.  For record maps S
(source) and T (target), `compareRecordSets` reports SourceOnlyRecords +
ModifiedRecords + IdenticalRecords = the number of entries of S and
TargetOnlyRecords + ModifiedRecords + IdenticalRecords = the number of entries of
T; comparing T against S instead swaps the source-only and target-only counts and
leaves the modified and identical counts as they are. -/
theorem C25_counts_add_up_and_swap (S T : RecordMap)
    (hS : S.keys.Nodup) (hT : T.keys.Nodup) :
    (compareRecordSets S T).SourceOnlyRecords + (compareRecordSets S T).ModifiedRecords +
        (compareRecordSets S T).IdenticalRecords = S.length ∧
    (compareRecordSets S T).TargetOnlyRecords + (compareRecordSets S T).ModifiedRecords +
        (compareRecordSets S T).IdenticalRecords = T.length ∧
    (compareRecordSets T S).SourceOnlyRecords = (compareRecordSets S T).TargetOnlyRecords ∧
    (compareRecordSets T S).TargetOnlyRecords = (compareRecordSets S T).SourceOnlyRecords ∧
    (compareRecordSets T S).ModifiedRecords = (compareRecordSets S T).ModifiedRecords ∧
    (compareRecordSets T S).IdenticalRecords = (compareRecordSets S T).IdenticalRecords := by
  obtain ⟨a1, a2, a3, a4⟩ := compareRecordSets_counts_card S T hS hT
  obtain ⟨b1, b2, b3, b4⟩ := compareRecordSets_counts_card T S hT hS
  have hsplit : ((S.keySet ∩ T.keySet).filter (fun k => S.checksumAt k ≠ T.checksumAt k)).card +
      ((S.keySet ∩ T.keySet).filter (fun k => S.checksumAt k = T.checksumAt k)).card =
      (S.keySet ∩ T.keySet).card := by
    rw [Nat.add_comm]
    exact Finset.filter_card_add_filter_neg_card_eq_card _
  have hSsum := Finset.card_sdiff_add_card_inter S.keySet T.keySet
  have hTsum := Finset.card_sdiff_add_card_inter T.keySet S.keySet
  rw [Finset.inter_comm T.keySet S.keySet] at hTsum
  have hmod : ((T.keySet ∩ S.keySet).filter (fun k => T.checksumAt k ≠ S.checksumAt k)) =
      ((S.keySet ∩ T.keySet).filter (fun k => S.checksumAt k ≠ T.checksumAt k)) := by
    rw [Finset.inter_comm]
    apply Finset.filter_congr
    intro k _
    exact ne_comm
  have hid : ((T.keySet ∩ S.keySet).filter (fun k => T.checksumAt k = S.checksumAt k)) =
      ((S.keySet ∩ T.keySet).filter (fun k => S.checksumAt k = T.checksumAt k)) := by
    rw [Finset.inter_comm]
    apply Finset.filter_congr
    intro k _
    exact eq_comm
  refine ⟨?_, ?_, ?_, ?_, ?_, ?_⟩
  · rw [a1, a3, a4, RecordMap.length_eq_card S hS]
    omega
  · rw [a2, a3, a4, RecordMap.length_eq_card T hT]
    omega
  · rw [b1, a2]
  · rw [b2, a1]
  · rw [b3, a3, hmod]
  · rw [b4, a4, hid]

/-- C25 at an example: source keys K1, K3, K4 against target keys K2, K3, K4 give
1 + 1 + 1 = 3 entries on each side, and the swapped comparison gives the same
counts with source-only and target-only exchanged. -/
theorem C25_counts_add_up_and_swap_witness :
    exampleSourceRecords.keys.Nodup ∧ exampleTargetRecords.keys.Nodup ∧
    (compareRecordSets exampleSourceRecords exampleTargetRecords).SourceOnlyRecords +
        (compareRecordSets exampleSourceRecords exampleTargetRecords).ModifiedRecords +
        (compareRecordSets exampleSourceRecords exampleTargetRecords).IdenticalRecords = 3 ∧
    (compareRecordSets exampleTargetRecords exampleSourceRecords).ModifiedRecords =
      (compareRecordSets exampleSourceRecords exampleTargetRecords).ModifiedRecords :=
  ⟨by decide, by decide,
    (C25_counts_add_up_and_swap exampleSourceRecords exampleTargetRecords
      (by decide) (by decide)).1,
    (C25_counts_add_up_and_swap exampleSourceRecords exampleTargetRecords
      (by decide) (by decide)).2.2.2.2.1⟩

/-- C21: `GetColumn` finds a column by name.  For every column list built by
`NewColumnList` or `ParseColumnList` and every name: when the name occurs in the
list, `Ordinals` maps it to a position of the list that holds a column of that
name and `GetColumn` returns the pointer to that column; when the names of the
list are pairwise distinct, the name at position `i` is mapped to `i` itself and
`GetColumn` returns the pointer to position `i`; when the name does not occur,
`GetColumn` returns nil. -/
theorem C21_GetColumn_finds_name (cl : ColumnList) (columnName : String)
    (hcl : (∃ names, cl = NewColumnList names) ∨ (∃ s, cl = ParseColumnList s)) :
    (columnName ∈ cl.Names →
      ∃ i column, cl.Ordinals.get columnName = some i ∧ cl.columns[i]? = some column ∧
        column.Name = columnName ∧
        cl.GetColumn columnName = ColumnPointer.element i column) ∧
    (cl.Names.Nodup → ∀ i, cl.Names[i]? = some columnName →
      cl.Ordinals.get columnName = some i ∧
        cl.GetColumn columnName = ColumnPointer.element i { Name := columnName }) ∧
    (columnName ∉ cl.Names → cl.GetColumn columnName = ColumnPointer.nil) := by
  obtain ⟨names, hnames⟩ : ∃ names, cl = NewColumnList names := by
    rcases hcl with h | ⟨s, h⟩
    · exact h
    · exact ⟨stringsSplitComma s, h.trans (ParseColumnList_eq s)⟩
  subst hnames
  refine ⟨?_, ?_, ?_⟩
  · intro hmem
    obtain ⟨j, column, h1, h2, h3⟩ :=
      newColumnsMapFrom_get_of_mem columnName (NewColumns names) 0 [] hmem
    rw [Nat.zero_add] at h1
    refine ⟨j, column, h1, h2, h3, ?_⟩
    have h1a : (NewColumnList names).Ordinals.get columnName = some j := h1
    have h2a : (NewColumnList names).columns[j]? = some column := h2
    simp only [ColumnList.GetColumn, h1a, h2a]
  · intro hnodup i hi
    have hcol : (NewColumns names)[i]? = some { Name := columnName } := by
      rw [NewColumnList_Names] at hi
      simp [NewColumns, hi]
    have hget := newColumnsMapFrom_get_of_nodup (NewColumns names) 0 [] hnodup i _ hcol
    rw [Nat.zero_add] at hget
    have h1a : (NewColumnList names).Ordinals.get columnName = some i := hget
    have h2a : (NewColumnList names).columns[i]? = some { Name := columnName } := hcol
    refine ⟨h1a, ?_⟩
    simp only [ColumnList.GetColumn, h1a, h2a]
  · intro hnot
    have hget := newColumnsMapFrom_get_of_not_mem columnName (NewColumns names) 0 [] hnot
    have h1a : (NewColumnList names).Ordinals.get columnName = none := hget
    simp only [ColumnList.GetColumn, h1a]

/-- C21 at an example: in the list parsed from "id,name,id" the name `id` is found
at the last position carrying it, `name` at position 1, and `age` is not found. -/
theorem C21_GetColumn_finds_name_witness :
    (ParseColumnList "id,name,id").GetColumn "id" = ColumnPointer.element 2 { Name := "id" } ∧
    (ParseColumnList "id,name,id").GetColumn "name" =
      ColumnPointer.element 1 { Name := "name" } ∧
    (ParseColumnList "id,name,id").GetColumn "age" = ColumnPointer.nil ∧
    (ParseColumnList "id,name").GetColumn "name" = ColumnPointer.element 1 { Name := "name" } :=
  ⟨by decide, by decide,
    (C21_GetColumn_finds_name (ParseColumnList "id,name,id") "age"
      (Or.inr ⟨"id,name,id", rfl⟩)).2.2 (by decide),
    ((C21_GetColumn_finds_name (ParseColumnList "id,name") "name"
      (Or.inr ⟨"id,name", rfl⟩)).2.1 (by decide) 1 (by decide)).2⟩

/-- C24: every execution path of `QueryChecksumFunc` (builder error, query error,
row-scan error, cursor error, success) sends exactly one result on its channel,
and `IterationQueryChecksum`, which receives one result from each of the two
queues before it decides, always completes both receives and decides on the pair
of both sides' results. -/
theorem C24_one_result_per_side :
    (∀ (q : QueryOutcome Value),
      (QueryChecksumFuncSent q).length = 1 ∧ QueryChecksumFuncSent q = [QueryChecksumFunc q]) ∧
    (∀ (q : QueryOutcome Value) (e : Error),
      (q.buildErr = some e → QueryChecksumFuncSent q = [{ result := none, err := some e }]) ∧
      (q.buildErr = none → q.queryErr = some e →
        QueryChecksumFuncSent q = [{ result := none, err := some e }])) ∧
    (∀ (isSuperSetAsEqual : Bool) (source target : QueryOutcome Value),
      IterationQueryChecksumRun isSuperSetAsEqual source target =
        some (IterationQueryChecksum isSuperSetAsEqual
          (QueryChecksumFunc source) (QueryChecksumFunc target))) := by
  refine ⟨?_, ?_, ?_⟩
  · intro q
    rw [QueryChecksumFuncSent_eq]
    exact ⟨rfl, rfl⟩
  · intro q e
    refine ⟨?_, ?_⟩
    · intro hb
      simp only [QueryChecksumFuncSent, hb]
    · intro hb hq
      simp only [QueryChecksumFuncSent, hb, hq]
  · intro isSuperSetAsEqual source target
    simp only [IterationQueryChecksumRun, QueryChecksumFuncSent_eq, receiveFrom, List.head?_cons]

set_option maxRecDepth 100000 in
/-- C22 (the code departs from the claim): on a table with the ids 1..20 at chunk
size 10, chunk 0 has the bounds 1 and 10 and chunk 1, in iteration 1, the bounds
10 and 20; the statement `buildRecordQuery` builds for chunk 1 compares its range
start with `>=`, so it keeps the row with key 10, which the statement of chunk 0
keeps as well.  The boundary row is fetched and counted in both chunks: the run
over two equal tables of 20 rows reports 21 identical records. -/
theorem C22_boundary_row_in_both_chunks :
    exampleBoundaryChunk1.Iteration = 1 ∧
    buildRecordQuery exampleBoundaryChunk0 =
      some { rangeStartSign := ComparisonSign.GreaterThanOrEqualsComparisonSign
             rangeStartArgs := [Value.other "1"]
             rangeEndSign := ComparisonSign.LessThanOrEqualsComparisonSign
             rangeEndArgs := [Value.other "10"] } ∧
    buildRecordQuery exampleBoundaryChunk1 =
      some { rangeStartSign := ComparisonSign.GreaterThanOrEqualsComparisonSign
             rangeStartArgs := [Value.other "10"]
             rangeEndSign := ComparisonSign.LessThanOrEqualsComparisonSign
             rangeEndArgs := [Value.other "20"] } ∧
    (recordQueryAnswer numericKeyLE exampleBoundaryChunk0 exampleBoundaryTable).rows.length = 10 ∧
    (recordQueryAnswer numericKeyLE exampleBoundaryChunk1 exampleBoundaryTable).rows.length = 11 ∧
    RowScan.ok (exampleSourceRow 10) ∈
      (recordQueryAnswer numericKeyLE exampleBoundaryChunk0 exampleBoundaryTable).rows ∧
    RowScan.ok (exampleSourceRow 10) ∈
      (recordQueryAnswer numericKeyLE exampleBoundaryChunk1 exampleBoundaryTable).rows ∧
    exampleBoundaryTable.length = 20 ∧
    exampleBoundaryRun.outcome = AnalysisOutcome.returned none ∧
    exampleBoundaryRun.report.IdenticalRecords = 21 := by
  decide

set_option maxRecDepth 100000 in
/-- C23 (the code departs from the claim): on a context that already holds the
committed upper bound 50, `AnalyzeAndReportDifferences` reads the global minimum
1 afresh, yet the first chunk it analyzes has the lower bound 50 and the upper
bound 60; the whole run returns nil after seven chunks, none of which starts
below key 50. -/
theorem C23_first_chunk_starts_at_stale_bound :
    exampleStaleContext.ChecksumIterationRangeMaxValues = some [Value.other "50"] ∧
    exampleStaleFirstChunk.ctx.UniqueKeyRangeMinValues = some [Value.other "1"] ∧
    exampleStaleFirstChunk.ctx.ChecksumIterationRangeMinValues = some [Value.other "50"] ∧
    exampleStaleFirstChunk.ctx.ChecksumIterationRangeMaxValues = some [Value.other "60"] ∧
    exampleStaleFirstChunk.ctx.Iteration = 6 ∧
    exampleStaleRun.1.outcome = AnalysisOutcome.returned none ∧
    furtherRangeCalls exampleStaleRun.2 = 7 := by
  decide

/-- C26 (fails on the code as stated): the key tuples ("a|b", "c") and ("a", "b|c")
have the same arity and different rendered values, yet both yield the map key
"a|b|c", so the two rows collapse into one map entry, which holds the second
row. -/
theorem C26_separator_in_value_collides :
    (exampleBarRows.map (fun row => row.1.length)) = [2, 2] ∧
    (exampleBarRows.map (fun row => row.1.map sprintfV)) = [["a|b", "c"], ["a", "b|c"]] ∧
    (exampleBarRows.map (fun row => pkKey row.1)) = ["a|b|c", "a|b|c"] ∧
    scanRecordRows ["k1", "k2"] (exampleBarRows.map RowScan.ok) [] =
      Except.ok [("a|b|c",
        { PrimaryKeyValues := [("k1", Value.other "a"), ("k2", Value.other "b|c")],
          Checksum := "7a08" })] :=
  ⟨by decide, by decide, by decide, rfl⟩

/-- C26 (amended): in `getChunkRecords` the map key of a fetched row is its
key-column values rendered as text and joined with `|`.  For rows whose key
tuples have the same arity and whose rendered key values hold no `|` (the
renderings of nil and of `[]uint8` values never do), two different tuples of
rendered values never yield the same map key; so when the rendered tuples of the
fetched rows are pairwise different, the map has one entry per row, under the
rows' keys. -/
theorem C26_distinct_rows_keep_distinct_keys (uniqueKey : List String) (arity : Nat)
    (rows : List (ColumnValues × Value))
    (harity : ∀ row ∈ rows, row.1.length = arity)
    (hfree : ∀ row ∈ rows, ∀ v ∈ row.1, rendersWithoutSeparator v = true)
    (hdistinct : (rows.map (fun row => row.1.map sprintfV)).Nodup) :
    (∀ r1 ∈ rows, ∀ r2 ∈ rows,
      r1.1.map sprintfV ≠ r2.1.map sprintfV → pkKey r1.1 ≠ pkKey r2.1) ∧
    ∃ fetched, scanRecordRows uniqueKey (rows.map RowScan.ok) [] = Except.ok fetched ∧
      fetched.keys = rows.map (fun row => pkKey row.1) ∧ fetched.length = rows.length := by
  have hother : ∀ row ∈ rows, ∀ v ∈ row.1, ∀ rendered, v = Value.other rendered →
      '|' ∉ rendered.data := by
    intro row hrow v hv rendered hr
    have := hfree row hrow v hv
    rw [hr] at this
    simpa [rendersWithoutSeparator] using this
  have hinj : ∀ r1 ∈ rows, ∀ r2 ∈ rows, pkKey r1.1 = pkKey r2.1 →
      r1.1.map sprintfV = r2.1.map sprintfV := by
    intro r1 h1 r2 h2 h
    exact pkKey_injective r1.1 r2.1 ((harity r1 h1).trans (harity r2 h2).symm)
      (hother r1 h1) (hother r2 h2) h
  have hkeys : (rows.map (fun row => pkKey row.1)).Nodup := by
    have hcomp : rows.map (fun row => pkKey row.1) =
        (rows.map (fun row => row.1.map sprintfV)).map (fun t => "|".intercalate t) := by
      simp [pkKey, Function.comp_def]
    rw [hcomp]
    apply List.Nodup.map_on _ hdistinct
    intro t1 ht1 t2 ht2 h
    obtain ⟨r1, hr1, rfl⟩ := List.mem_map.1 ht1
    obtain ⟨r2, hr2, rfl⟩ := List.mem_map.1 ht2
    exact hinj r1 hr1 r2 hr2 h
  refine ⟨fun r1 h1 r2 h2 hne h => hne (hinj r1 h1 r2 h2 h), ?_⟩
  obtain ⟨fetched, hf1, hf2⟩ := scanRecordRows_keys uniqueKey rows [] (by simpa [RecordMap.keys] using hkeys)
  have hf3 : fetched.keys = rows.map (fun row => pkKey row.1) := by
    simpa [RecordMap.keys] using hf2
  refine ⟨fetched, hf1, hf3, ?_⟩
  have := congrArg List.length hf3
  simpa [RecordMap.keys] using this

/-- C26 (amended) at an example: the rows with the keys (1, "a|b" as bytes) and
(2, nil) are stored under two map entries. -/
theorem C26_distinct_rows_keep_distinct_keys_witness :
    ∃ fetched, scanRecordRows ["k1", "k2"] (exampleBytesRows.map RowScan.ok) [] =
        Except.ok fetched ∧ fetched.length = 2 :=
  have h := (C26_distinct_rows_keep_distinct_keys ["k1", "k2"] 2 exampleBytesRows
    (by decide) (by decide) (by decide)).2
  h.imp (fun _ hf => ⟨hf.1, hf.2.2⟩)

/-- C27 (the code departs from the claim): for Begin = -60 (a non-zero instant, 60
before the zero time), End = 100 and step 60 the number of windows is
ceil(160 / 60) = 3, but the second window ends at the zero time, the third call
of the adapter's stepper takes the zero lower bound for a first call and starts
again from Begin, and every call reports a further range: the stepper never
reports none.  The stepper of timecolumn.go, which recognises the first call by
the iteration counter, reports three windows on the same range and then none. -/
theorem C27_restarts_at_zero_time :
    windowCount (-60) 100 60 = 3 ∧
    (TimeRangeAdapter.CalculateNextIterationTimeRange (afterCalls TimeRangeAdapter.CalculateNextIterationTimeRange 2 exampleZeroCrossing)).1.TimeIterationRangeMinValue = -60 ∧
    (∀ k : Nat, (TimeRangeAdapter.CalculateNextIterationTimeRange (afterCalls TimeRangeAdapter.CalculateNextIterationTimeRange k exampleZeroCrossing)).2.1 = true) ∧
    (∀ k : Nat, (afterCalls TimeRangeAdapter.CalculateNextIterationTimeRange k exampleZeroCrossing).TimeIterationRangeMaxValue ≠ 100) ∧
    (ChecksumContext.CalculateNextIterationTimeRange (afterCalls ChecksumContext.CalculateNextIterationTimeRange 2 exampleZeroCrossing)).2.1 = true ∧
    (ChecksumContext.CalculateNextIterationTimeRange (afterCalls ChecksumContext.CalculateNextIterationTimeRange 2 exampleZeroCrossing)).1.TimeIterationRangeMaxValue = 100 ∧
    (ChecksumContext.CalculateNextIterationTimeRange (afterCalls ChecksumContext.CalculateNextIterationTimeRange 3 exampleZeroCrossing)).2.1 = false := by
  refine ⟨by decide, by decide, zeroCrossing_returns, ?_, by decide, by decide, by decide⟩
  intro k
  obtain ⟨_, _, _, i4⟩ := zeroCrossing_invariant k
  rcases i4 with ⟨_, m2⟩ | ⟨_, m2⟩ | ⟨_, m2⟩ <;> rw [m2] <;> decide

/-- C28 (the code departs from the claim): for Begin = -60 (non-zero), End = 100
and step 60 the second window ends at the zero time; in the third call the
adapter's stepper starts again from Begin and leaves the window from -60 to 0,
while the stepper of timecolumn.go leaves the window from 60 to 100, and in the
fifth call the adapter's stepper reports a further range where the stepper of
timecolumn.go reports none. -/
theorem C28_steppers_differ_at_zero_time :
    (TimeRangeAdapter.CalculateNextIterationTimeRange (afterCalls TimeRangeAdapter.CalculateNextIterationTimeRange 2 exampleZeroCrossing)).1.TimeIterationRangeMinValue = -60 ∧
    (TimeRangeAdapter.CalculateNextIterationTimeRange (afterCalls TimeRangeAdapter.CalculateNextIterationTimeRange 2 exampleZeroCrossing)).1.TimeIterationRangeMaxValue = 0 ∧
    (ChecksumContext.CalculateNextIterationTimeRange (afterCalls ChecksumContext.CalculateNextIterationTimeRange 2 exampleZeroCrossing)).1.TimeIterationRangeMinValue = 60 ∧
    (ChecksumContext.CalculateNextIterationTimeRange (afterCalls ChecksumContext.CalculateNextIterationTimeRange 2 exampleZeroCrossing)).1.TimeIterationRangeMaxValue = 100 ∧
    (TimeRangeAdapter.CalculateNextIterationTimeRange (afterCalls TimeRangeAdapter.CalculateNextIterationTimeRange 4 exampleZeroCrossing)).2.1 = true ∧
    (ChecksumContext.CalculateNextIterationTimeRange (afterCalls ChecksumContext.CalculateNextIterationTimeRange 4 exampleZeroCrossing)).2.1 = false := by
  decide

end GoDataChecksum
